import Mathlib

/-!
# RapaMediaFoundation: image conversion, vertical flip, the capture session and the manager

A shallow embedding of `RMFImageConverter.cpp`, `RMFDevice.cpp`,
`RMFDeviceInternals.cpp` and `RMFDeviceManager.cpp`.

Conventions of the embedding:

* an `unsigned char` is a `Byte` (`Fin 256`); a buffer is the list of its bytes;
* a pointer into a buffer is its offset from the start of the buffer;
* a routine `bool f( const Image& source, Image& destination )` becomes a function
  returning the `bool` together with both images as they are after the call
  (the two images are distinct objects);
* `int` arithmetic is done in `Int`: with byte inputs no intermediate value of
  the colour transform leaves the 32-bit range;
* `unsigned int` counters that can reach their limit are reduced modulo `2^32`;
* a listener pointer is a `Nat`, a device pointer of the manager is the creation number of
  the object it points to, and the calls made on listeners are recorded in the state.
-/

set_option autoImplicit false

namespace RMF

/-! ## Data model -/

/-- An `unsigned char`. -/
abbrev Byte := Fin 256

/-- Read `bytes[i]`. -/
def readByte (bytes : List Byte) (i : Nat) : Byte := bytes.getD i 0

/-- Assign `bytes[i] = b`. -/
def writeByte (bytes : List Byte) (i : Nat) (b : Byte) : List Byte := bytes.set i b

/-- Modelled from the spec: `ImageFormat::Encoding` (header `RMFImageFormat.h` is not
among the sources); the three encodings the sources name. -/
inductive Encoding where
  | RGB24
  | BGR24
  | YUYV
  deriving DecidableEq, Repr

/-- Modelled from the spec: bytes per pixel of an encoding (3 for the two 24-bit
encodings, 2 for packed 4:2:2). -/
def Encoding.getNumBytesPerPixel : Encoding → Nat
  | .RGB24 => 3
  | .BGR24 => 3
  | .YUYV => 2

/-- Modelled from the spec: `ImageFormat` (header `RMFImageFormat.h` is not among the
sources): width, height and encoding, with structural equality. -/
structure ImageFormat where
  width : Nat
  height : Nat
  encoding : Encoding
  deriving DecidableEq, Repr

/-- Modelled from the spec: bytes-per-line = width × bytes-per-pixel, no padding. -/
def ImageFormat.getNumBytesPerLine (f : ImageFormat) : Nat :=
  f.width * f.encoding.getNumBytesPerPixel

/-- Modelled from the spec: total size = bytes-per-line × height. -/
def ImageFormat.getDataSizeInBytes (f : ImageFormat) : Nat :=
  f.getNumBytesPerLine * f.height

/-- Modelled from the spec: `MemoryBuffer` (header `RMFMemoryBuffer.h` is not among the
sources): a byte array whose size is fixed at construction. -/
structure MemoryBuffer where
  bytes : List Byte
  deriving DecidableEq, Repr

/-- Size of the buffer in bytes. -/
def MemoryBuffer.getSizeInBytes (b : MemoryBuffer) : Nat := b.bytes.length

/-- Modelled from the spec: `MemoryBuffer::copyFrom`, copy from another buffer of equal
size, failing (buffer untouched) otherwise. -/
def MemoryBuffer.copyFrom (self other : MemoryBuffer) : Bool × MemoryBuffer :=
  if self.getSizeInBytes ≠ other.getSizeInBytes then (false, self)
  else (true, { bytes := other.bytes })

/-- Modelled from the spec: `Image` (header `RMFImage.h` is not among the sources): a
format and a pixel buffer. -/
structure Image where
  format : ImageFormat
  buffer : MemoryBuffer
  deriving DecidableEq, Repr

/-- Modelled from the spec: the construction invariant of `Image`, buffer size equals
the size computed from the format. -/
abbrev Image.valid (img : Image) : Prop :=
  img.buffer.getSizeInBytes = img.format.getDataSizeInBytes

/-- The two images of a call `f( const Image& source, Image& destination )`. -/
structure Images where
  source : Image
  destination : Image
  deriving DecidableEq, Repr

/-- A loop `for ( unsigned int k=0; k<n; ++k ) body` whose body does not read `k`. -/
def forLoop {σ : Type} (n : Nat) (body : σ → σ) (s : σ) : σ :=
  match n with
  | 0 => s
  | n + 1 => forLoop n body (body s)

/-- The call `memcpy( dest + d, source + s, n )`, byte by byte. -/
def memcpy (dest : List Byte) (d : Nat) (source : List Byte) (s : Nat) : Nat → List Byte
  | 0 => dest
  | n + 1 => memcpy (writeByte dest d (readByte source s)) (d + 1) source (s + 1) n

/-! ## `RMFImageConverter.cpp` -/

/-- Modelled from the spec: `ImageConverter` (header `RMFImageConverter.h` is not among
the sources) holds one destination image of a fixed target format. -/
structure ImageConverter where
  mImage : Image
  deriving DecidableEq, Repr

namespace ImageConverter

/-- The macro `CLIP_INT_TO_UCHAR`. -/
def CLIP_INT_TO_UCHAR (value : Int) : Byte :=
  if value < 0 then 0 else if value > 255 then 255 else Fin.ofNat value.toNat

/-- Clamping to `[0,255]`, in the words of the specification. -/
def clip (x : Int) : Int := max 0 (min 255 x)

/-- Specification of the red channel: `clip((298c + 409e + 128) >> 8)` with
`c = luma-16`, `e = v-128`, the shift being the floor division by 256. -/
def specRed (luma _u v : Byte) : Int :=
  clip (Int.fdiv (298 * ((luma.val : Int) - 16) + 409 * ((v.val : Int) - 128) + 128) 256)

/-- Specification of the green channel: `clip((298c - 100d - 208e + 128) >> 8)` with
`c = luma-16`, `d = u-128`, `e = v-128`. -/
def specGreen (luma u v : Byte) : Int :=
  clip (Int.fdiv (298 * ((luma.val : Int) - 16) - 100 * ((u.val : Int) - 128)
    - 208 * ((v.val : Int) - 128) + 128) 256)

/-- Specification of the blue channel: `clip((298c + 516d + 128) >> 8)` with
`c = luma-16`, `d = u-128`. -/
def specBlue (luma u _v : Byte) : Int :=
  clip (Int.fdiv (298 * ((luma.val : Int) - 16) + 516 * ((u.val : Int) - 128) + 128) 256)

/-- The buffers and moving pointers of a conversion loop: `sourceBytes` and `destBytes`
are the offsets of the two pointers from the start of their buffers. -/
structure PixelLoop where
  source : List Byte
  dest : List Byte
  sourceBytes : Nat
  destBytes : Nat
  deriving DecidableEq, Repr

/-- Body of the inner loop of `convertYUYVImageToRGB24Image`. -/
def yuyvToRGB24Body (s : PixelLoop) : PixelLoop :=
  let y0 : Int := (readByte s.source (s.sourceBytes + 0)).val
  let u0 : Int := (readByte s.source (s.sourceBytes + 1)).val
  let y1 : Int := (readByte s.source (s.sourceBytes + 2)).val
  let v0 : Int := (readByte s.source (s.sourceBytes + 3)).val
  let sourceBytes := s.sourceBytes + 4
  let c : Int := y0 - 16
  let d : Int := u0 - 128
  let e : Int := v0 - 128
  let dest := writeByte s.dest (s.destBytes + 0) (CLIP_INT_TO_UCHAR ((298 * c + 409 * e + 128) >>> (8 : Nat)))
  let dest := writeByte dest (s.destBytes + 1) (CLIP_INT_TO_UCHAR ((298 * c - 100 * d - 208 * e + 128) >>> (8 : Nat)))
  let dest := writeByte dest (s.destBytes + 2) (CLIP_INT_TO_UCHAR ((298 * c + 516 * d + 128) >>> (8 : Nat)))
  let c : Int := y1 - 16
  let dest := writeByte dest (s.destBytes + 3) (CLIP_INT_TO_UCHAR ((298 * c + 409 * e + 128) >>> (8 : Nat)))
  let dest := writeByte dest (s.destBytes + 4) (CLIP_INT_TO_UCHAR ((298 * c - 100 * d - 208 * e + 128) >>> (8 : Nat)))
  let dest := writeByte dest (s.destBytes + 5) (CLIP_INT_TO_UCHAR ((298 * c + 516 * d + 128) >>> (8 : Nat)))
  { source := s.source, dest := dest, sourceBytes := sourceBytes, destBytes := s.destBytes + 6 }

/-- Body of the inner loop of `convertYUYVImageToBGR24Image`. -/
def yuyvToBGR24Body (s : PixelLoop) : PixelLoop :=
  let y0 : Int := (readByte s.source (s.sourceBytes + 0)).val
  let u0 : Int := (readByte s.source (s.sourceBytes + 1)).val
  let y1 : Int := (readByte s.source (s.sourceBytes + 2)).val
  let v0 : Int := (readByte s.source (s.sourceBytes + 3)).val
  let sourceBytes := s.sourceBytes + 4
  let c : Int := y0 - 16
  let d : Int := u0 - 128
  let e : Int := v0 - 128
  let dest := writeByte s.dest (s.destBytes + 0) (CLIP_INT_TO_UCHAR ((298 * c + 516 * d + 128) >>> (8 : Nat)))
  let dest := writeByte dest (s.destBytes + 1) (CLIP_INT_TO_UCHAR ((298 * c - 100 * d - 208 * e + 128) >>> (8 : Nat)))
  let dest := writeByte dest (s.destBytes + 2) (CLIP_INT_TO_UCHAR ((298 * c + 409 * e + 128) >>> (8 : Nat)))
  let c : Int := y1 - 16
  let dest := writeByte dest (s.destBytes + 3) (CLIP_INT_TO_UCHAR ((298 * c + 516 * d + 128) >>> (8 : Nat)))
  let dest := writeByte dest (s.destBytes + 4) (CLIP_INT_TO_UCHAR ((298 * c - 100 * d - 208 * e + 128) >>> (8 : Nat)))
  let dest := writeByte dest (s.destBytes + 5) (CLIP_INT_TO_UCHAR ((298 * c + 409 * e + 128) >>> (8 : Nat)))
  { source := s.source, dest := dest, sourceBytes := sourceBytes, destBytes := s.destBytes + 6 }

/-- The six bytes `convertYUYVImageToRGB24Image` stores for the source quadruple
`y0 u0 y1 v0`, by position `t` in the destination pair. -/
def rgb24PairBytes (y0 u0 y1 v0 : Byte) (t : Nat) : Byte :=
  let c0 : Int := (y0.val : Int) - 16
  let c1 : Int := (y1.val : Int) - 16
  let d : Int := (u0.val : Int) - 128
  let e : Int := (v0.val : Int) - 128
  match t with
  | 0 => CLIP_INT_TO_UCHAR ((298 * c0 + 409 * e + 128) >>> (8 : Nat))
  | 1 => CLIP_INT_TO_UCHAR ((298 * c0 - 100 * d - 208 * e + 128) >>> (8 : Nat))
  | 2 => CLIP_INT_TO_UCHAR ((298 * c0 + 516 * d + 128) >>> (8 : Nat))
  | 3 => CLIP_INT_TO_UCHAR ((298 * c1 + 409 * e + 128) >>> (8 : Nat))
  | 4 => CLIP_INT_TO_UCHAR ((298 * c1 - 100 * d - 208 * e + 128) >>> (8 : Nat))
  | _ => CLIP_INT_TO_UCHAR ((298 * c1 + 516 * d + 128) >>> (8 : Nat))

/-- The six bytes `convertYUYVImageToBGR24Image` stores for the source quadruple
`y0 u0 y1 v0`, by position `t` in the destination pair. -/
def bgr24PairBytes (y0 u0 y1 v0 : Byte) (t : Nat) : Byte :=
  let c0 : Int := (y0.val : Int) - 16
  let c1 : Int := (y1.val : Int) - 16
  let d : Int := (u0.val : Int) - 128
  let e : Int := (v0.val : Int) - 128
  match t with
  | 0 => CLIP_INT_TO_UCHAR ((298 * c0 + 516 * d + 128) >>> (8 : Nat))
  | 1 => CLIP_INT_TO_UCHAR ((298 * c0 - 100 * d - 208 * e + 128) >>> (8 : Nat))
  | 2 => CLIP_INT_TO_UCHAR ((298 * c0 + 409 * e + 128) >>> (8 : Nat))
  | 3 => CLIP_INT_TO_UCHAR ((298 * c1 + 516 * d + 128) >>> (8 : Nat))
  | 4 => CLIP_INT_TO_UCHAR ((298 * c1 - 100 * d - 208 * e + 128) >>> (8 : Nat))
  | _ => CLIP_INT_TO_UCHAR ((298 * c1 + 409 * e + 128) >>> (8 : Nat))

/-- What one iteration of a packed-4:2:2 loop body does to the loop state: both pointers
advance, the source is kept, and the six bytes at the destination pointer become
`out y0 u0 y1 v0 t` for the quadruple at the source pointer. -/
def PairStep (out : Byte → Byte → Byte → Byte → Nat → Byte) (body : PixelLoop → PixelLoop) :
    Prop :=
  ∀ s : PixelLoop,
    (body s).source = s.source ∧ (body s).sourceBytes = s.sourceBytes + 4 ∧
    (body s).destBytes = s.destBytes + 6 ∧ (body s).dest.length = s.dest.length ∧
    (s.destBytes + 6 ≤ s.dest.length → ∀ j,
      readByte (body s).dest j =
        if s.destBytes ≤ j ∧ j < s.destBytes + 6 then
          out (readByte s.source s.sourceBytes) (readByte s.source (s.sourceBytes + 1))
            (readByte s.source (s.sourceBytes + 2)) (readByte s.source (s.sourceBytes + 3))
            (j - s.destBytes)
        else readByte s.dest j)

/-- State of a packed-4:2:2 loop after `k` iterations started on buffers `src`, `dst`. -/
def PairInv (out : Byte → Byte → Byte → Byte → Nat → Byte) (src dst : List Byte) (k : Nat)
    (s : PixelLoop) : Prop :=
  s.source = src ∧ s.sourceBytes = 4 * k ∧ s.destBytes = 6 * k ∧ s.dest.length = dst.length ∧
  (∀ m t, m < k → t < 6 →
    readByte s.dest (6 * m + t) =
      out (readByte src (4 * m)) (readByte src (4 * m + 1)) (readByte src (4 * m + 2))
        (readByte src (4 * m + 3)) t) ∧
  (∀ j, 6 * k ≤ j → readByte s.dest j = readByte dst j)

/-- `ImageConverter::convertYUYVImageToRGB24Image`. -/
def convertYUYVImageToRGB24Image (yuyvImage rgb24Image : Image) : Bool × Images :=
  if yuyvImage.format.encoding ≠ Encoding.YUYV then (false, ⟨yuyvImage, rgb24Image⟩)
  else if rgb24Image.format.encoding ≠ Encoding.RGB24 then (false, ⟨yuyvImage, rgb24Image⟩)
  else
    let width := yuyvImage.format.width
    let height := yuyvImage.format.height
    if rgb24Image.format.width ≠ width ∨ rgb24Image.format.height ≠ height then
      (false, ⟨yuyvImage, rgb24Image⟩)
    else
      let s := forLoop height (forLoop (width / 2) yuyvToRGB24Body)
        { source := yuyvImage.buffer.bytes, dest := rgb24Image.buffer.bytes,
          sourceBytes := 0, destBytes := 0 }
      (true, ⟨{ yuyvImage with buffer := ⟨s.source⟩ }, { rgb24Image with buffer := ⟨s.dest⟩ }⟩)

/-- `ImageConverter::convertYUYVImageToBGR24Image`. -/
def convertYUYVImageToBGR24Image (yuyvImage bgr24Image : Image) : Bool × Images :=
  if yuyvImage.format.encoding ≠ Encoding.YUYV then (false, ⟨yuyvImage, bgr24Image⟩)
  else if bgr24Image.format.encoding ≠ Encoding.BGR24 then (false, ⟨yuyvImage, bgr24Image⟩)
  else
    let width := yuyvImage.format.width
    let height := yuyvImage.format.height
    if bgr24Image.format.width ≠ width ∨ bgr24Image.format.height ≠ height then
      (false, ⟨yuyvImage, bgr24Image⟩)
    else
      let s := forLoop height (forLoop (width / 2) yuyvToBGR24Body)
        { source := yuyvImage.buffer.bytes, dest := bgr24Image.buffer.bytes,
          sourceBytes := 0, destBytes := 0 }
      (true, ⟨{ yuyvImage with buffer := ⟨s.source⟩ }, { bgr24Image with buffer := ⟨s.dest⟩ }⟩)

/-- The loop `for ( unsigned int i=0; i<count; i+=3 )` of
`swapFirstAndThirdBytesEveryThreeBytes`, entered at index `i`; `fuel` bounds the number
of iterations (`count` of them always suffice, `i` growing by 3 each time). -/
def swapLoop (count : Nat) : Nat → Nat → List Byte → List Byte
  | 0, _, bytes => bytes
  | fuel + 1, i, bytes =>
    if i < count then
      let tempByte := readByte bytes i
      let bytes := writeByte bytes i (readByte bytes (i + 2))
      let bytes := writeByte bytes (i + 2) tempByte
      swapLoop count fuel (i + 3) bytes
    else bytes

/-- `ImageConverter::swapFirstAndThirdBytesEveryThreeBytes`. -/
def swapFirstAndThirdBytesEveryThreeBytes (buffer : MemoryBuffer) : Bool × MemoryBuffer :=
  if buffer.getSizeInBytes % 3 ≠ 0 then (false, buffer)
  else
    let count := buffer.getSizeInBytes
    (true, { bytes := swapLoop count count 0 buffer.bytes })

/-- `ImageConverter::convertBGR24ImageToRGB24Image`; the results of `copyFrom` and of
the swap are dropped, as in the source. -/
def convertBGR24ImageToRGB24Image (bgr24Image rgb24Image : Image) : Bool × Images :=
  if bgr24Image.format.encoding ≠ Encoding.BGR24 then (false, ⟨bgr24Image, rgb24Image⟩)
  else if rgb24Image.format.encoding ≠ Encoding.RGB24 then (false, ⟨bgr24Image, rgb24Image⟩)
  else
    let width := bgr24Image.format.width
    let height := bgr24Image.format.height
    if rgb24Image.format.width ≠ width ∨ rgb24Image.format.height ≠ height then
      (false, ⟨bgr24Image, rgb24Image⟩)
    else
      let buffer := (rgb24Image.buffer.copyFrom bgr24Image.buffer).2
      let buffer := (swapFirstAndThirdBytesEveryThreeBytes buffer).2
      (true, ⟨bgr24Image, { rgb24Image with buffer := buffer }⟩)

/-- `ImageConverter::convertRGB24ImageToBGR24Image`. -/
def convertRGB24ImageToBGR24Image (rgb24Image bgr24Image : Image) : Bool × Images :=
  if rgb24Image.format.encoding ≠ Encoding.RGB24 then (false, ⟨rgb24Image, bgr24Image⟩)
  else if bgr24Image.format.encoding ≠ Encoding.BGR24 then (false, ⟨rgb24Image, bgr24Image⟩)
  else
    let width := rgb24Image.format.width
    let height := rgb24Image.format.height
    if bgr24Image.format.width ≠ width ∨ bgr24Image.format.height ≠ height then
      (false, ⟨rgb24Image, bgr24Image⟩)
    else
      let buffer := (bgr24Image.buffer.copyFrom rgb24Image.buffer).2
      let buffer := (swapFirstAndThirdBytesEveryThreeBytes buffer).2
      (true, ⟨rgb24Image, { bgr24Image with buffer := buffer }⟩)

/-- `ImageConverter::convertImage`. -/
def convertImage (sourceImage destinationImage : Image) : Bool × Images :=
  if sourceImage.format = destinationImage.format then (false, ⟨sourceImage, destinationImage⟩)
  else
    let sourceEncoding := sourceImage.format.encoding
    let destinationEncoding := destinationImage.format.encoding
    if sourceEncoding = Encoding.BGR24 ∧ destinationEncoding = Encoding.RGB24 then
      convertBGR24ImageToRGB24Image sourceImage destinationImage
    else if sourceEncoding = Encoding.RGB24 ∧ destinationEncoding = Encoding.BGR24 then
      convertRGB24ImageToBGR24Image sourceImage destinationImage
    else if sourceEncoding = Encoding.YUYV ∧ destinationEncoding = Encoding.RGB24 then
      convertYUYVImageToRGB24Image sourceImage destinationImage
    else if sourceEncoding = Encoding.YUYV ∧ destinationEncoding = Encoding.BGR24 then
      convertYUYVImageToBGR24Image sourceImage destinationImage
    else (false, ⟨sourceImage, destinationImage⟩)

/-- `ImageConverter::update`: the return value, the source image after the call and the
converter after the call. -/
def update (self : ImageConverter) (sourceImage : Image) : Bool × Image × ImageConverter :=
  if sourceImage.format = self.mImage.format then
    let r := self.mImage.buffer.copyFrom sourceImage.buffer
    (r.1, sourceImage, { mImage := { self.mImage with buffer := r.2 } })
  else
    let r := convertImage sourceImage self.mImage
    (r.1, r.2.source, { mImage := r.2.destination })

end ImageConverter

/-! ## `RMFDevice.cpp`: vertical flip -/

namespace Device

/-- The buffers and moving pointers of the loop of `flipImageVertically`. The
destination pointer is decremented once more after the last line is copied, so its
offset is an `Int`; it is only dereferenced while non-negative. -/
structure FlipLoop where
  source : List Byte
  destination : List Byte
  sourceBytes : Nat
  destinationBytes : Int
  deriving DecidableEq, Repr

/-- Body of the loop of `Device::flipImageVertically`. -/
def flipBody (numBytesPerLine : Nat) (s : FlipLoop) : FlipLoop :=
  { source := s.source
    destination := memcpy s.destination s.destinationBytes.toNat s.source s.sourceBytes numBytesPerLine
    destinationBytes := s.destinationBytes - numBytesPerLine
    sourceBytes := s.sourceBytes + numBytesPerLine }

/-- State of the loop of `flipImageVertically` after `k` of its `h` iterations, started on
buffers `src`, `dst` with lines of `n` bytes. -/
def FlipInv (n h : Nat) (src dst : List Byte) (k : Nat) (s : FlipLoop) : Prop :=
  s.source = src ∧ s.sourceBytes = k * n ∧
  s.destinationBytes = ((h : Int) - 1 - (k : Int)) * (n : Int) ∧
  s.destination.length = dst.length ∧
  (∀ y c, y < k → c < n →
    readByte s.destination ((h - 1 - y) * n + c) = readByte src (y * n + c)) ∧
  (∀ j, j < (h - k) * n → readByte s.destination j = readByte dst j)

/-- `Device::flipImageVertically`. For `height = 0` the source computes `height-1` in
`unsigned int`; the pointer so obtained is never dereferenced, the loop running zero
times. -/
def flipImageVertically (sourceImage destinationImage : Image) : Bool × Images :=
  if sourceImage.format ≠ destinationImage.format then (false, ⟨sourceImage, destinationImage⟩)
  else
    let height := sourceImage.format.height
    let numBytesPerLine := sourceImage.format.getNumBytesPerLine
    let s := forLoop height (flipBody numBytesPerLine)
      { source := sourceImage.buffer.bytes, destination := destinationImage.buffer.bytes,
        sourceBytes := 0, destinationBytes := (numBytesPerLine : Int) * ((height : Int) - 1) }
    (true, ⟨{ sourceImage with buffer := ⟨s.source⟩ },
            { destinationImage with buffer := ⟨s.destination⟩ }⟩)

end Device

/-! ## `RMFDeviceInternals.cpp`: the capture session -/

/-- Number of values of an `unsigned int` (32 bits on the Windows targets of Media
Foundation). -/
def UINT_RANGE : Nat := 4294967296

/-- Outcomes of the Media Foundation calls made by `DeviceInternals::startCapture`:
`true` where the call succeeds. -/
structure StartCalls where
  createMediaSourceReader : Bool
  setCurrentMediaType : Bool
  readSample : Bool
  deriving DecidableEq, Repr

/-- The `IMFSample` handed to `OnReadSample`, with the outcomes of the calls made on it:
`bufferData` are the locked bytes, `currentLength` their number. -/
structure Sample where
  convertToContiguousBuffer : Bool
  lock : Bool
  bufferData : List Byte
  unlock : Bool
  deriving DecidableEq, Repr

/-- One invocation of the callback `OnReadSample`: its arguments (`hrStatus` being
`SUCCEEDED(hrStatus)`, `pSample` null or a sample) and the outcome of the `ReadSample`
request the callback issues at its end. -/
structure ReadSampleCall where
  hrStatus : Bool
  llTimestamp : Int
  pSample : Option Sample
  readSample : Bool
  deriving DecidableEq, Repr

/-- A Windows `GUID` naming a video subtype, identified by its first field `Data1` (the
video subtypes of Media Foundation share their other fields). -/
abbrev GUID := Nat

/-- The SDK constant `MFVideoFormat_RGB24` (`Data1` is `D3DFMT_R8G8B8`). -/
def MFVideoFormat_RGB24 : GUID := 20

/-- The SDK constant `MFVideoFormat_YUY2` (`Data1` is the FourCC `YUY2`). -/
def MFVideoFormat_YUY2 : GUID := 0x32595559

/-- `DeviceInternals::VideoMediaType`. -/
structure VideoMediaType where
  width : Nat
  height : Nat
  stride : Int
  frameRate : Nat
  subType : GUID
  deriving DecidableEq, Repr

/-- The members of `DeviceInternals` that the capture state machine uses.
`mSourceReaderRes` tells whether a source reader is held; `readSampleRequests` counts the
asynchronous read requests issued with success since construction. -/
structure DeviceInternals where
  mSourceReaderRes : Bool
  mIsCapturing : Bool
  mCapturedImageNumber : Nat
  mCapturedImageTimestamp : Int
  mCapturedImageBuffer : Option MemoryBuffer
  readSampleRequests : Nat
  mSupportedVideoMediaTypes : List VideoMediaType := []
  deriving DecidableEq, Repr

namespace DeviceInternals

/-- State after the constructor `DeviceInternals::DeviceInternals`. -/
def init : DeviceInternals :=
  { mSourceReaderRes := false, mIsCapturing := false, mCapturedImageNumber := 0,
    mCapturedImageTimestamp := 0, mCapturedImageBuffer := none, readSampleRequests := 0 }

/-- `DeviceInternals::isCapturing`. -/
def isCapturing (self : DeviceInternals) : Bool := self.mIsCapturing

/-- `DeviceInternals::startCapture`. -/
def startCapture (self : DeviceInternals) (_mediaTypeIndex : Nat) (calls : StartCalls) :
    Bool × DeviceInternals :=
  if self.isCapturing then (false, self)
  else if !calls.createMediaSourceReader then (false, self)
  else
    let self := { self with mSourceReaderRes := true }
    if !calls.setCurrentMediaType then (false, self)
    else
      let self := { self with
        mIsCapturing := true, mCapturedImageNumber := 0, mCapturedImageTimestamp := 0,
        mCapturedImageBuffer := none }
      if !calls.readSample then (false, self)
      else (true, { self with readSampleRequests := self.readSampleRequests + 1 })

/-- `DeviceInternals::stopCapture`. -/
def stopCapture (self : DeviceInternals) : DeviceInternals :=
  if !self.isCapturing then self
  else
    { self with
      mSourceReaderRes := false, mIsCapturing := false, mCapturedImageNumber := 0,
      mCapturedImageTimestamp := 0, mCapturedImageBuffer := none }

/-- The end of `OnReadSample`: "Request to read more samples". -/
def requestMoreSamples (self : DeviceInternals) (call : ReadSampleCall) :
    Bool × DeviceInternals :=
  if !call.readSample then (false, self)
  else (true, { self with readSampleRequests := self.readSampleRequests + 1 })

/-- `DeviceInternals::OnReadSample`; the result is `true` for `S_OK` and `false` for
`S_FALSE`. A buffer created by `new MemoryBuffer( currentLength )` is taken as
`currentLength` zero bytes; it is overwritten at once. -/
def OnReadSample (self : DeviceInternals) (call : ReadSampleCall) : Bool × DeviceInternals :=
  if !self.isCapturing then (false, self)
  else if !call.hrStatus then (false, self)
  else
    match call.pSample with
    | some sample =>
      if !sample.convertToContiguousBuffer then (false, self)
      else if !sample.lock then (false, self)
      else
        let currentLength := sample.bufferData.length
        let buffer : MemoryBuffer :=
          match self.mCapturedImageBuffer with
          | none => { bytes := List.replicate currentLength 0 }
          | some b => b
        let self := { self with mCapturedImageBuffer := some buffer }
        let imageBufferSize := buffer.getSizeInBytes
        if imageBufferSize ≠ currentLength then (false, self)
        else
          let self := { self with
            mCapturedImageBuffer :=
              some { bytes := memcpy buffer.bytes 0 sample.bufferData 0 imageBufferSize }
            mCapturedImageNumber := (self.mCapturedImageNumber + 1) % UINT_RANGE
            mCapturedImageTimestamp := call.llTimestamp }
          if !sample.unlock then (false, self)
          else requestMoreSamples self call
    | none => requestMoreSamples self call

/-- `DeviceInternals::getCapturedImage`: the return value and the three reference
arguments `buffer`, `sequenceNumber`, `timestamp` after the call. -/
def getCapturedImage (self : DeviceInternals) (buffer : MemoryBuffer) (sequenceNumber : Nat)
    (timestamp : Int) : Bool × MemoryBuffer × Nat × Int :=
  match self.mCapturedImageBuffer with
  | none => (false, buffer, sequenceNumber, timestamp)
  | some capturedImageBuffer =>
    let sequenceNumber := 0
    let timestamp := 0
    if buffer.getSizeInBytes ≠ capturedImageBuffer.getSizeInBytes then
      (false, buffer, sequenceNumber, timestamp)
    else
      let buffer := (buffer.copyFrom capturedImageBuffer).2
      (true, buffer, self.mCapturedImageNumber, self.mCapturedImageTimestamp)

/-- A delivery is accepted, in the words of the specification: the session is capturing,
the status is a success, a sample is present whose bytes can be obtained, and their
number equals the size of the pending buffer (any number when no buffer exists yet, the
first delivery fixing the size). -/
def accepts (self : DeviceInternals) (call : ReadSampleCall) : Bool :=
  self.mIsCapturing && call.hrStatus &&
    match call.pSample with
    | some sample =>
      sample.convertToContiguousBuffer && sample.lock &&
        match self.mCapturedImageBuffer with
        | none => true
        | some b => b.getSizeInBytes == sample.bufferData.length
    | none => false

/-- The session after a sequence of callbacks, oldest first. -/
def deliver (self : DeviceInternals) : List ReadSampleCall → DeviceInternals
  | [] => self
  | call :: calls => deliver (self.OnReadSample call).2 calls

/-- How many callbacks of a sequence are accepted, each in the state it arrives in. -/
def acceptedCount (self : DeviceInternals) : List ReadSampleCall → Nat
  | [] => 0
  | call :: calls =>
    (if self.accepts call then 1 else 0) + acceptedCount (self.OnReadSample call).2 calls

/-- Outcomes of a start in which every native call succeeds. -/
def startOk : StartCalls :=
  { createMediaSourceReader := true, setCurrentMediaType := true, readSample := true }

/-- A callback delivering a one-byte sample, every native call succeeding. -/
def oneByteCall : ReadSampleCall :=
  { hrStatus := true, llTimestamp := 1000,
    pSample := some { convertToContiguousBuffer := true, lock := true, bufferData := [42],
                      unlock := true },
    readSample := true }

/-- A callback delivering a two-byte sample, every native call succeeding. -/
def twoByteCall : ReadSampleCall :=
  { hrStatus := true, llTimestamp := 2000,
    pSample := some { convertToContiguousBuffer := true, lock := true, bufferData := [7, 9],
                      unlock := true },
    readSample := true }

end DeviceInternals

/-! ## `RMFDevice.cpp`: the device -/

/-- Modelled from the spec: the constructor `Image( format )` (header `RMFImage.h` is not
among the sources) gives a buffer of the size computed from the format; its bytes are
taken as zero. -/
def Image.create (format : ImageFormat) : Image :=
  { format := format, buffer := { bytes := List.replicate format.getDataSizeInBytes 0 } }

/-- `CaptureSettings` (`RMFCaptureSettings.h`), with the structural equality the
specification gives to `operator==`. The frame rate is a `float` in the source; every
frame rate the sources build is `static_cast<float>` of a `UINT32` and frame rates are
only compared, so it is kept as that integer. -/
structure CaptureSettings where
  mImageFormat : ImageFormat
  mFrameRate : Nat
  deriving DecidableEq, Repr

/-- Modelled from the spec: `CapturedImage` (header `RMFCapturedImage.h` is not among the
sources): an image, a sequence number and a timestamp in seconds. The timestamp is a
`float` in the source; it is kept as the exact quotient. -/
structure CapturedImage where
  mImage : Image
  mSequenceNumber : Nat
  mTimestampInSec : ℚ
  deriving DecidableEq, Repr

/-- Modelled from the spec: the constructor `CapturedImage( format )`, an image of that
format with sequence number 0 and timestamp 0. -/
def CapturedImage.create (format : ImageFormat) : CapturedImage :=
  { mImage := Image.create format, mSequenceNumber := 0, mTimestampInSec := 0 }

/-- The three methods of `Device::Listener`. -/
inductive DeviceEvent where
  | onDeviceStarted
  | onDeviceCapturedImage
  | onDeviceStopping
  deriving DecidableEq, Repr

/-- One call of a listener method: the listener called, the method, and what
`isCapturing()` returns on the device while the call runs. -/
structure Notification where
  listener : Nat
  event : DeviceEvent
  isCapturing : Bool
  deriving DecidableEq, Repr

/-- The members of `Device`. A listener pointer is a `Nat`; `notifications` is the
sequence of listener calls made so far, oldest first. -/
structure Device where
  mSupportedCaptureSettingsList : List CaptureSettings
  mMediaTypeIndices : List Nat
  mInternals : DeviceInternals
  mStartedCaptureSettingsIndex : Nat
  mCapturedImage : Option CapturedImage
  mTempImage : Option Image
  mListeners : List Nat
  notifications : List Notification
  mName : String := ""
  mSymbolicLink : String := ""
  deriving DecidableEq, Repr

namespace Device

/-- Whether the constructor keeps a media type: its subtype is `MFVideoFormat_RGB24` or
`MFVideoFormat_YUY2`. -/
def supported (mediaType : VideoMediaType) : Bool :=
  mediaType.subType = MFVideoFormat_RGB24 || mediaType.subType = MFVideoFormat_YUY2

/-- The `CaptureSettings` the constructor builds from a kept media type. -/
def settingsOf (mediaType : VideoMediaType) : CaptureSettings :=
  { mImageFormat :=
      { width := mediaType.width, height := mediaType.height,
        encoding :=
          if mediaType.subType = MFVideoFormat_RGB24 then Encoding.BGR24 else Encoding.YUYV },
    mFrameRate := mediaType.frameRate }

/-- The loop of the constructor `Device::Device` from position `index` on, over the media
types not yet visited; the pair is `mSupportedCaptureSettingsList`, `mMediaTypeIndices`. -/
def constructorLoop : Nat → List VideoMediaType → List CaptureSettings × List Nat →
    List CaptureSettings × List Nat
  | _, [], lists => lists
  | index, mediaType :: rest, (settingsList, mediaTypeIndices) =>
    let supported := true
    let encoding := Encoding.BGR24
    let (supported, encoding) :=
      if mediaType.subType = MFVideoFormat_RGB24 then (supported, Encoding.BGR24)
      else if mediaType.subType = MFVideoFormat_YUY2 then (supported, Encoding.YUYV)
      else (false, encoding)
    if supported then
      let imageFormat : ImageFormat :=
        { width := mediaType.width, height := mediaType.height, encoding := encoding }
      let settings : CaptureSettings :=
        { mImageFormat := imageFormat, mFrameRate := mediaType.frameRate }
      constructorLoop (index + 1) rest (settingsList ++ [settings], mediaTypeIndices ++ [index])
    else constructorLoop (index + 1) rest (settingsList, mediaTypeIndices)

/-- The constructor `Device::Device`, given the media types the new `DeviceInternals`
enumerates. -/
def create (mediaTypes : List VideoMediaType) : Device :=
  let lists := constructorLoop 0 mediaTypes ([], [])
  { mSupportedCaptureSettingsList := lists.1
    mMediaTypeIndices := lists.2
    mInternals := { DeviceInternals.init with mSupportedVideoMediaTypes := mediaTypes }
    mStartedCaptureSettingsIndex := 0
    mCapturedImage := none
    mTempImage := none
    mListeners := []
    notifications := [] }

/-- `Device::isCapturing`. -/
def isCapturing (self : Device) : Bool := self.mInternals.isCapturing

/-- `Device::getCapturedImage`. -/
def getCapturedImage (self : Device) : Option CapturedImage := self.mCapturedImage

/-- The loop "Notify": every listener, in the order of `mListeners`, is called. -/
def notify (self : Device) (event : DeviceEvent) : Device :=
  { self with
    notifications :=
      self.notifications ++ self.mListeners.map (fun l => ⟨l, event, self.isCapturing⟩) }

/-- `Device::startCapture( std::size_t captureSettingsIndex )`. The two element accesses
read a default value out of range, which the construction of the lists rules out. The
`static_cast<unsigned int>` of the index is the identity, the lists being filled from an
enumeration indexed by a `DWORD`. -/
def startCapture (self : Device) (captureSettingsIndex : Nat) (calls : StartCalls) :
    Bool × Device :=
  if self.isCapturing then (false, self)
  else if captureSettingsIndex ≥ self.mSupportedCaptureSettingsList.length then (false, self)
  else
    let self := { self with mStartedCaptureSettingsIndex := captureSettingsIndex }
    let captureSettings :=
      self.mSupportedCaptureSettingsList.getD self.mStartedCaptureSettingsIndex
        { mImageFormat := { width := 0, height := 0, encoding := Encoding.BGR24 },
          mFrameRate := 0 }
    let self := { self with
      mCapturedImage := some (CapturedImage.create captureSettings.mImageFormat) }
    let mediaTypeIndex := self.mMediaTypeIndices.getD self.mStartedCaptureSettingsIndex 0
    let mediaType :=
      self.mInternals.mSupportedVideoMediaTypes.getD mediaTypeIndex
        { width := 0, height := 0, stride := 0, frameRate := 0, subType := 0 }
    let self :=
      if mediaType.stride < 0 then
        { self with mTempImage := some (Image.create captureSettings.mImageFormat) }
      else self
    let r := self.mInternals.startCapture mediaTypeIndex calls
    let self := { self with mInternals := r.2 }
    if r.1 then (r.1, self.notify DeviceEvent.onDeviceStarted)
    else (r.1, { self with mTempImage := none })

/-- The loop of `Device::startCapture( const CaptureSettings& )` from position `index`
on, over the settings not yet compared. -/
def startCaptureSearch (self : Device) (captureSettings : CaptureSettings)
    (calls : StartCalls) : Nat → List CaptureSettings → Bool × Device
  | _, [] => (false, self)
  | index, candidate :: rest =>
    if captureSettings = candidate then self.startCapture index calls
    else startCaptureSearch self captureSettings calls (index + 1) rest

/-- `Device::startCapture( const CaptureSettings& captureSettings )`. -/
def startCaptureBySettings (self : Device) (captureSettings : CaptureSettings)
    (calls : StartCalls) : Bool × Device :=
  if self.isCapturing then (false, self)
  else startCaptureSearch self captureSettings calls 0 self.mSupportedCaptureSettingsList

/-- `Device::getStartedCaptureSettingsIndex`: the return value and `index` after the
call. -/
def getStartedCaptureSettingsIndex (self : Device) : Bool × Nat :=
  if !self.isCapturing then (false, 0)
  else (true, self.mStartedCaptureSettingsIndex)

/-- `Device::stopCapture`. -/
def stopCapture (self : Device) : Device :=
  if !self.isCapturing then self
  else
    let self := self.notify DeviceEvent.onDeviceStopping
    { self with
      mInternals := self.mInternals.stopCapture
      mCapturedImage := none
      mTempImage := none
      mStartedCaptureSettingsIndex := 0 }

/-- The end of `Device::update`: sequence number and timestamp are stored and the
listeners notified. -/
def publish (self : Device) (capturedImage : CapturedImage) (sequenceNumber : Nat)
    (timestamp : Int) : Device :=
  let capturedImage := { capturedImage with
    mSequenceNumber := sequenceNumber
    mTimestampInSec := (timestamp : ℚ) / 10000000 }
  ({ self with mCapturedImage := some capturedImage }).notify DeviceEvent.onDeviceCapturedImage

/-- `Device::update`. The asserted facts (`mCapturedImage` exists, the flip succeeds) are
not checked, as in a release build; without a captured image nothing is done. -/
def update (self : Device) : Device :=
  if !self.isCapturing then self
  else
    match self.mCapturedImage with
    | none => self
    | some capturedImage =>
      let sequenceNumber := 0
      let timestamp := 0
      match self.mTempImage with
      | some tempImage =>
        let r := self.mInternals.getCapturedImage tempImage.buffer sequenceNumber timestamp
        let tempImage := { tempImage with buffer := r.2.1 }
        let self := { self with mTempImage := some tempImage }
        if !r.1 then self
        else
          let flipped := flipImageVertically tempImage capturedImage.mImage
          let self := { self with mTempImage := some flipped.2.source }
          publish self { capturedImage with mImage := flipped.2.destination } r.2.2.1 r.2.2.2
      | none =>
        let r := self.mInternals.getCapturedImage capturedImage.mImage.buffer sequenceNumber
          timestamp
        let capturedImage := { capturedImage with
          mImage := { capturedImage.mImage with buffer := r.2.1 } }
        let self := { self with mCapturedImage := some capturedImage }
        if !r.1 then self
        else publish self capturedImage r.2.2.1 r.2.2.2

/-- The callback `OnReadSample` arriving at the session the device owns. -/
def onReadSample (self : Device) (call : ReadSampleCall) : Device :=
  { self with mInternals := (self.mInternals.OnReadSample call).2 }

end Device

/-! ## `RMFDevice.cpp`: listeners and the started settings -/

/-- The value of `CaptureSettings()`. The default constructor is declared in
`RMFCaptureSettings.h` and defined outside the sources; the value stands for whatever it
builds and is only ever compared with itself. -/
def CaptureSettings.defaultConstructed : CaptureSettings :=
  { mImageFormat := { width := 0, height := 0, encoding := Encoding.RGB24 }, mFrameRate := 0 }

/-- One call made on a `Device` from outside, with the outcomes of the native calls it
triggers. -/
inductive DeviceCall where
  | startCapture (captureSettingsIndex : Nat) (calls : StartCalls)
  | startCaptureBySettings (captureSettings : CaptureSettings) (calls : StartCalls)
  | stopCapture
  | update
  | onReadSample (call : ReadSampleCall)
  | addListener (listener : Nat)
  | removeListener (listener : Nat)
  deriving DecidableEq, Repr

namespace Device

/-- The constructor `Device::Device( activate, name, symbolicLink )`, given the media types
the new `DeviceInternals` enumerates. -/
def construct (mediaTypes : List VideoMediaType) (name symbolicLink : String) : Device :=
  { create mediaTypes with mName := name, mSymbolicLink := symbolicLink }

/-- `Device::getName`. -/
def getName (self : Device) : String := self.mName

/-- `Device::getSymbolicLink`. -/
def getSymbolicLink (self : Device) : String := self.mSymbolicLink

/-- `Device::getStartedCaptureSettings`: the return value and `settings` after the call.
The element access reads a default value out of range. -/
def getStartedCaptureSettings (self : Device) : Bool × CaptureSettings :=
  let settings := CaptureSettings.defaultConstructed
  if !self.isCapturing then (false, settings)
  else
    (true, self.mSupportedCaptureSettingsList.getD self.mStartedCaptureSettingsIndex
      { mImageFormat := { width := 0, height := 0, encoding := Encoding.BGR24 },
        mFrameRate := 0 })

/-- `Device::addListener`; the assertion that the pointer is not null is not checked, as
in a release build. -/
def addListener (self : Device) (listener : Nat) : Device :=
  { self with mListeners := self.mListeners ++ [listener] }

/-- `Device::removeListener`: `std::find` gives the position of the first entry equal to
`listener`, the size of the vector when there is none; `erase` removes the entry at that
position. -/
def removeListener (self : Device) (listener : Nat) : Bool × Device :=
  let itr := self.mListeners.indexOf listener
  if itr = self.mListeners.length then (false, self)
  else (true, { self with mListeners := self.mListeners.eraseIdx itr })

/-- How many listener calls recorded so far went to `listener`. -/
def received (self : Device) (listener : Nat) : Nat :=
  (self.notifications.filter (fun n => n.listener = listener)).length

/-- The device after one call from outside. -/
def perform (self : Device) : DeviceCall → Device
  | .startCapture captureSettingsIndex calls => (self.startCapture captureSettingsIndex calls).2
  | .startCaptureBySettings captureSettings calls =>
    (self.startCaptureBySettings captureSettings calls).2
  | .stopCapture => self.stopCapture
  | .update => self.update
  | .onReadSample call => self.onReadSample call
  | .addListener listener => self.addListener listener
  | .removeListener listener => (self.removeListener listener).2

/-- The device after a sequence of calls from outside. -/
def performAll (self : Device) (calls : List DeviceCall) : Device :=
  calls.foldl perform self

end Device

/-! ## Concrete devices used to instantiate the theorems -/

/-- Three native media types: a bottom-up 1×2 RGB24 type (negative stride), a type of a
subtype the device does not expose, and a 2×1 YUY2 type. -/
def sampleMediaTypes : List VideoMediaType :=
  [ { width := 1, height := 2, stride := -3, frameRate := 30, subType := MFVideoFormat_RGB24 },
    { width := 4, height := 4, stride := 16, frameRate := 30, subType := 22 },
    { width := 2, height := 1, stride := 4, frameRate := 15, subType := MFVideoFormat_YUY2 } ]

/-- A freshly constructed device over `sampleMediaTypes` with two listeners registered. -/
def sampleDevice : Device :=
  { Device.create sampleMediaTypes with mListeners := [1, 2] }

/-- `sampleDevice` started on its first settings (bottom-up 1×2 BGR24, so with a scratch
image) after one six-byte frame has been delivered. -/
def sampleFlipping : Device :=
  ((sampleDevice.startCapture 0 DeviceInternals.startOk).2).onReadSample
    { hrStatus := true, llTimestamp := 30000000,
      pSample := some { convertToContiguousBuffer := true, lock := true,
                        bufferData := [1, 2, 3, 4, 5, 6], unlock := true },
      readSample := true }

/-- A start in which the reader cannot be created. -/
def startNoReader : StartCalls :=
  { createMediaSourceReader := false, setCurrentMediaType := true, readSample := true }

/-- A start in which only the first read request fails. -/
def startNoFirstRead : StartCalls :=
  { createMediaSourceReader := true, setCurrentMediaType := true, readSample := false }

/-- A callback delivering a six-byte sample (a 1×2 or 2×1 24-bit frame), every native call
succeeding. -/
def sixByteCall : ReadSampleCall :=
  { hrStatus := true, llTimestamp := 30000000,
    pSample := some { convertToContiguousBuffer := true, lock := true,
                      bufferData := [1, 2, 3, 4, 5, 6], unlock := true },
    readSample := true }

/-! ## Concrete images used to instantiate the theorems -/

/-- A 2×1 packed-4:2:2 image, every byte 128. -/
def grayYUYV : Image :=
  { format := { width := 2, height := 1, encoding := Encoding.YUYV },
    buffer := { bytes := [128, 128, 128, 128] } }

/-- A 2×1 RGB24 image. -/
def smallRGB24 : Image :=
  { format := { width := 2, height := 1, encoding := Encoding.RGB24 },
    buffer := { bytes := [1, 2, 3, 4, 5, 6] } }

/-- A 2×1 BGR24 image. -/
def smallBGR24 : Image :=
  { format := { width := 2, height := 1, encoding := Encoding.BGR24 },
    buffer := { bytes := [10, 20, 30, 40, 50, 60] } }

/-- A 3×1 packed-4:2:2 image (odd width). -/
def oddYUYV : Image :=
  { format := { width := 3, height := 1, encoding := Encoding.YUYV },
    buffer := { bytes := [128, 128, 128, 128, 128, 128] } }

/-- A 3×1 RGB24 image (odd width). -/
def oddRGB24 : Image :=
  { format := { width := 3, height := 1, encoding := Encoding.RGB24 },
    buffer := { bytes := [7, 7, 7, 7, 7, 7, 7, 7, 7] } }

/-- A 3×1 BGR24 image (odd width). -/
def oddBGR24 : Image :=
  { format := { width := 3, height := 1, encoding := Encoding.BGR24 },
    buffer := { bytes := [7, 7, 7, 7, 7, 7, 7, 7, 7] } }

/-- A 1×2 RGB24 image, two lines of one pixel. -/
def tallRGB24 : Image :=
  { format := { width := 1, height := 2, encoding := Encoding.RGB24 },
    buffer := { bytes := [1, 2, 3, 4, 5, 6] } }

/-- A 2×1 packed-4:2:2 image whose two pixels are coloured. -/
def vividYUYV : Image :=
  { format := { width := 2, height := 1, encoding := Encoding.YUYV },
    buffer := { bytes := [100, 50, 200, 220] } }

/-! ## `RMFImageConverter.cpp`: the packed-4:2:2 loops with their buffer accesses recorded -/

/-- The offsets a loop has read in its source buffer and written in its destination
buffer, in program order. -/
structure AccessLog where
  reads : List Nat
  writes : List Nat
  deriving DecidableEq, Repr

/-- Read `bytes[i]` and record the offset read. -/
def readByteLogged (bytes : List Byte) (i : Nat) (log : AccessLog) : Byte × AccessLog :=
  (readByte bytes i, { log with reads := log.reads ++ [i] })

/-- Assign `bytes[i] = b` and record the offset written. -/
def writeByteLogged (bytes : List Byte) (i : Nat) (b : Byte) (log : AccessLog) :
    List Byte × AccessLog :=
  (writeByte bytes i b, { log with writes := log.writes ++ [i] })

namespace ImageConverter

/-- Body of the inner loop of `convertYUYVImageToRGB24Image`, every `sourceBytes[k]` and
every `destBytes[k] = ...` of the source text going through the recording accessors. -/
def yuyvToRGB24BodyLogged (t : PixelLoop × AccessLog) : PixelLoop × AccessLog :=
  let s := t.1
  let r0 := readByteLogged s.source (s.sourceBytes + 0) t.2
  let y0 : Int := r0.1.val
  let r1 := readByteLogged s.source (s.sourceBytes + 1) r0.2
  let u0 : Int := r1.1.val
  let r2 := readByteLogged s.source (s.sourceBytes + 2) r1.2
  let y1 : Int := r2.1.val
  let r3 := readByteLogged s.source (s.sourceBytes + 3) r2.2
  let v0 : Int := r3.1.val
  let sourceBytes := s.sourceBytes + 4
  let c : Int := y0 - 16
  let d : Int := u0 - 128
  let e : Int := v0 - 128
  let w0 := writeByteLogged s.dest (s.destBytes + 0)
    (CLIP_INT_TO_UCHAR ((298 * c + 409 * e + 128) >>> (8 : Nat))) r3.2
  let w1 := writeByteLogged w0.1 (s.destBytes + 1)
    (CLIP_INT_TO_UCHAR ((298 * c - 100 * d - 208 * e + 128) >>> (8 : Nat))) w0.2
  let w2 := writeByteLogged w1.1 (s.destBytes + 2)
    (CLIP_INT_TO_UCHAR ((298 * c + 516 * d + 128) >>> (8 : Nat))) w1.2
  let c : Int := y1 - 16
  let w3 := writeByteLogged w2.1 (s.destBytes + 3)
    (CLIP_INT_TO_UCHAR ((298 * c + 409 * e + 128) >>> (8 : Nat))) w2.2
  let w4 := writeByteLogged w3.1 (s.destBytes + 4)
    (CLIP_INT_TO_UCHAR ((298 * c - 100 * d - 208 * e + 128) >>> (8 : Nat))) w3.2
  let w5 := writeByteLogged w4.1 (s.destBytes + 5)
    (CLIP_INT_TO_UCHAR ((298 * c + 516 * d + 128) >>> (8 : Nat))) w4.2
  ({ source := s.source, dest := w5.1, sourceBytes := sourceBytes, destBytes := s.destBytes + 6 },
   w5.2)

/-- Body of the inner loop of `convertYUYVImageToBGR24Image`, every `sourceBytes[k]` and
every `destBytes[k] = ...` of the source text going through the recording accessors. -/
def yuyvToBGR24BodyLogged (t : PixelLoop × AccessLog) : PixelLoop × AccessLog :=
  let s := t.1
  let r0 := readByteLogged s.source (s.sourceBytes + 0) t.2
  let y0 : Int := r0.1.val
  let r1 := readByteLogged s.source (s.sourceBytes + 1) r0.2
  let u0 : Int := r1.1.val
  let r2 := readByteLogged s.source (s.sourceBytes + 2) r1.2
  let y1 : Int := r2.1.val
  let r3 := readByteLogged s.source (s.sourceBytes + 3) r2.2
  let v0 : Int := r3.1.val
  let sourceBytes := s.sourceBytes + 4
  let c : Int := y0 - 16
  let d : Int := u0 - 128
  let e : Int := v0 - 128
  let w0 := writeByteLogged s.dest (s.destBytes + 0)
    (CLIP_INT_TO_UCHAR ((298 * c + 516 * d + 128) >>> (8 : Nat))) r3.2
  let w1 := writeByteLogged w0.1 (s.destBytes + 1)
    (CLIP_INT_TO_UCHAR ((298 * c - 100 * d - 208 * e + 128) >>> (8 : Nat))) w0.2
  let w2 := writeByteLogged w1.1 (s.destBytes + 2)
    (CLIP_INT_TO_UCHAR ((298 * c + 409 * e + 128) >>> (8 : Nat))) w1.2
  let c : Int := y1 - 16
  let w3 := writeByteLogged w2.1 (s.destBytes + 3)
    (CLIP_INT_TO_UCHAR ((298 * c + 516 * d + 128) >>> (8 : Nat))) w2.2
  let w4 := writeByteLogged w3.1 (s.destBytes + 4)
    (CLIP_INT_TO_UCHAR ((298 * c - 100 * d - 208 * e + 128) >>> (8 : Nat))) w3.2
  let w5 := writeByteLogged w4.1 (s.destBytes + 5)
    (CLIP_INT_TO_UCHAR ((298 * c + 409 * e + 128) >>> (8 : Nat))) w4.2
  ({ source := s.source, dest := w5.1, sourceBytes := sourceBytes, destBytes := s.destBytes + 6 },
   w5.2)

/-- `ImageConverter::convertYUYVImageToRGB24Image` with the buffer accesses of its loops
recorded. -/
def convertYUYVImageToRGB24ImageLogged (yuyvImage rgb24Image : Image) :
    Bool × Images × AccessLog :=
  if yuyvImage.format.encoding ≠ Encoding.YUYV then
    (false, ⟨yuyvImage, rgb24Image⟩, ⟨[], []⟩)
  else if rgb24Image.format.encoding ≠ Encoding.RGB24 then
    (false, ⟨yuyvImage, rgb24Image⟩, ⟨[], []⟩)
  else
    let width := yuyvImage.format.width
    let height := yuyvImage.format.height
    if rgb24Image.format.width ≠ width ∨ rgb24Image.format.height ≠ height then
      (false, ⟨yuyvImage, rgb24Image⟩, ⟨[], []⟩)
    else
      let t := forLoop height (forLoop (width / 2) yuyvToRGB24BodyLogged)
        ({ source := yuyvImage.buffer.bytes, dest := rgb24Image.buffer.bytes,
           sourceBytes := 0, destBytes := 0 }, ⟨[], []⟩)
      (true, ⟨{ yuyvImage with buffer := ⟨t.1.source⟩ },
              { rgb24Image with buffer := ⟨t.1.dest⟩ }⟩, t.2)

/-- `ImageConverter::convertYUYVImageToBGR24Image` with the buffer accesses of its loops
recorded. -/
def convertYUYVImageToBGR24ImageLogged (yuyvImage bgr24Image : Image) :
    Bool × Images × AccessLog :=
  if yuyvImage.format.encoding ≠ Encoding.YUYV then
    (false, ⟨yuyvImage, bgr24Image⟩, ⟨[], []⟩)
  else if bgr24Image.format.encoding ≠ Encoding.BGR24 then
    (false, ⟨yuyvImage, bgr24Image⟩, ⟨[], []⟩)
  else
    let width := yuyvImage.format.width
    let height := yuyvImage.format.height
    if bgr24Image.format.width ≠ width ∨ bgr24Image.format.height ≠ height then
      (false, ⟨yuyvImage, bgr24Image⟩, ⟨[], []⟩)
    else
      let t := forLoop height (forLoop (width / 2) yuyvToBGR24BodyLogged)
        ({ source := yuyvImage.buffer.bytes, dest := bgr24Image.buffer.bytes,
           sourceBytes := 0, destBytes := 0 }, ⟨[], []⟩)
      (true, ⟨{ yuyvImage with buffer := ⟨t.1.source⟩ },
              { bgr24Image with buffer := ⟨t.1.dest⟩ }⟩, t.2)

/-- One iteration of a recording loop body: the state moves as under the plain body,
four consecutive source offsets and six consecutive destination offsets are recorded. -/
def LogStep (body : PixelLoop → PixelLoop)
    (bodyLogged : PixelLoop × AccessLog → PixelLoop × AccessLog) : Prop :=
  ∀ t : PixelLoop × AccessLog,
    bodyLogged t =
      (body t.1,
       { reads := t.2.reads ++ [t.1.sourceBytes, t.1.sourceBytes + 1, t.1.sourceBytes + 2,
           t.1.sourceBytes + 3]
         writes := t.2.writes ++ [t.1.destBytes, t.1.destBytes + 1, t.1.destBytes + 2,
           t.1.destBytes + 3, t.1.destBytes + 4, t.1.destBytes + 5] })

end ImageConverter

/-! ## `RMFDeviceManager.cpp` -/

/-- What the manager obtains for one string attribute of a native activation object:
`GetAllocatedString` fails, or it succeeds and `wcstombs_s` returns an error, or both
succeed and give a text. -/
inductive AllocatedString where
  | failed
  | unconvertible
  | converted (text : String)
  deriving DecidableEq, Repr

/-- A native activation object (`IMFActivate`) as the manager and the device constructor
see it: its friendly name, its symbolic link and the media types a device built on it
enumerates. -/
structure Activate where
  friendlyName : AllocatedString
  symbolicLink : AllocatedString
  mediaTypes : List VideoMediaType
  deriving DecidableEq, Repr

/-- A `Device*` of the manager with the object it points to. `identity` tells the objects
apart: the manager's `n`-th `new Device` has identity `n`, and two pointers are equal
exactly when their identities are. -/
structure DeviceRef where
  identity : Nat
  object : Device
  deriving DecidableEq, Repr

/-- The four methods of `DeviceManager::Listener`, with the device pointer they are
passed. -/
inductive ManagerEvent where
  | onDeviceAdding
  | onDeviceAdded (device : Nat)
  | onDeviceRemoving (device : Nat)
  | onDeviceRemoved (device : Nat)
  deriving DecidableEq, Repr

/-- One call of a manager listener method: the listener called, the method, and the
identities of the devices `getDevices()` returns while the call runs. -/
structure ManagerNotification where
  listener : Nat
  event : ManagerEvent
  devices : List Nat
  deriving DecidableEq, Repr

/-- The message identifier `WM_DEVICECHANGE`. -/
def WM_DEVICECHANGE : Nat := 0x0219

/-- The members of `DeviceManager::Internals`. A listener pointer is a `Nat`;
`notifications` is the sequence of listener calls made so far, oldest first; `created`
counts the `Device` objects created so far and `enumerations` the calls of
`enumerateDevices`. -/
structure DeviceManager where
  mUpdateDeviceListAtNextUpdate : Bool
  mDevices : List DeviceRef
  mListeners : List Nat
  notifications : List ManagerNotification
  created : Nat
  enumerations : Nat
  deriving DecidableEq, Repr

/-- One call made on a `DeviceManager` from outside; `update` carries the list
`enumerateDevices` would return during the call. -/
inductive ManagerCall where
  | update (currentActivates : List Activate)
  | wndProcHook (wParam message : Nat)
  | addListener (listener : Nat)
  | removeListener (listener : Nat)
  deriving DecidableEq, Repr

namespace DeviceManager

/-- The constructor `Internals::Internals`. -/
def create : DeviceManager :=
  { mUpdateDeviceListAtNextUpdate := true
    mDevices := []
    mListeners := []
    notifications := []
    created := 0
    enumerations := 0 }

/-- `Internals::getName`; `name` is the string passed by reference, which
`wideCharStringToMultiByteString` assigns only when the conversion succeeds. -/
def getName (activate : Activate) (name : String) : String :=
  match activate.friendlyName with
  | .converted text => text
  | .unconvertible => name
  | .failed => "No name"

/-- `Internals::getSymbolicLink`; `symbolicLink` is the string passed by reference, which
`wideCharStringToMultiByteString` assigns only when the conversion succeeds. -/
def getSymbolicLink (activate : Activate) (symbolicLink : String) : String :=
  match activate.symbolicLink with
  | .converted text => text
  | .unconvertible => symbolicLink
  | .failed => "No symbolic link"

/-- The effect of `Internals::wndProcHook` on one instance of `mInternalObjects` (the loop
of the hook treats every instance alike); `message` is `params.message`. -/
def wndProcHook (self : DeviceManager) (wParam message : Nat) : DeviceManager :=
  if wParam ≠ 0 then
    if message = WM_DEVICECHANGE then { self with mUpdateDeviceListAtNextUpdate := true }
    else self
  else self

/-- The loop "Notify": every listener, in the order of `mListeners`, is called. -/
def notify (self : DeviceManager) (event : ManagerEvent) : DeviceManager :=
  { self with
    notifications := self.notifications ++
      self.mListeners.map (fun l => ⟨l, event, self.mDevices.map DeviceRef.identity⟩) }

/-- `Internals::createDevice`. -/
def createDevice (self : DeviceManager) (activate : Activate) : DeviceManager :=
  let self := self.notify ManagerEvent.onDeviceAdding
  let name := getName activate ""
  let symbolicLink := getSymbolicLink activate ""
  let device : DeviceRef :=
    { identity := self.created, object := Device.construct activate.mediaTypes name symbolicLink }
  let self := { self with mDevices := self.mDevices ++ [device], created := self.created + 1 }
  self.notify (ManagerEvent.onDeviceAdded device.identity)

/-- `Internals::deleteDevice`: `std::find` gives the position of the first pointer equal
to `device`, the size of the vector when there is none. -/
def deleteDevice (self : DeviceManager) (device : Nat) : DeviceManager :=
  let itr := self.mDevices.findIdx (fun d => d.identity == device)
  if itr = self.mDevices.length then self
  else
    let self := self.notify (ManagerEvent.onDeviceRemoving device)
    let self := { self with mDevices := self.mDevices.eraseIdx itr }
    self.notify (ManagerEvent.onDeviceRemoved device)

/-- The inner loop of the first pass of `updateDeviceList`: whether some device has the
symbolic link `symbolicLink`. -/
def foundDevice : List DeviceRef → String → Bool
  | [], _ => false
  | device :: rest, symbolicLink =>
    if device.object.getSymbolicLink = symbolicLink then true
    else foundDevice rest symbolicLink

/-- The first pass of `updateDeviceList`, "Determine freshly added Devices", over the
activation objects not yet visited; the state is the local string `symbolicLink` and
`newActivates`. -/
def newActivatesLoop (mDevices : List DeviceRef) :
    List Activate → String × List Activate → String × List Activate
  | [], state => state
  | currentActivate :: rest, (symbolicLink, newActivates) =>
    let symbolicLink := getSymbolicLink currentActivate symbolicLink
    let found := foundDevice mDevices symbolicLink
    newActivatesLoop mDevices rest
      (symbolicLink, if !found then newActivates ++ [currentActivate] else newActivates)

/-- The inner loop of the second pass of `updateDeviceList`: whether some activation
object has the symbolic link of the device, and the local string `symbolicLink` when the
loop ends. -/
def foundActivate (deviceSymbolicLink : String) : List Activate → String → Bool × String
  | [], symbolicLink => (false, symbolicLink)
  | currentActivate :: rest, symbolicLink =>
    let symbolicLink := getSymbolicLink currentActivate symbolicLink
    if deviceSymbolicLink = symbolicLink then (true, symbolicLink)
    else foundActivate deviceSymbolicLink rest symbolicLink

/-- The second pass of `updateDeviceList`, "Determine freshly removed Devices", over the
devices not yet visited; the state is the local string `symbolicLink` and
`removedDevices`. -/
def removedDevicesLoop (currentActivates : List Activate) :
    List DeviceRef → String × List DeviceRef → String × List DeviceRef
  | [], state => state
  | device :: rest, (symbolicLink, removedDevices) =>
    let r := foundActivate device.object.getSymbolicLink currentActivates symbolicLink
    removedDevicesLoop currentActivates rest
      (r.2, if !r.1 then removedDevices ++ [device] else removedDevices)

/-- `Internals::updateDeviceList`, given the list `enumerateDevices` returns. -/
def updateDeviceList (self : DeviceManager) (currentActivates : List Activate) :
    DeviceManager :=
  let self := { self with enumerations := self.enumerations + 1 }
  let added := newActivatesLoop self.mDevices currentActivates ("", [])
  let removed := removedDevicesLoop currentActivates self.mDevices (added.1, [])
  let self := added.2.foldl createDevice self
  removed.2.foldl (fun s device => s.deleteDevice device.identity) self

/-- `Internals::update`, given the list `enumerateDevices` returns if it is called. -/
def update (self : DeviceManager) (currentActivates : List Activate) : DeviceManager :=
  let self :=
    if self.mUpdateDeviceListAtNextUpdate then
      { self.updateDeviceList currentActivates with mUpdateDeviceListAtNextUpdate := false }
    else self
  { self with mDevices := self.mDevices.map (fun d => { d with object := d.object.update }) }

/-- `Internals::addListener`; the assertion that the pointer is not null is not checked,
as in a release build. -/
def addListener (self : DeviceManager) (listener : Nat) : DeviceManager :=
  { self with mListeners := self.mListeners ++ [listener] }

/-- `Internals::removeListener`. -/
def removeListener (self : DeviceManager) (listener : Nat) : Bool × DeviceManager :=
  let itr := self.mListeners.indexOf listener
  if itr = self.mListeners.length then (false, self)
  else (true, { self with mListeners := self.mListeners.eraseIdx itr })

/-- The manager after one call from outside. -/
def perform (self : DeviceManager) : ManagerCall → DeviceManager
  | .update currentActivates => self.update currentActivates
  | .wndProcHook wParam message => self.wndProcHook wParam message
  | .addListener listener => self.addListener listener
  | .removeListener listener => (self.removeListener listener).2

/-- The manager after a sequence of calls from outside. -/
def performAll (self : DeviceManager) (calls : List ManagerCall) : DeviceManager :=
  calls.foldl perform self

/-- The symbolic links of the live devices, in list order. -/
def liveLinks (self : DeviceManager) : List String :=
  self.mDevices.map (fun d => d.object.getSymbolicLink)

/-- The identities of the live devices, in list order. -/
def liveIdentities (self : DeviceManager) : List Nat :=
  self.mDevices.map DeviceRef.identity

end DeviceManager

/-- The identifier of an activation object: the symbolic link the manager reads from it
(into an empty string). -/
def Activate.identifier (activate : Activate) : String :=
  DeviceManager.getSymbolicLink activate ""

/-- The devices the manager creates for the activation objects `activates`, the first
of them being the manager's `first`-th device. -/
def newDevices : Nat → List Activate → List DeviceRef
  | _, [] => []
  | first, activate :: rest =>
    { identity := first
      object := Device.construct activate.mediaTypes (DeviceManager.getName activate "")
        activate.identifier } :: newDevices (first + 1) rest

/-- An activation object with the symbolic link `link`, the friendly name `name` and no
media type. -/
def camera (name link : String) : Activate :=
  { friendlyName := AllocatedString.converted name
    symbolicLink := AllocatedString.converted link
    mediaTypes := [] }

/-- The symbolic link of an activation object can be read whatever the string passed: the
conversion to a multi-byte string does not fail. -/
abbrev Activate.convertible (activate : Activate) : Prop :=
  activate.symbolicLink ≠ AllocatedString.unconvertible

/-- The devices of the manager are distinct objects, each created by the manager. -/
abbrev DeviceManager.wellFormed (self : DeviceManager) : Prop :=
  self.liveIdentities.Nodup ∧ ∀ i ∈ self.liveIdentities, i < self.created

/-- The listener calls made while `count` devices are created one after the other, the
first of them being the manager's `first`-th device: for each device every listener of
`listeners` is called with `onDeviceAdding` while `getDevices()` is still `devices`, then
every listener is called with `onDeviceAdded` once the device is appended. -/
def addedLog (listeners devices : List Nat) : Nat → Nat → List ManagerNotification
  | _, 0 => []
  | first, count + 1 =>
    listeners.map (fun l => ⟨l, ManagerEvent.onDeviceAdding, devices⟩)
      ++ listeners.map (fun l => ⟨l, ManagerEvent.onDeviceAdded first, devices ++ [first]⟩)
      ++ addedLog listeners (devices ++ [first]) (first + 1) count

/-- The listener calls made while the devices `removed` are deleted one after the other:
for each device every listener of `listeners` is called with `onDeviceRemoving` while the
device is still among `devices`, then every listener is called with `onDeviceRemoved`
once it is erased. -/
def removedLog (listeners : List Nat) : List Nat → List Nat → List ManagerNotification
  | _, [] => []
  | devices, device :: rest =>
    listeners.map (fun l => ⟨l, ManagerEvent.onDeviceRemoving device, devices⟩)
      ++ listeners.map (fun l =>
          ⟨l, ManagerEvent.onDeviceRemoved device, devices.filter (fun d => d != device)⟩)
      ++ removedLog listeners (devices.filter (fun d => d != device)) rest

namespace DeviceManager

/-- The activation objects of `currentActivates` whose identifier no live device has, in
enumeration order. -/
def newActivates (self : DeviceManager) (currentActivates : List Activate) : List Activate :=
  currentActivates.filter (fun a => !decide (a.identifier ∈ self.liveLinks))

/-- The live devices whose symbolic link is the identifier of some activation object of
`currentActivates`, in list order. -/
def keptDevices (self : DeviceManager) (currentActivates : List Activate) : List DeviceRef :=
  self.mDevices.filter
    (fun d => decide (d.object.getSymbolicLink ∈ currentActivates.map Activate.identifier))

/-- The live devices whose symbolic link is the identifier of no activation object of
`currentActivates`, in list order. -/
def removedDevices (self : DeviceManager) (currentActivates : List Activate) :
    List DeviceRef :=
  self.mDevices.filter
    (fun d => !decide (d.object.getSymbolicLink ∈ currentActivates.map Activate.identifier))

end DeviceManager

/-! ## Concrete managers used to instantiate the theorems -/

/-- A manager with one listener after a first poll that enumerated the cameras `A` and
`B`. -/
def managerAB : DeviceManager :=
  (DeviceManager.create.addListener 7).update [camera "first" "A", camera "second" "B"]

/-- A later enumeration: the camera `B`, under another name, and a camera `C`. -/
def enumerationBC : List Activate := [camera "renamed" "B", camera "third" "C"]

/-- Whether a call from outside is a poll of the manager. -/
def ManagerCall.isUpdate : ManagerCall → Bool
  | .update _ => true
  | _ => false

/-- Whether a call from outside is a device-change event the hook takes into account: a
`WM_DEVICECHANGE` message with a non-zero `wParam`. -/
def ManagerCall.isDeviceChange : ManagerCall → Bool
  | .wndProcHook wParam message => wParam ≠ 0 && message = WM_DEVICECHANGE
  | _ => false

/-- An activation object with the friendly name `name` whose symbolic link is obtained
but cannot be converted to a multi-byte string. -/
def unreadableCamera (name : String) : Activate :=
  { friendlyName := AllocatedString.converted name
    symbolicLink := AllocatedString.unconvertible
    mediaTypes := [] }

/-- An enumeration of two cameras: `A`, and one whose symbolic link cannot be read. -/
def enumerationUnreadable : List Activate := [camera "first" "A", unreadableCamera "second"]

/-- A manager after a first poll that enumerated `enumerationUnreadable`, a device-change
event having been observed since. -/
def managerUnreadable : DeviceManager :=
  (DeviceManager.create.update enumerationUnreadable).wndProcHook 1 WM_DEVICECHANGE

/-! # Theorems -/

/-! ## Buffers: reading, writing, copying -/

theorem length_writeByte (l : List Byte) (i : Nat) (b : Byte) :
    (writeByte l i b).length = l.length := by
  simp [writeByte]

theorem readByte_writeByte (l : List Byte) (i j : Nat) (b : Byte) :
    readByte (writeByte l i b) j = if i = j ∧ i < l.length then b else readByte l j := by
  unfold readByte writeByte
  rw [List.getD_eq_getElem?_getD, List.getD_eq_getElem?_getD, List.getElem?_set]
  by_cases hij : i = j
  · subst hij
    by_cases hi : i < l.length
    · simp [hi]
    · simp [hi, List.getElem?_eq_none (Nat.le_of_not_lt hi)]
  · simp [hij]

theorem readByte_eq_getElem (l : List Byte) (i : Nat) (h : i < l.length) :
    readByte l i = l[i] := by
  unfold readByte
  exact List.getD_eq_getElem l 0 h

theorem getElem?_eq_readByte (l : List Byte) (i : Nat) (h : i < l.length) :
    l[i]? = some (readByte l i) := by
  rw [readByte_eq_getElem l i h]
  exact List.getElem?_eq_getElem h

theorem eq_of_readByte_eq (l₁ l₂ : List Byte) (hlen : l₁.length = l₂.length)
    (h : ∀ i, i < l₁.length → readByte l₁ i = readByte l₂ i) : l₁ = l₂ := by
  apply List.ext_getElem hlen
  intro n h₁ h₂
  have := h n h₁
  rwa [readByte_eq_getElem l₁ n h₁, readByte_eq_getElem l₂ n h₂] at this

theorem forLoop_succ {σ : Type} (n : Nat) (body : σ → σ) (s : σ) :
    forLoop (n + 1) body s = body (forLoop n body s) := by
  induction n generalizing s with
  | zero => rfl
  | succ n ih =>
    show forLoop (n + 1) body (body s) = body (forLoop n body (body s))
    exact ih (body s)

theorem forLoop_add {σ : Type} (m n : Nat) (body : σ → σ) (s : σ) :
    forLoop (m + n) body s = forLoop n body (forLoop m body s) := by
  induction n with
  | zero => rfl
  | succ n ih => rw [← Nat.add_assoc, forLoop_succ, forLoop_succ, ih]

theorem forLoop_nested {σ : Type} (outer inner : Nat) (body : σ → σ) (s : σ) :
    forLoop outer (forLoop inner body) s = forLoop (inner * outer) body s := by
  induction outer with
  | zero => rfl
  | succ n ih => rw [forLoop_succ, ih, Nat.mul_succ, forLoop_add]

theorem length_memcpy (dest : List Byte) (d : Nat) (source : List Byte) (s n : Nat) :
    (memcpy dest d source s n).length = dest.length := by
  induction n generalizing dest d s with
  | zero => rfl
  | succ n ih =>
    show (memcpy (writeByte dest d (readByte source s)) (d + 1) source (s + 1) n).length = _
    rw [ih, length_writeByte]

theorem readByte_memcpy (dest : List Byte) (d : Nat) (source : List Byte) (s n : Nat)
    (hd : d + n ≤ dest.length) (j : Nat) :
    readByte (memcpy dest d source s n) j =
      if d ≤ j ∧ j < d + n then readByte source (s + (j - d)) else readByte dest j := by
  induction n generalizing dest d s with
  | zero =>
    have h0 : ¬ (d ≤ j ∧ j < d + 0) := by omega
    rw [if_neg h0]
    rfl
  | succ n ih =>
    show readByte (memcpy (writeByte dest d (readByte source s)) (d + 1) source (s + 1) n) j = _
    rw [ih _ _ _ (by rw [length_writeByte]; omega), readByte_writeByte]
    by_cases h1 : d + 1 ≤ j ∧ j < d + 1 + n
    · have h2 : d ≤ j ∧ j < d + (n + 1) := by omega
      have h3 : s + 1 + (j - (d + 1)) = s + (j - d) := by omega
      rw [if_pos h1, if_pos h2, h3]
    · rw [if_neg h1]
      by_cases h4 : d = j
      · subst h4
        have h5 : d ≤ d ∧ d < d + (n + 1) := by omega
        have h6 : d = d ∧ d < dest.length := by omega
        rw [if_pos h5, if_pos h6]
        simp
      · have h5 : ¬ (d ≤ j ∧ j < d + (n + 1)) := by omega
        have h6 : ¬ (d = j ∧ d < dest.length) := by omega
        rw [if_neg h5, if_neg h6]

/-! ## The packed-4:2:2 loops -/

namespace ImageConverter

theorem yuyvToRGB24Body_step : PairStep rgb24PairBytes yuyvToRGB24Body := by
  intro s
  refine ⟨rfl, rfl, rfl, ?_, ?_⟩
  · simp [yuyvToRGB24Body, length_writeByte]
  · intro hlen j
    simp only [yuyvToRGB24Body, readByte_writeByte, length_writeByte, Nat.add_zero]
    by_cases h0 : s.destBytes ≤ j ∧ j < s.destBytes + 6
    · rw [if_pos h0]
      obtain ⟨t, ht, rfl⟩ : ∃ t, t < 6 ∧ j = s.destBytes + t := ⟨j - s.destBytes, by omega, by omega⟩
      have : s.destBytes + t - s.destBytes = t := by omega
      rw [this]
      interval_cases t <;> simp [rgb24PairBytes] <;> omega
    · rw [if_neg h0]
      simp only [not_and_or, not_le, not_lt] at h0
      repeat rw [if_neg (by omega)]

theorem yuyvToBGR24Body_step : PairStep bgr24PairBytes yuyvToBGR24Body := by
  intro s
  refine ⟨rfl, rfl, rfl, ?_, ?_⟩
  · simp [yuyvToBGR24Body, length_writeByte]
  · intro hlen j
    simp only [yuyvToBGR24Body, readByte_writeByte, length_writeByte, Nat.add_zero]
    by_cases h0 : s.destBytes ≤ j ∧ j < s.destBytes + 6
    · rw [if_pos h0]
      obtain ⟨t, ht, rfl⟩ : ∃ t, t < 6 ∧ j = s.destBytes + t := ⟨j - s.destBytes, by omega, by omega⟩
      have : s.destBytes + t - s.destBytes = t := by omega
      rw [this]
      interval_cases t <;> simp [bgr24PairBytes] <;> omega
    · rw [if_neg h0]
      simp only [not_and_or, not_le, not_lt] at h0
      repeat rw [if_neg (by omega)]

theorem pairInv_zero (out : Byte → Byte → Byte → Byte → Nat → Byte) (src dst : List Byte) :
    PairInv out src dst 0 { source := src, dest := dst, sourceBytes := 0, destBytes := 0 } := by
  refine ⟨rfl, rfl, rfl, rfl, ?_, ?_⟩
  · intro m t hm
    omega
  · intro j _
    rfl

theorem pairInv_step (out : Byte → Byte → Byte → Byte → Nat → Byte)
    (body : PixelLoop → PixelLoop) (hbody : PairStep out body) (src dst : List Byte) (k : Nat)
    (s : PixelLoop) (hinv : PairInv out src dst k s) (hk : 6 * (k + 1) ≤ dst.length) :
    PairInv out src dst (k + 1) (body s) := by
  obtain ⟨hsrc, hsb, hdb, hlen, hdone, hrest⟩ := hinv
  obtain ⟨b1, b2, b3, b4, b5⟩ := hbody s
  have hroom : s.destBytes + 6 ≤ s.dest.length := by omega
  refine ⟨by rw [b1, hsrc], by rw [b2, hsb]; ring, by rw [b3, hdb]; ring, by rw [b4, hlen], ?_, ?_⟩
  · intro m t hm ht
    rw [b5 hroom]
    by_cases hmk : m = k
    · subst hmk
      have hin : s.destBytes ≤ 6 * m + t ∧ 6 * m + t < s.destBytes + 6 := by omega
      have ht' : 6 * m + t - s.destBytes = t := by omega
      rw [if_pos hin, ht', hsrc, hsb]
    · have hout : ¬ (s.destBytes ≤ 6 * m + t ∧ 6 * m + t < s.destBytes + 6) := by omega
      rw [if_neg hout]
      exact hdone m t (by omega) ht
  · intro j hj
    rw [b5 hroom]
    have hout : ¬ (s.destBytes ≤ j ∧ j < s.destBytes + 6) := by omega
    rw [if_neg hout]
    exact hrest j (by omega)

theorem pairInv_forLoop (out : Byte → Byte → Byte → Byte → Nat → Byte)
    (body : PixelLoop → PixelLoop) (hbody : PairStep out body) (src dst : List Byte) (k : Nat)
    (hk : 6 * k ≤ dst.length) :
    PairInv out src dst k
      (forLoop k body { source := src, dest := dst, sourceBytes := 0, destBytes := 0 }) := by
  induction k with
  | zero => exact pairInv_zero out src dst
  | succ k ih =>
    rw [forLoop_succ]
    exact pairInv_step out body hbody src dst k _ (ih (by omega)) hk

theorem val_CLIP_INT_TO_UCHAR_shift (x : Int) :
    (((CLIP_INT_TO_UCHAR (x >>> (8 : Nat))).val : Nat) : Int) = clip (Int.fdiv x 256) := by
  have h1 : x >>> (8 : Nat) = Int.fdiv x 256 := by
    rw [Int.shiftRight_eq_div_pow, Int.fdiv_eq_ediv x (by norm_num)]
    norm_num
  rw [h1]
  generalize Int.fdiv x 256 = q
  unfold CLIP_INT_TO_UCHAR clip
  by_cases hneg : q < 0
  · rw [if_pos hneg]
    show ((0 : Nat) : Int) = max 0 (min 255 q)
    omega
  · rw [if_neg hneg]
    by_cases hbig : q > 255
    · rw [if_pos hbig]
      show ((255 : Nat) : Int) = max 0 (min 255 q)
      omega
    · rw [if_neg hbig]
      have hq : q.toNat < 256 := by omega
      simp [Fin.ofNat, Nat.mod_eq_of_lt hq]
      omega

theorem pairs_fit (w h : Nat) : 6 * (w / 2 * h) ≤ w * 3 * h := by
  have h2 : w / 2 * 2 ≤ w := Nat.div_mul_le_self w 2
  calc 6 * (w / 2 * h) = 3 * (w / 2 * 2 * h) := by ring
    _ ≤ 3 * (w * h) := Nat.mul_le_mul_left 3 (Nat.mul_le_mul_right h h2)
    _ = w * 3 * h := by ring

theorem pairs_fill (w h : Nat) (heven : w % 2 = 0) : 6 * (w / 2 * h) = w * 3 * h := by
  have h2 : w / 2 * 2 = w := Nat.div_mul_cancel (Nat.dvd_of_mod_eq_zero heven)
  calc 6 * (w / 2 * h) = 3 * (w / 2 * 2 * h) := by ring
    _ = w * 3 * h := by rw [h2]; ring

theorem quads_fit (w h : Nat) : 4 * (w / 2 * h) ≤ w * 2 * h := by
  have h2 : w / 2 * 2 ≤ w := Nat.div_mul_le_self w 2
  calc 4 * (w / 2 * h) = 2 * (w / 2 * 2 * h) := by ring
    _ ≤ 2 * (w * h) := Nat.mul_le_mul_left 2 (Nat.mul_le_mul_right h h2)
    _ = w * 2 * h := by ring

/-- What `convertYUYVImageToRGB24Image` does on well-formed images of matching size,
whatever the parity of the width. -/
theorem convertYUYVImageToRGB24Image_run (yuyvImage rgb24Image : Image)
    (hdst : rgb24Image.valid)
    (hse : yuyvImage.format.encoding = Encoding.YUYV)
    (hde : rgb24Image.format.encoding = Encoding.RGB24)
    (hw : rgb24Image.format.width = yuyvImage.format.width)
    (hh : rgb24Image.format.height = yuyvImage.format.height) :
    (convertYUYVImageToRGB24Image yuyvImage rgb24Image).1 = true ∧
    (convertYUYVImageToRGB24Image yuyvImage rgb24Image).2.source = yuyvImage ∧
    (convertYUYVImageToRGB24Image yuyvImage rgb24Image).2.destination.format = rgb24Image.format ∧
    PairInv rgb24PairBytes yuyvImage.buffer.bytes rgb24Image.buffer.bytes
      (yuyvImage.format.width / 2 * yuyvImage.format.height)
      { source := yuyvImage.buffer.bytes
        dest := (convertYUYVImageToRGB24Image yuyvImage rgb24Image).2.destination.buffer.bytes
        sourceBytes := 4 * (yuyvImage.format.width / 2 * yuyvImage.format.height)
        destBytes := 6 * (yuyvImage.format.width / 2 * yuyvImage.format.height) } := by
  have hfit : 6 * (yuyvImage.format.width / 2 * yuyvImage.format.height)
      ≤ rgb24Image.buffer.bytes.length := by
    have hv : rgb24Image.buffer.bytes.length
        = yuyvImage.format.width * 3 * yuyvImage.format.height := by
      have := hdst
      simp only [Image.valid, MemoryBuffer.getSizeInBytes, ImageFormat.getDataSizeInBytes,
        ImageFormat.getNumBytesPerLine, hde, hw, hh, Encoding.getNumBytesPerPixel] at this
      exact this
    rw [hv]
    exact pairs_fit _ _
  have hinv := pairInv_forLoop rgb24PairBytes yuyvToRGB24Body yuyvToRGB24Body_step
    yuyvImage.buffer.bytes rgb24Image.buffer.bytes _ hfit
  have hrun : convertYUYVImageToRGB24Image yuyvImage rgb24Image =
      (true, Images.mk
        (Image.mk yuyvImage.format (MemoryBuffer.mk
          (forLoop (yuyvImage.format.width / 2 * yuyvImage.format.height) yuyvToRGB24Body
            (PixelLoop.mk yuyvImage.buffer.bytes rgb24Image.buffer.bytes 0 0)).source))
        (Image.mk rgb24Image.format (MemoryBuffer.mk
          (forLoop (yuyvImage.format.width / 2 * yuyvImage.format.height) yuyvToRGB24Body
            (PixelLoop.mk yuyvImage.buffer.bytes rgb24Image.buffer.bytes 0 0)).dest))) := by
    simp [convertYUYVImageToRGB24Image, hse, hde, hw, hh, forLoop_nested]
  obtain ⟨i1, i2, i3, i4, i5, i6⟩ := hinv
  rw [hrun]
  refine ⟨rfl, ?_, rfl, ?_⟩
  · simp only [i1]
  · exact ⟨rfl, rfl, rfl, i4, i5, i6⟩

theorem rgb24PairBytes_spec (y0 u y1 v : Byte) :
    (((rgb24PairBytes y0 u y1 v 0).val : Nat) : Int) = specRed y0 u v ∧
    (((rgb24PairBytes y0 u y1 v 1).val : Nat) : Int) = specGreen y0 u v ∧
    (((rgb24PairBytes y0 u y1 v 2).val : Nat) : Int) = specBlue y0 u v ∧
    (((rgb24PairBytes y0 u y1 v 3).val : Nat) : Int) = specRed y1 u v ∧
    (((rgb24PairBytes y0 u y1 v 4).val : Nat) : Int) = specGreen y1 u v ∧
    (((rgb24PairBytes y0 u y1 v 5).val : Nat) : Int) = specBlue y1 u v :=
  ⟨val_CLIP_INT_TO_UCHAR_shift _, val_CLIP_INT_TO_UCHAR_shift _, val_CLIP_INT_TO_UCHAR_shift _,
   val_CLIP_INT_TO_UCHAR_shift _, val_CLIP_INT_TO_UCHAR_shift _, val_CLIP_INT_TO_UCHAR_shift _⟩

/-- C1: for a YUYV source and an RGB24 destination of the same even width and the same
height, `convertYUYVImageToRGB24Image` returns true and, for every pair index
`k < (width/2)*height`, with `y0 u y1 v` the source bytes `4k..4k+3`, the destination
bytes `6k..6k+5` are red, green, blue of `y0` then red, green, blue of `y1`, each channel
being the clamped, floor-shifted integer transform of the specification. -/
theorem convertYUYVImageToRGB24Image_formula (yuyvImage rgb24Image : Image)
    (hsrc : yuyvImage.valid) (hdst : rgb24Image.valid)
    (hse : yuyvImage.format.encoding = Encoding.YUYV)
    (hde : rgb24Image.format.encoding = Encoding.RGB24)
    (hw : rgb24Image.format.width = yuyvImage.format.width)
    (hh : rgb24Image.format.height = yuyvImage.format.height)
    (_heven : yuyvImage.format.width % 2 = 0) :
    (convertYUYVImageToRGB24Image yuyvImage rgb24Image).1 = true ∧
    ∀ k, k < yuyvImage.format.width / 2 * yuyvImage.format.height →
      ∃ y0 u y1 v r0 g0 b0 r1 g1 b1 : Byte,
        yuyvImage.buffer.bytes[4 * k]? = some y0 ∧
        yuyvImage.buffer.bytes[4 * k + 1]? = some u ∧
        yuyvImage.buffer.bytes[4 * k + 2]? = some y1 ∧
        yuyvImage.buffer.bytes[4 * k + 3]? = some v ∧
        (convertYUYVImageToRGB24Image yuyvImage rgb24Image).2.destination.buffer.bytes[6 * k]?
          = some r0 ∧
        (convertYUYVImageToRGB24Image yuyvImage rgb24Image).2.destination.buffer.bytes[6 * k + 1]?
          = some g0 ∧
        (convertYUYVImageToRGB24Image yuyvImage rgb24Image).2.destination.buffer.bytes[6 * k + 2]?
          = some b0 ∧
        (convertYUYVImageToRGB24Image yuyvImage rgb24Image).2.destination.buffer.bytes[6 * k + 3]?
          = some r1 ∧
        (convertYUYVImageToRGB24Image yuyvImage rgb24Image).2.destination.buffer.bytes[6 * k + 4]?
          = some g1 ∧
        (convertYUYVImageToRGB24Image yuyvImage rgb24Image).2.destination.buffer.bytes[6 * k + 5]?
          = some b1 ∧
        ((r0.val : Nat) : Int) = specRed y0 u v ∧
        ((g0.val : Nat) : Int) = specGreen y0 u v ∧
        ((b0.val : Nat) : Int) = specBlue y0 u v ∧
        ((r1.val : Nat) : Int) = specRed y1 u v ∧
        ((g1.val : Nat) : Int) = specGreen y1 u v ∧
        ((b1.val : Nat) : Int) = specBlue y1 u v := by
  obtain ⟨hret, -, -, -, -, -, hlen, hpix, -⟩ :=
    convertYUYVImageToRGB24Image_run yuyvImage rgb24Image hdst hse hde hw hh
  refine ⟨hret, ?_⟩
  intro k hk
  have hslen : yuyvImage.buffer.bytes.length
      = yuyvImage.format.width * 2 * yuyvImage.format.height := by
    have := hsrc
    simp only [Image.valid, MemoryBuffer.getSizeInBytes, ImageFormat.getDataSizeInBytes,
      ImageFormat.getNumBytesPerLine, hse, Encoding.getNumBytesPerPixel] at this
    exact this
  have hdlen : rgb24Image.buffer.bytes.length
      = yuyvImage.format.width * 3 * yuyvImage.format.height := by
    have := hdst
    simp only [Image.valid, MemoryBuffer.getSizeInBytes, ImageFormat.getDataSizeInBytes,
      ImageFormat.getNumBytesPerLine, hde, hw, hh, Encoding.getNumBytesPerPixel] at this
    exact this
  have hq := quads_fit yuyvImage.format.width yuyvImage.format.height
  have hp := pairs_fit yuyvImage.format.width yuyvImage.format.height
  simp only at hlen hpix
  obtain ⟨s0, s1, s2, s3, s4, s5⟩ := rgb24PairBytes_spec
    (readByte yuyvImage.buffer.bytes (4 * k)) (readByte yuyvImage.buffer.bytes (4 * k + 1))
    (readByte yuyvImage.buffer.bytes (4 * k + 2)) (readByte yuyvImage.buffer.bytes (4 * k + 3))
  refine ⟨readByte yuyvImage.buffer.bytes (4 * k), readByte yuyvImage.buffer.bytes (4 * k + 1),
    readByte yuyvImage.buffer.bytes (4 * k + 2), readByte yuyvImage.buffer.bytes (4 * k + 3),
    _, _, _, _, _, _,
    getElem?_eq_readByte _ _ (by omega), getElem?_eq_readByte _ _ (by omega),
    getElem?_eq_readByte _ _ (by omega), getElem?_eq_readByte _ _ (by omega),
    getElem?_eq_readByte _ _ (by omega), getElem?_eq_readByte _ _ (by omega),
    getElem?_eq_readByte _ _ (by omega), getElem?_eq_readByte _ _ (by omega),
    getElem?_eq_readByte _ _ (by omega), getElem?_eq_readByte _ _ (by omega),
    ?_, ?_, ?_, ?_, ?_, ?_⟩
  · have := hpix k 0 hk (by omega)
    rw [Nat.add_zero] at this
    rw [this]
    exact s0
  · rw [hpix k 1 hk (by omega)]
    exact s1
  · rw [hpix k 2 hk (by omega)]
    exact s2
  · rw [hpix k 3 hk (by omega)]
    exact s3
  · rw [hpix k 4 hk (by omega)]
    exact s4
  · rw [hpix k 5 hk (by omega)]
    exact s5

end ImageConverter

/-! ## The channel swap -/

namespace ImageConverter

theorem swapLoop_spec (count fuel i : Nat) (bytes : List Byte)
    (hcount : count % 3 = 0) (hi : i % 3 = 0) (hlen : count ≤ bytes.length)
    (hfuel : count ≤ i + 3 * fuel) :
    (swapLoop count fuel i bytes).length = bytes.length ∧
    (∀ j, j < i → readByte (swapLoop count fuel i bytes) j = readByte bytes j) ∧
    (∀ j, count ≤ j → readByte (swapLoop count fuel i bytes) j = readByte bytes j) ∧
    (∀ k, i ≤ 3 * k → 3 * k < count →
      readByte (swapLoop count fuel i bytes) (3 * k) = readByte bytes (3 * k + 2) ∧
      readByte (swapLoop count fuel i bytes) (3 * k + 1) = readByte bytes (3 * k + 1) ∧
      readByte (swapLoop count fuel i bytes) (3 * k + 2) = readByte bytes (3 * k)) := by
  induction fuel generalizing i bytes with
  | zero =>
    refine ⟨rfl, fun _ _ => rfl, fun _ _ => rfl, ?_⟩
    intro k h1 h2
    omega
  | succ fuel ih =>
    by_cases hlt : i < count
    · have hstep : swapLoop count (fuel + 1) i bytes =
          swapLoop count fuel (i + 3)
            (writeByte (writeByte bytes i (readByte bytes (i + 2))) (i + 2) (readByte bytes i)) := by
        simp [swapLoop, hlt]
      rw [hstep]
      obtain ⟨r1, r2, r3, r4⟩ := ih (i + 3)
        (writeByte (writeByte bytes i (readByte bytes (i + 2))) (i + 2) (readByte bytes i))
        (by omega) (by simp only [length_writeByte]; exact hlen) (by omega)
      have hw : ∀ j, readByte
          (writeByte (writeByte bytes i (readByte bytes (i + 2))) (i + 2) (readByte bytes i)) j =
          if j = i + 2 then readByte bytes i
          else if j = i then readByte bytes (i + 2) else readByte bytes j := by
        intro j
        rw [readByte_writeByte, readByte_writeByte, length_writeByte]
        by_cases h1 : j = i + 2
        · rw [if_pos (by omega), if_pos h1]
        · rw [if_neg (by omega), if_neg h1]
          by_cases h2 : j = i
          · rw [if_pos (by omega), if_pos h2]
          · rw [if_neg (by omega), if_neg h2]
      refine ⟨by rw [r1, length_writeByte, length_writeByte], ?_, ?_, ?_⟩
      · intro j hj
        rw [r2 j (by omega), hw, if_neg (by omega), if_neg (by omega)]
      · intro j hj
        rw [r3 j hj, hw, if_neg (by omega), if_neg (by omega)]
      · intro k h1 h2
        by_cases hk : 3 * k = i
        · rw [r2 (3 * k) (by omega), r2 (3 * k + 1) (by omega), r2 (3 * k + 2) (by omega),
            hw, hw, hw]
          refine ⟨?_, ?_, ?_⟩
          · rw [if_neg (by omega), if_pos hk, hk]
          · rw [if_neg (by omega), if_neg (by omega)]
          · rw [if_pos (by omega), hk]
        · obtain ⟨q1, q2, q3⟩ := r4 k (by omega) h2
          rw [q1, q2, q3, hw, hw, hw]
          refine ⟨?_, ?_, ?_⟩
          · rw [if_neg (by omega), if_neg (by omega)]
          · rw [if_neg (by omega), if_neg (by omega)]
          · rw [if_neg (by omega), if_neg (by omega)]
    · have hstep : swapLoop count (fuel + 1) i bytes = bytes := by
        simp [swapLoop, hlt]
      rw [hstep]
      refine ⟨rfl, fun _ _ => rfl, fun _ _ => rfl, ?_⟩
      intro k h1 h2
      omega

/-- Copying `other` over `self` and swapping: the effect on buffers of `3 * n` bytes. -/
theorem copy_swap_spec (self other : MemoryBuffer) (n : Nat)
    (hself : self.bytes.length = 3 * n) (hother : other.bytes.length = 3 * n) :
    (swapFirstAndThirdBytesEveryThreeBytes (self.copyFrom other).2).2.bytes.length = 3 * n ∧
    ∀ k, k < n →
      readByte (swapFirstAndThirdBytesEveryThreeBytes (self.copyFrom other).2).2.bytes (3 * k)
        = readByte other.bytes (3 * k + 2) ∧
      readByte (swapFirstAndThirdBytesEveryThreeBytes (self.copyFrom other).2).2.bytes (3 * k + 1)
        = readByte other.bytes (3 * k + 1) ∧
      readByte (swapFirstAndThirdBytesEveryThreeBytes (self.copyFrom other).2).2.bytes (3 * k + 2)
        = readByte other.bytes (3 * k) := by
  have hcopy : (self.copyFrom other).2 = other := by
    simp [MemoryBuffer.copyFrom, MemoryBuffer.getSizeInBytes, hself, hother]
  have hswap : (swapFirstAndThirdBytesEveryThreeBytes other).2.bytes
      = swapLoop (3 * n) (3 * n) 0 other.bytes := by
    simp [swapFirstAndThirdBytesEveryThreeBytes, MemoryBuffer.getSizeInBytes, hother]
  rw [hcopy, hswap]
  obtain ⟨r1, -, -, r4⟩ := swapLoop_spec (3 * n) (3 * n) 0 other.bytes (by omega) (by omega)
    (by omega) (by omega)
  refine ⟨by rw [r1, hother], ?_⟩
  intro k hk
  exact r4 k (by omega) (by omega)

theorem rgb24_length (img : Image) (hv : img.valid)
    (he : img.format.encoding = Encoding.RGB24 ∨ img.format.encoding = Encoding.BGR24) :
    img.buffer.bytes.length = 3 * (img.format.width * img.format.height) := by
  have := hv
  simp only [Image.valid, MemoryBuffer.getSizeInBytes, ImageFormat.getDataSizeInBytes,
    ImageFormat.getNumBytesPerLine] at this
  rw [this]
  rcases he with he | he <;> rw [he] <;> simp only [Encoding.getNumBytesPerPixel] <;> ring

theorem convertBGR24ImageToRGB24Image_run (bgr24Image rgb24Image : Image)
    (hse : bgr24Image.format.encoding = Encoding.BGR24)
    (hde : rgb24Image.format.encoding = Encoding.RGB24)
    (hw : rgb24Image.format.width = bgr24Image.format.width)
    (hh : rgb24Image.format.height = bgr24Image.format.height) :
    convertBGR24ImageToRGB24Image bgr24Image rgb24Image =
      (true, Images.mk bgr24Image (Image.mk rgb24Image.format
        (swapFirstAndThirdBytesEveryThreeBytes (rgb24Image.buffer.copyFrom bgr24Image.buffer).2).2)) := by
  simp [convertBGR24ImageToRGB24Image, hse, hde, hw, hh]

theorem convertRGB24ImageToBGR24Image_run (rgb24Image bgr24Image : Image)
    (hse : rgb24Image.format.encoding = Encoding.RGB24)
    (hde : bgr24Image.format.encoding = Encoding.BGR24)
    (hw : bgr24Image.format.width = rgb24Image.format.width)
    (hh : bgr24Image.format.height = rgb24Image.format.height) :
    convertRGB24ImageToBGR24Image rgb24Image bgr24Image =
      (true, Images.mk rgb24Image (Image.mk bgr24Image.format
        (swapFirstAndThirdBytesEveryThreeBytes (bgr24Image.buffer.copyFrom rgb24Image.buffer).2).2)) := by
  simp [convertRGB24ImageToBGR24Image, hse, hde, hw, hh]

theorem swapped_pixels (src dst : List Byte) (n : Nat) (hs : src.length = 3 * n)
    (hd : dst.length = 3 * n)
    (h : ∀ k, k < n → readByte dst (3 * k) = readByte src (3 * k + 2) ∧
      readByte dst (3 * k + 1) = readByte src (3 * k + 1) ∧
      readByte dst (3 * k + 2) = readByte src (3 * k)) :
    ∀ k, k < n → ∃ a b c : Byte,
      src[3 * k]? = some a ∧ src[3 * k + 1]? = some b ∧ src[3 * k + 2]? = some c ∧
      dst[3 * k]? = some c ∧ dst[3 * k + 1]? = some b ∧ dst[3 * k + 2]? = some a := by
  intro k hk
  obtain ⟨h0, h1, h2⟩ := h k hk
  refine ⟨readByte src (3 * k), readByte src (3 * k + 1), readByte src (3 * k + 2),
    getElem?_eq_readByte _ _ (by omega), getElem?_eq_readByte _ _ (by omega),
    getElem?_eq_readByte _ _ (by omega), ?_, ?_, ?_⟩
  · rw [← h0]
    exact getElem?_eq_readByte _ _ (by omega)
  · rw [← h1]
    exact getElem?_eq_readByte _ _ (by omega)
  · rw [← h2]
    exact getElem?_eq_readByte _ _ (by omega)

/-- C5: for a BGR24 image and an RGB24 image of the same width and height, the conversion
in either direction returns true, leaves its source unchanged and makes every destination
pixel the source pixel with bytes 0 and 2 exchanged (`dst[3k] = src[3k+2]`,
`dst[3k+1] = src[3k+1]`, `dst[3k+2] = src[3k]`); and
`swapFirstAndThirdBytesEveryThreeBytes` on a buffer whose size is not divisible by 3
returns false and leaves the buffer unchanged. -/
theorem convert_swaps_first_and_third_bytes (bgr24Image rgb24Image : Image)
    (buffer : MemoryBuffer)
    (hbv : bgr24Image.valid) (hrv : rgb24Image.valid)
    (hbe : bgr24Image.format.encoding = Encoding.BGR24)
    (hre : rgb24Image.format.encoding = Encoding.RGB24)
    (hw : rgb24Image.format.width = bgr24Image.format.width)
    (hh : rgb24Image.format.height = bgr24Image.format.height)
    (h3 : buffer.getSizeInBytes % 3 ≠ 0) :
    ((convertBGR24ImageToRGB24Image bgr24Image rgb24Image).1 = true ∧
      (convertBGR24ImageToRGB24Image bgr24Image rgb24Image).2.source = bgr24Image ∧
      ∀ k, k < bgr24Image.format.width * bgr24Image.format.height → ∃ a b c : Byte,
        bgr24Image.buffer.bytes[3 * k]? = some a ∧
        bgr24Image.buffer.bytes[3 * k + 1]? = some b ∧
        bgr24Image.buffer.bytes[3 * k + 2]? = some c ∧
        (convertBGR24ImageToRGB24Image bgr24Image rgb24Image).2.destination.buffer.bytes[3 * k]?
          = some c ∧
        (convertBGR24ImageToRGB24Image bgr24Image rgb24Image).2.destination.buffer.bytes[3 * k + 1]?
          = some b ∧
        (convertBGR24ImageToRGB24Image bgr24Image rgb24Image).2.destination.buffer.bytes[3 * k + 2]?
          = some a) ∧
    ((convertRGB24ImageToBGR24Image rgb24Image bgr24Image).1 = true ∧
      (convertRGB24ImageToBGR24Image rgb24Image bgr24Image).2.source = rgb24Image ∧
      ∀ k, k < rgb24Image.format.width * rgb24Image.format.height → ∃ a b c : Byte,
        rgb24Image.buffer.bytes[3 * k]? = some a ∧
        rgb24Image.buffer.bytes[3 * k + 1]? = some b ∧
        rgb24Image.buffer.bytes[3 * k + 2]? = some c ∧
        (convertRGB24ImageToBGR24Image rgb24Image bgr24Image).2.destination.buffer.bytes[3 * k]?
          = some c ∧
        (convertRGB24ImageToBGR24Image rgb24Image bgr24Image).2.destination.buffer.bytes[3 * k + 1]?
          = some b ∧
        (convertRGB24ImageToBGR24Image rgb24Image bgr24Image).2.destination.buffer.bytes[3 * k + 2]?
          = some a) ∧
    swapFirstAndThirdBytesEveryThreeBytes buffer = (false, buffer) := by
  have hbl := rgb24_length bgr24Image hbv (Or.inr hbe)
  have hrl := rgb24_length rgb24Image hrv (Or.inl hre)
  have hrl' : rgb24Image.buffer.bytes.length
      = 3 * (bgr24Image.format.width * bgr24Image.format.height) := by rw [hrl, hw, hh]
  refine ⟨?_, ?_, ?_⟩
  · rw [convertBGR24ImageToRGB24Image_run bgr24Image rgb24Image hbe hre hw hh]
    obtain ⟨c1, c2⟩ := copy_swap_spec rgb24Image.buffer bgr24Image.buffer _ hrl' hbl
    exact ⟨rfl, rfl, swapped_pixels _ _ _ hbl c1 c2⟩
  · rw [convertRGB24ImageToBGR24Image_run rgb24Image bgr24Image hre hbe hw.symm hh.symm]
    have hbl' : bgr24Image.buffer.bytes.length
        = 3 * (rgb24Image.format.width * rgb24Image.format.height) := by rw [hbl, hw, hh]
    obtain ⟨c1, c2⟩ := copy_swap_spec bgr24Image.buffer rgb24Image.buffer _ hbl' hrl
    exact ⟨rfl, rfl, swapped_pixels _ _ _ hrl c1 c2⟩
  · simp [swapFirstAndThirdBytesEveryThreeBytes, h3]

/-- C2: an RGB24 image converted to a BGR24 image of the same width and height with
`convertRGB24ImageToBGR24Image`, and the result converted back to an RGB24 image with
`convertBGR24ImageToRGB24Image`: both conversions succeed and the final pixel data is
byte-identical to the original. -/
theorem rgb24_bgr24_round_trip (original bgr24Image back : Image)
    (hov : original.valid) (hbv : bgr24Image.valid) (hkv : back.valid)
    (hoe : original.format.encoding = Encoding.RGB24)
    (hbe : bgr24Image.format.encoding = Encoding.BGR24)
    (hke : back.format.encoding = Encoding.RGB24)
    (hw : bgr24Image.format.width = original.format.width)
    (hh : bgr24Image.format.height = original.format.height)
    (hw2 : back.format.width = original.format.width)
    (hh2 : back.format.height = original.format.height) :
    (convertRGB24ImageToBGR24Image original bgr24Image).1 = true ∧
    (convertBGR24ImageToRGB24Image
      (convertRGB24ImageToBGR24Image original bgr24Image).2.destination back).1 = true ∧
    (convertBGR24ImageToRGB24Image
      (convertRGB24ImageToBGR24Image original bgr24Image).2.destination back).2.destination.buffer
      = original.buffer := by
  have hol := rgb24_length original hov (Or.inl hoe)
  have hbl := rgb24_length bgr24Image hbv (Or.inr hbe)
  have hkl := rgb24_length back hkv (Or.inl hke)
  rw [hw, hh] at hbl
  rw [hw2, hh2] at hkl
  rw [convertRGB24ImageToBGR24Image_run original bgr24Image hoe hbe hw hh]
  obtain ⟨c1, c2⟩ := copy_swap_spec bgr24Image.buffer original.buffer _ hbl hol
  show true = true ∧
    (convertBGR24ImageToRGB24Image (Image.mk bgr24Image.format
      (swapFirstAndThirdBytesEveryThreeBytes (bgr24Image.buffer.copyFrom original.buffer).2).2)
      back).1 = true ∧
    (convertBGR24ImageToRGB24Image (Image.mk bgr24Image.format
      (swapFirstAndThirdBytesEveryThreeBytes (bgr24Image.buffer.copyFrom original.buffer).2).2)
      back).2.destination.buffer = original.buffer
  rw [convertBGR24ImageToRGB24Image_run (Image.mk bgr24Image.format
      (swapFirstAndThirdBytesEveryThreeBytes (bgr24Image.buffer.copyFrom original.buffer).2).2)
      back hbe hke (by rw [hw2, hw]) (by rw [hh2, hh])]
  obtain ⟨d1, d2⟩ := copy_swap_spec back.buffer
    (swapFirstAndThirdBytesEveryThreeBytes (bgr24Image.buffer.copyFrom original.buffer).2).2 _
    hkl c1
  refine ⟨rfl, rfl, ?_⟩
  show (swapFirstAndThirdBytesEveryThreeBytes (back.buffer.copyFrom
    (swapFirstAndThirdBytesEveryThreeBytes (bgr24Image.buffer.copyFrom original.buffer).2).2).2).2
      = original.buffer
  have hbytes : (swapFirstAndThirdBytesEveryThreeBytes (back.buffer.copyFrom
      (swapFirstAndThirdBytesEveryThreeBytes
        (bgr24Image.buffer.copyFrom original.buffer).2).2).2).2.bytes = original.buffer.bytes := by
    apply eq_of_readByte_eq _ _ (by rw [d1, hol])
    intro i hi
    rw [d1] at hi
    obtain ⟨e0, e1, e2⟩ := d2 (i / 3) (by omega)
    obtain ⟨f0, f1, f2⟩ := c2 (i / 3) (by omega)
    have hcases : i = 3 * (i / 3) ∨ i = 3 * (i / 3) + 1 ∨ i = 3 * (i / 3) + 2 := by omega
    rcases hcases with hc | hc | hc
    · rw [hc, e0, f2]
    · rw [hc, e1, f1]
    · rw [hc, e2, f0]
  cases hres : swapFirstAndThirdBytesEveryThreeBytes (back.buffer.copyFrom
      (swapFirstAndThirdBytesEveryThreeBytes
        (bgr24Image.buffer.copyFrom original.buffer).2).2).2 with
  | mk ok buf =>
    rw [hres] at hbytes
    cases buf with
    | mk bs =>
      cases hob : original.buffer with
      | mk ob =>
        rw [hob] at hbytes
        simp only at hbytes
        simp only [hbytes]

end ImageConverter

/-! ## The vertical flip -/

namespace Device

theorem flipInv_zero (n h : Nat) (src dst : List Byte) :
    FlipInv n h src dst 0
      { source := src, destination := dst, sourceBytes := 0,
        destinationBytes := (n : Int) * ((h : Int) - 1) } := by
  refine ⟨rfl, by simp, ?_, rfl, ?_, ?_⟩
  · show (n : Int) * ((h : Int) - 1) = ((h : Int) - 1 - ((0 : Nat) : Int)) * (n : Int)
    push_cast
    ring
  · intro y c hy
    omega
  · intro j _
    rfl

theorem flipInv_step (n h : Nat) (src dst : List Byte) (k : Nat) (s : FlipLoop)
    (hinv : FlipInv n h src dst k s) (hk : k < h) (hlen : h * n ≤ dst.length) :
    FlipInv n h src dst (k + 1) (flipBody n s) := by
  obtain ⟨hsrc, hsb, hdb, hdl, hdone, hrest⟩ := hinv
  obtain ⟨r, hr⟩ : ∃ r, h = k + 1 + r := ⟨h - (k + 1), by omega⟩
  subst hr
  have e1 : k + 1 + r - 1 - k = r := by omega
  have e2 : k + 1 + r - k = r + 1 := by omega
  have e3 : k + 1 + r - (k + 1) = r := by omega
  have hoff : s.destinationBytes.toNat = r * n := by
    rw [hdb]
    have : (((k + 1 + r : Nat) : Int) - 1 - (k : Int)) * (n : Int) = ((r * n : Nat) : Int) := by
      push_cast
      ring
    rw [this, Int.toNat_ofNat]
  have hmul : (k + 1 + r) * n = k * n + n + r * n := by ring
  have hroom : r * n + n ≤ s.destination.length := by omega
  have hread : ∀ j, readByte (flipBody n s).destination j =
      if r * n ≤ j ∧ j < r * n + n then readByte src (k * n + (j - r * n))
      else readByte s.destination j := by
    intro j
    show readByte (memcpy s.destination s.destinationBytes.toNat s.source s.sourceBytes n) j = _
    rw [hoff, readByte_memcpy _ _ _ _ _ hroom, hsrc, hsb]
  refine ⟨hsrc, ?_, ?_, ?_, ?_, ?_⟩
  · show s.sourceBytes + n = (k + 1) * n
    rw [hsb]
    ring
  · show s.destinationBytes - (n : Int) = _
    rw [hdb]
    push_cast
    ring
  · show (memcpy s.destination s.destinationBytes.toNat s.source s.sourceBytes n).length = _
    rw [length_memcpy, hdl]
  · intro y c hy hc
    rw [hread]
    by_cases hyk : y = k
    · subst hyk
      rw [e1]
      have hin : r * n ≤ r * n + c ∧ r * n + c < r * n + n := by omega
      have hsub : r * n + c - r * n = c := by omega
      rw [if_pos hin, hsub]
    · have hylt : y < k := by omega
      have hrow : (r + 1) * n ≤ (k + 1 + r - 1 - y) * n :=
        Nat.mul_le_mul_right n (by omega)
      have hrn : (r + 1) * n = r * n + n := by ring
      have hout : ¬ (r * n ≤ (k + 1 + r - 1 - y) * n + c ∧
          (k + 1 + r - 1 - y) * n + c < r * n + n) := by omega
      rw [if_neg hout]
      exact hdone y c hylt hc
  · intro j hj
    rw [e3] at hj
    rw [hread, if_neg (by omega)]
    apply hrest
    rw [e2]
    have hrn : (r + 1) * n = r * n + n := by ring
    omega

theorem flipInv_forLoop (n h : Nat) (src dst : List Byte) (k : Nat) (hk : k ≤ h)
    (hlen : h * n ≤ dst.length) :
    FlipInv n h src dst k
      (forLoop k (flipBody n)
        { source := src, destination := dst, sourceBytes := 0,
          destinationBytes := (n : Int) * ((h : Int) - 1) }) := by
  induction k with
  | zero => exact flipInv_zero n h src dst
  | succ k ih =>
    rw [forLoop_succ]
    exact flipInv_step n h src dst k _ (ih (by omega)) (by omega) hlen

/-- What `flipImageVertically` does on well-formed images of one format. -/
theorem flipImageVertically_run (sourceImage destinationImage : Image)
    (hdv : destinationImage.valid) (hfmt : sourceImage.format = destinationImage.format) :
    (flipImageVertically sourceImage destinationImage).1 = true ∧
    (flipImageVertically sourceImage destinationImage).2.source = sourceImage ∧
    (flipImageVertically sourceImage destinationImage).2.destination.format
      = destinationImage.format ∧
    (flipImageVertically sourceImage destinationImage).2.destination.buffer.bytes.length
      = destinationImage.buffer.bytes.length ∧
    ∀ y c, y < sourceImage.format.height → c < sourceImage.format.getNumBytesPerLine →
      readByte (flipImageVertically sourceImage destinationImage).2.destination.buffer.bytes
        ((sourceImage.format.height - 1 - y) * sourceImage.format.getNumBytesPerLine + c)
      = readByte sourceImage.buffer.bytes (y * sourceImage.format.getNumBytesPerLine + c) := by
  have hlen : sourceImage.format.height * sourceImage.format.getNumBytesPerLine
      ≤ destinationImage.buffer.bytes.length := by
    have := hdv
    simp only [Image.valid, MemoryBuffer.getSizeInBytes, ImageFormat.getDataSizeInBytes,
      ← hfmt] at this
    rw [this, Nat.mul_comm]
  obtain ⟨i1, -, -, i4, i5, -⟩ := flipInv_forLoop sourceImage.format.getNumBytesPerLine
    sourceImage.format.height sourceImage.buffer.bytes destinationImage.buffer.bytes
    sourceImage.format.height (Nat.le_refl _) hlen
  have hrun : flipImageVertically sourceImage destinationImage =
      (true, Images.mk
        (Image.mk sourceImage.format (MemoryBuffer.mk
          (forLoop sourceImage.format.height (flipBody sourceImage.format.getNumBytesPerLine)
            (FlipLoop.mk sourceImage.buffer.bytes destinationImage.buffer.bytes 0
              ((sourceImage.format.getNumBytesPerLine : Int)
                * ((sourceImage.format.height : Int) - 1)))).source))
        (Image.mk destinationImage.format (MemoryBuffer.mk
          (forLoop sourceImage.format.height (flipBody sourceImage.format.getNumBytesPerLine)
            (FlipLoop.mk sourceImage.buffer.bytes destinationImage.buffer.bytes 0
              ((sourceImage.format.getNumBytesPerLine : Int)
                * ((sourceImage.format.height : Int) - 1)))).destination))) := by
    simp [flipImageVertically, hfmt]
  rw [hrun]
  refine ⟨rfl, ?_, rfl, i4, i5⟩
  simp only [i1]

/-- C4: on a source and a destination image of identical format (height > 0)
`flipImageVertically` returns true, leaves the source unchanged and makes every byte of
destination row `height-1-y` equal to the byte of source row `y` in the same column, for
every row `y < height`; when the two formats differ it returns false and leaves the
destination unchanged. -/
theorem flipImageVertically_mirrors_rows (sourceImage destinationImage : Image)
    (hsv : sourceImage.valid) (hdv : destinationImage.valid)
    (hfmt : sourceImage.format = destinationImage.format)
    (_hpos : 0 < sourceImage.format.height) :
    ((flipImageVertically sourceImage destinationImage).1 = true ∧
      (flipImageVertically sourceImage destinationImage).2.source = sourceImage ∧
      ∀ y, y < sourceImage.format.height →
        ∀ c, c < sourceImage.format.getNumBytesPerLine → ∃ b : Byte,
          sourceImage.buffer.bytes[y * sourceImage.format.getNumBytesPerLine + c]? = some b ∧
          (flipImageVertically sourceImage destinationImage).2.destination.buffer.bytes[
            (sourceImage.format.height - 1 - y) * sourceImage.format.getNumBytesPerLine + c]?
            = some b) ∧
    ∀ other : Image, sourceImage.format ≠ other.format →
      flipImageVertically sourceImage other = (false, Images.mk sourceImage other) := by
  obtain ⟨r1, r2, -, r4, r5⟩ := flipImageVertically_run sourceImage destinationImage hdv hfmt
  have hsl : sourceImage.buffer.bytes.length
      = sourceImage.format.getNumBytesPerLine * sourceImage.format.height := hsv
  have hdl : destinationImage.buffer.bytes.length
      = sourceImage.format.getNumBytesPerLine * sourceImage.format.height := by
    rw [hfmt]
    exact hdv
  refine ⟨⟨r1, r2, ?_⟩, ?_⟩
  · intro y hy c hc
    obtain ⟨q, hq⟩ : ∃ q, sourceImage.format.height = y + 1 + q :=
      ⟨sourceImage.format.height - (y + 1), by omega⟩
    have hsrcIdx : y * sourceImage.format.getNumBytesPerLine + c
        < sourceImage.buffer.bytes.length := by
      rw [hsl, hq]
      have : sourceImage.format.getNumBytesPerLine * (y + 1 + q)
          = y * sourceImage.format.getNumBytesPerLine + sourceImage.format.getNumBytesPerLine
            + q * sourceImage.format.getNumBytesPerLine := by ring
      omega
    have hdstIdx : (sourceImage.format.height - 1 - y) * sourceImage.format.getNumBytesPerLine + c
        < (flipImageVertically sourceImage destinationImage).2.destination.buffer.bytes.length := by
      rw [r4, hdl, hq]
      have e : y + 1 + q - 1 - y = q := by omega
      rw [e]
      have : sourceImage.format.getNumBytesPerLine * (y + 1 + q)
          = y * sourceImage.format.getNumBytesPerLine + sourceImage.format.getNumBytesPerLine
            + q * sourceImage.format.getNumBytesPerLine := by ring
      omega
    refine ⟨readByte sourceImage.buffer.bytes (y * sourceImage.format.getNumBytesPerLine + c),
      getElem?_eq_readByte _ _ hsrcIdx, ?_⟩
    rw [← r5 y c hy hc]
    exact getElem?_eq_readByte _ _ hdstIdx
  · intro other hne
    simp [flipImageVertically, hne]

/-- C3: for three images `A`, `B`, `C` of one identical format (height > 0), flipping `A`
into `B` and the result into `C` returns true both times and leaves `C` byte-identical
to `A`. -/
theorem flipImageVertically_involution (A B C : Image)
    (hAv : A.valid) (hBv : B.valid) (hCv : C.valid)
    (hAB : A.format = B.format) (hBC : B.format = C.format)
    (_hpos : 0 < A.format.height) :
    (flipImageVertically A B).1 = true ∧
    (flipImageVertically (flipImageVertically A B).2.destination C).1 = true ∧
    (flipImageVertically (flipImageVertically A B).2.destination C).2.destination.buffer
      = A.buffer := by
  obtain ⟨a1, -, a3, a4, a5⟩ := flipImageVertically_run A B hBv hAB
  have hmidv : (flipImageVertically A B).2.destination.valid := by
    show (flipImageVertically A B).2.destination.buffer.bytes.length
      = (flipImageVertically A B).2.destination.format.getDataSizeInBytes
    rw [a4, a3]
    exact hBv
  have hmidf : (flipImageVertically A B).2.destination.format = C.format := by rw [a3, hBC]
  obtain ⟨b1, -, -, b4, b5⟩ :=
    flipImageVertically_run (flipImageVertically A B).2.destination C hCv hmidf
  rw [a3, ← hAB] at b5
  refine ⟨a1, b1, ?_⟩
  have hAl : A.buffer.bytes.length = A.format.getNumBytesPerLine * A.format.height := hAv
  have hCl : C.buffer.bytes.length = A.format.getNumBytesPerLine * A.format.height := by
    rw [hAB, hBC]
    exact hCv
  have hbytes : (flipImageVertically (flipImageVertically A B).2.destination C).2.destination.buffer.bytes
      = A.buffer.bytes := by
    apply eq_of_readByte_eq _ _ (by rw [b4, hCl, hAl])
    intro i hi
    rw [b4, hCl] at hi
    have hnpos : 0 < A.format.getNumBytesPerLine := by
      rcases Nat.eq_zero_or_pos A.format.getNumBytesPerLine with h0 | h0
      · rw [h0, Nat.zero_mul] at hi
        omega
      · exact h0
    have hy : i / A.format.getNumBytesPerLine < A.format.height :=
      Nat.div_lt_of_lt_mul hi
    have hc : i % A.format.getNumBytesPerLine < A.format.getNumBytesPerLine :=
      Nat.mod_lt _ hnpos
    have hi_eq : i / A.format.getNumBytesPerLine * A.format.getNumBytesPerLine
        + i % A.format.getNumBytesPerLine = i := Nat.div_add_mod' i _
    generalize i / A.format.getNumBytesPerLine = q at hy hi_eq
    generalize i % A.format.getNumBytesPerLine = c at hc hi_eq
    have hflip : A.format.height - 1 - (A.format.height - 1 - q) = q := by omega
    have step1 := b5 (A.format.height - 1 - q) c (by omega) hc
    have step2 := a5 q c hy hc
    rw [hflip, hi_eq] at step1
    rw [hi_eq] at step2
    rw [step1, step2]
  cases hres : (flipImageVertically (flipImageVertically A B).2.destination C).2.destination.buffer with
  | mk bs =>
    rw [hres] at hbytes
    cases hA : A.buffer with
    | mk ab =>
      rw [hA] at hbytes
      simp only at hbytes
      rw [hbytes]

end Device

/-! ## `ImageConverter::update` and the dispatch of `convertImage` -/

namespace ImageConverter

/-- C6: when the source format equals the converter's target format, `update` returns
true and the converter's buffer is afterwards byte-identical to the source buffer; the
two buffers have the same size, so the raw copy cannot fail on a size mismatch. -/
theorem update_same_format_copies (self : ImageConverter) (sourceImage : Image)
    (hcv : self.mImage.valid) (hsv : sourceImage.valid)
    (hfmt : sourceImage.format = self.mImage.format) :
    (self.update sourceImage).1 = true ∧
    (self.update sourceImage).2.2.mImage.buffer = sourceImage.buffer ∧
    (self.update sourceImage).2.2.mImage.format = self.mImage.format ∧
    self.mImage.buffer.getSizeInBytes = sourceImage.buffer.getSizeInBytes ∧
    (self.mImage.buffer.copyFrom sourceImage.buffer).1 = true := by
  have hsize : self.mImage.buffer.getSizeInBytes = sourceImage.buffer.getSizeInBytes := by
    have h1 : self.mImage.buffer.getSizeInBytes = self.mImage.format.getDataSizeInBytes := hcv
    have h2 : sourceImage.buffer.getSizeInBytes = sourceImage.format.getDataSizeInBytes := hsv
    rw [h1, h2, hfmt]
  have hcopy : self.mImage.buffer.copyFrom sourceImage.buffer = (true, sourceImage.buffer) := by
    simp [MemoryBuffer.copyFrom, hsize]
  refine ⟨?_, ?_, ?_, hsize, ?_⟩
  · simp [update, hfmt, hcopy]
  · simp [update, hfmt, hcopy]
  · simp [update, hfmt]
  · rw [hcopy]

/-- C7: when the source format differs from the converter's target format, `update`
fails whenever the pair (source encoding, target encoding) is not one of BGR24→RGB24,
RGB24→BGR24, YUYV→RGB24, YUYV→BGR24, and also whenever the source and target width or
height differ. -/
theorem update_unsupported_fails (self : ImageConverter) (sourceImage : Image)
    (hfmt : sourceImage.format ≠ self.mImage.format)
    (hbad :
      ¬ ((sourceImage.format.encoding = Encoding.BGR24 ∧
            self.mImage.format.encoding = Encoding.RGB24) ∨
          (sourceImage.format.encoding = Encoding.RGB24 ∧
            self.mImage.format.encoding = Encoding.BGR24) ∨
          (sourceImage.format.encoding = Encoding.YUYV ∧
            self.mImage.format.encoding = Encoding.RGB24) ∨
          (sourceImage.format.encoding = Encoding.YUYV ∧
            self.mImage.format.encoding = Encoding.BGR24)) ∨
      sourceImage.format.width ≠ self.mImage.format.width ∨
      sourceImage.format.height ≠ self.mImage.format.height) :
    (self.update sourceImage).1 = false := by
  have hdim : sourceImage.format.width ≠ self.mImage.format.width ∨
      sourceImage.format.height ≠ self.mImage.format.height →
      (self.mImage.format.width ≠ sourceImage.format.width ∨
        self.mImage.format.height ≠ sourceImage.format.height) := by
    intro h
    rcases h with h | h
    · exact Or.inl (fun e => h e.symm)
    · exact Or.inr (fun e => h e.symm)
  cases hse : sourceImage.format.encoding <;> cases hde : self.mImage.format.encoding <;>
    simp only [hse, hde, reduceCtorEq, and_self, and_false, false_and, or_false, false_or,
      not_true_eq_false, not_false_eq_true, true_or, or_true] at hbad <;>
    first
    | simp [update, convertImage, convertBGR24ImageToRGB24Image, convertRGB24ImageToBGR24Image,
        convertYUYVImageToRGB24Image, convertYUYVImageToBGR24Image, hfmt, hse, hde, hdim hbad]
    | simp [update, convertImage, hfmt, hse, hde]

end ImageConverter

/-! ## Odd widths and the uniform grey image -/

namespace ImageConverter

/-- What `convertYUYVImageToBGR24Image` does on well-formed images of matching size,
whatever the parity of the width. -/
theorem convertYUYVImageToBGR24Image_run (yuyvImage bgr24Image : Image)
    (hdst : bgr24Image.valid)
    (hse : yuyvImage.format.encoding = Encoding.YUYV)
    (hde : bgr24Image.format.encoding = Encoding.BGR24)
    (hw : bgr24Image.format.width = yuyvImage.format.width)
    (hh : bgr24Image.format.height = yuyvImage.format.height) :
    (convertYUYVImageToBGR24Image yuyvImage bgr24Image).1 = true ∧
    (convertYUYVImageToBGR24Image yuyvImage bgr24Image).2.source = yuyvImage ∧
    (convertYUYVImageToBGR24Image yuyvImage bgr24Image).2.destination.format = bgr24Image.format ∧
    PairInv bgr24PairBytes yuyvImage.buffer.bytes bgr24Image.buffer.bytes
      (yuyvImage.format.width / 2 * yuyvImage.format.height)
      { source := yuyvImage.buffer.bytes
        dest := (convertYUYVImageToBGR24Image yuyvImage bgr24Image).2.destination.buffer.bytes
        sourceBytes := 4 * (yuyvImage.format.width / 2 * yuyvImage.format.height)
        destBytes := 6 * (yuyvImage.format.width / 2 * yuyvImage.format.height) } := by
  have hfit : 6 * (yuyvImage.format.width / 2 * yuyvImage.format.height)
      ≤ bgr24Image.buffer.bytes.length := by
    have hv : bgr24Image.buffer.bytes.length
        = yuyvImage.format.width * 3 * yuyvImage.format.height := by
      have := hdst
      simp only [Image.valid, MemoryBuffer.getSizeInBytes, ImageFormat.getDataSizeInBytes,
        ImageFormat.getNumBytesPerLine, hde, hw, hh, Encoding.getNumBytesPerPixel] at this
      exact this
    rw [hv]
    exact pairs_fit _ _
  have hinv := pairInv_forLoop bgr24PairBytes yuyvToBGR24Body yuyvToBGR24Body_step
    yuyvImage.buffer.bytes bgr24Image.buffer.bytes _ hfit
  have hrun : convertYUYVImageToBGR24Image yuyvImage bgr24Image =
      (true, Images.mk
        (Image.mk yuyvImage.format (MemoryBuffer.mk
          (forLoop (yuyvImage.format.width / 2 * yuyvImage.format.height) yuyvToBGR24Body
            (PixelLoop.mk yuyvImage.buffer.bytes bgr24Image.buffer.bytes 0 0)).source))
        (Image.mk bgr24Image.format (MemoryBuffer.mk
          (forLoop (yuyvImage.format.width / 2 * yuyvImage.format.height) yuyvToBGR24Body
            (PixelLoop.mk yuyvImage.buffer.bytes bgr24Image.buffer.bytes 0 0)).dest))) := by
    simp [convertYUYVImageToBGR24Image, hse, hde, hw, hh, forLoop_nested]
  obtain ⟨i1, i2, i3, i4, i5, i6⟩ := hinv
  rw [hrun]
  refine ⟨rfl, ?_, rfl, ?_⟩
  · simp only [i1]
  · exact ⟨rfl, rfl, rfl, i4, i5, i6⟩

theorem getElem?_eq_of_readByte_eq (l₁ l₂ : List Byte) (hlen : l₁.length = l₂.length) (j : Nat)
    (h : readByte l₁ j = readByte l₂ j) : l₁[j]? = l₂[j]? := by
  by_cases hj : j < l₁.length
  · rw [getElem?_eq_readByte l₁ j hj, getElem?_eq_readByte l₂ j (by omega), h]
  · rw [List.getElem?_eq_none (by omega), List.getElem?_eq_none (by omega)]

theorem update_dispatch_yuyv_rgb24 (yuyvImage rgb24Image : Image)
    (hse : yuyvImage.format.encoding = Encoding.YUYV)
    (hde : rgb24Image.format.encoding = Encoding.RGB24) :
    (update { mImage := rgb24Image } yuyvImage).1
      = (convertYUYVImageToRGB24Image yuyvImage rgb24Image).1 := by
  have hne : yuyvImage.format ≠ rgb24Image.format := by
    intro h
    rw [h, hde] at hse
    cases hse
  simp [update, convertImage, hne, hse, hde]

theorem update_dispatch_yuyv_bgr24 (yuyvImage bgr24Image : Image)
    (hse : yuyvImage.format.encoding = Encoding.YUYV)
    (hde : bgr24Image.format.encoding = Encoding.BGR24) :
    (update { mImage := bgr24Image } yuyvImage).1
      = (convertYUYVImageToBGR24Image yuyvImage bgr24Image).1 := by
  have hne : yuyvImage.format ≠ bgr24Image.format := by
    intro h
    rw [h, hde] at hse
    cases hse
  simp [update, convertImage, hne, hse, hde]

/-- C8, as the code has it: for a YUYV source whose width is not divisible by 2 and an
RGB24 or BGR24 destination of the same width and height, `convertYUYVImageToRGB24Image`,
`convertYUYVImageToBGR24Image` and `update` dispatching to them return true (there is no
parity check), and the destination bytes from offset `6*(width/2)*height` on are left as
they were. -/
theorem convertYUYV_odd_width_succeeds (yuyvImage rgb24Image bgr24Image : Image)
    (hrv : rgb24Image.valid) (hbv : bgr24Image.valid)
    (hse : yuyvImage.format.encoding = Encoding.YUYV)
    (hre : rgb24Image.format.encoding = Encoding.RGB24)
    (hbe : bgr24Image.format.encoding = Encoding.BGR24)
    (hrw : rgb24Image.format.width = yuyvImage.format.width)
    (hrh : rgb24Image.format.height = yuyvImage.format.height)
    (hbw : bgr24Image.format.width = yuyvImage.format.width)
    (hbh : bgr24Image.format.height = yuyvImage.format.height)
    (_hodd : yuyvImage.format.width % 2 ≠ 0) :
    (convertYUYVImageToRGB24Image yuyvImage rgb24Image).1 = true ∧
    (convertYUYVImageToBGR24Image yuyvImage bgr24Image).1 = true ∧
    (update { mImage := rgb24Image } yuyvImage).1 = true ∧
    (update { mImage := bgr24Image } yuyvImage).1 = true ∧
    (∀ j, 6 * (yuyvImage.format.width / 2 * yuyvImage.format.height) ≤ j →
      (convertYUYVImageToRGB24Image yuyvImage rgb24Image).2.destination.buffer.bytes[j]?
        = rgb24Image.buffer.bytes[j]?) ∧
    (∀ j, 6 * (yuyvImage.format.width / 2 * yuyvImage.format.height) ≤ j →
      (convertYUYVImageToBGR24Image yuyvImage bgr24Image).2.destination.buffer.bytes[j]?
        = bgr24Image.buffer.bytes[j]?) := by
  obtain ⟨r1, -, -, -, -, -, r4, -, r6⟩ :=
    convertYUYVImageToRGB24Image_run yuyvImage rgb24Image hrv hse hre hrw hrh
  obtain ⟨b1, -, -, -, -, -, b4, -, b6⟩ :=
    convertYUYVImageToBGR24Image_run yuyvImage bgr24Image hbv hse hbe hbw hbh
  refine ⟨r1, b1, ?_, ?_, ?_, ?_⟩
  · rw [update_dispatch_yuyv_rgb24 yuyvImage rgb24Image hse hre, r1]
  · rw [update_dispatch_yuyv_bgr24 yuyvImage bgr24Image hse hbe, b1]
  · intro j hj
    exact getElem?_eq_of_readByte_eq _ _ r4 j (r6 j hj)
  · intro j hj
    exact getElem?_eq_of_readByte_eq _ _ b4 j (b6 j hj)

/-- C8 as stated fails: a 3×1 YUYV image converts with success to 3×1 RGB24 and BGR24
images, directly and through `update`. -/
theorem convertYUYV_odd_width_counterexample :
    oddYUYV.format.encoding = Encoding.YUYV ∧ oddYUYV.format.width % 2 ≠ 0 ∧
    oddYUYV.valid ∧ oddRGB24.valid ∧ oddBGR24.valid ∧
    oddRGB24.format = { oddYUYV.format with encoding := Encoding.RGB24 } ∧
    oddBGR24.format = { oddYUYV.format with encoding := Encoding.BGR24 } ∧
    (convertYUYVImageToRGB24Image oddYUYV oddRGB24).1 = true ∧
    (convertYUYVImageToBGR24Image oddYUYV oddBGR24).1 = true ∧
    (update { mImage := oddRGB24 } oddYUYV).1 = true ∧
    (update { mImage := oddBGR24 } oddYUYV).1 = true := by
  decide

theorem convertYUYV_odd_width_succeeds_witness :
    (convertYUYVImageToRGB24Image oddYUYV oddRGB24).1 = true ∧
    (convertYUYVImageToBGR24Image oddYUYV oddBGR24).1 = true ∧
    (update { mImage := oddRGB24 } oddYUYV).1 = true ∧
    (update { mImage := oddBGR24 } oddYUYV).1 = true ∧
    (∀ j, 6 * (oddYUYV.format.width / 2 * oddYUYV.format.height) ≤ j →
      (convertYUYVImageToRGB24Image oddYUYV oddRGB24).2.destination.buffer.bytes[j]?
        = oddRGB24.buffer.bytes[j]?) ∧
    (∀ j, 6 * (oddYUYV.format.width / 2 * oddYUYV.format.height) ≤ j →
      (convertYUYVImageToBGR24Image oddYUYV oddBGR24).2.destination.buffer.bytes[j]?
        = oddBGR24.buffer.bytes[j]?) :=
  convertYUYV_odd_width_succeeds oddYUYV oddRGB24 oddBGR24 (by decide) (by decide) (by decide)
    (by decide) (by decide) (by decide) (by decide) (by decide) (by decide) (by decide)

theorem rgb24PairBytes_gray (t : Nat) (ht : t < 6) :
    rgb24PairBytes 128 128 128 128 t = 130 := by
  interval_cases t <;> decide

/-- C9, as the code has it: for every even width and every height, converting a YUYV
image in which every byte is 128 to RGB24 succeeds and every destination byte is 130: all
pixels are equal with R = G = B = 130, two away from 128 (luma 128 is `c = 112`, and
`(298*112 + 128) >> 8 = 130`). -/
theorem uniform_gray_gives_130 (yuyvImage rgb24Image : Image)
    (hsrc : yuyvImage.valid) (hdst : rgb24Image.valid)
    (hse : yuyvImage.format.encoding = Encoding.YUYV)
    (hde : rgb24Image.format.encoding = Encoding.RGB24)
    (hw : rgb24Image.format.width = yuyvImage.format.width)
    (hh : rgb24Image.format.height = yuyvImage.format.height)
    (heven : yuyvImage.format.width % 2 = 0)
    (hgray : ∀ b ∈ yuyvImage.buffer.bytes, b = 128) :
    (convertYUYVImageToRGB24Image yuyvImage rgb24Image).1 = true ∧
    (convertYUYVImageToRGB24Image yuyvImage rgb24Image).2.destination.buffer.bytes
      = List.replicate (3 * (yuyvImage.format.width * yuyvImage.format.height)) 130 := by
  obtain ⟨hret, -, -, -, -, -, hlen, hpix, -⟩ :=
    convertYUYVImageToRGB24Image_run yuyvImage rgb24Image hdst hse hde hw hh
  simp only at hlen hpix
  refine ⟨hret, ?_⟩
  have hslen : yuyvImage.buffer.bytes.length
      = yuyvImage.format.width * 2 * yuyvImage.format.height := by
    have := hsrc
    simp only [Image.valid, MemoryBuffer.getSizeInBytes, ImageFormat.getDataSizeInBytes,
      ImageFormat.getNumBytesPerLine, hse, Encoding.getNumBytesPerPixel] at this
    exact this
  have hdlen : rgb24Image.buffer.bytes.length
      = yuyvImage.format.width * 3 * yuyvImage.format.height := by
    have := hdst
    simp only [Image.valid, MemoryBuffer.getSizeInBytes, ImageFormat.getDataSizeInBytes,
      ImageFormat.getNumBytesPerLine, hde, hw, hh, Encoding.getNumBytesPerPixel] at this
    exact this
  have hq := quads_fit yuyvImage.format.width yuyvImage.format.height
  have hp := pairs_fill yuyvImage.format.width yuyvImage.format.height heven
  have hmul : 3 * (yuyvImage.format.width * yuyvImage.format.height)
      = yuyvImage.format.width * 3 * yuyvImage.format.height := by ring
  have hsrc128 : ∀ i, i < yuyvImage.buffer.bytes.length →
      readByte yuyvImage.buffer.bytes i = 128 := by
    intro i hi
    rw [readByte_eq_getElem _ _ hi]
    exact hgray _ (List.getElem_mem _)
  apply eq_of_readByte_eq _ _ (by rw [hlen, List.length_replicate, hdlen, hmul])
  intro i hi
  rw [hlen, hdlen, ← hp] at hi
  have hrep : readByte (List.replicate
      (3 * (yuyvImage.format.width * yuyvImage.format.height)) (130 : Byte)) i = 130 := by
    rw [readByte_eq_getElem _ _ (by rw [List.length_replicate, hmul, ← hp]; exact hi)]
    exact List.getElem_replicate _ _
  rw [hrep]
  obtain ⟨m, t, ht, rfl⟩ : ∃ m t, t < 6 ∧ i = 6 * m + t := ⟨i / 6, i % 6, by omega, by omega⟩
  rw [hpix m t (by omega) ht, hsrc128 _ (by omega), hsrc128 _ (by omega), hsrc128 _ (by omega),
    hsrc128 _ (by omega)]
  exact rgb24PairBytes_gray t ht

set_option maxRecDepth 8000 in
/-- C9 as stated fails: the 2×1 all-128 image converts to six bytes 130, which are not
within 1 of 128. -/
theorem uniform_gray_counterexample :
    (∀ b ∈ grayYUYV.buffer.bytes, b = 128) ∧ grayYUYV.format.width % 2 = 0 ∧
    grayYUYV.valid ∧ smallRGB24.valid ∧
    smallRGB24.format = { grayYUYV.format with encoding := Encoding.RGB24 } ∧
    (convertYUYVImageToRGB24Image grayYUYV smallRGB24).1 = true ∧
    (convertYUYVImageToRGB24Image grayYUYV smallRGB24).2.destination.buffer.bytes
      = [130, 130, 130, 130, 130, 130] ∧
    ¬ (∀ b ∈ (convertYUYVImageToRGB24Image grayYUYV smallRGB24).2.destination.buffer.bytes,
        127 ≤ b.val ∧ b.val ≤ 129) := by
  decide

set_option maxRecDepth 8000 in
theorem uniform_gray_gives_130_witness :
    (convertYUYVImageToRGB24Image grayYUYV smallRGB24).1 = true ∧
    (convertYUYVImageToRGB24Image grayYUYV smallRGB24).2.destination.buffer.bytes
      = List.replicate (3 * (grayYUYV.format.width * grayYUYV.format.height)) 130 :=
  uniform_gray_gives_130 grayYUYV smallRGB24 (by decide) (by decide) (by decide) (by decide)
    (by decide) (by decide) (by decide) (by decide)

end ImageConverter

/-! ## The theorems at concrete images -/

theorem convertYUYVImageToRGB24Image_formula_witness :
    (ImageConverter.convertYUYVImageToRGB24Image grayYUYV smallRGB24).1 = true :=
  (ImageConverter.convertYUYVImageToRGB24Image_formula grayYUYV smallRGB24 (by decide)
    (by decide) (by decide) (by decide) (by decide) (by decide) (by decide)).1

theorem rgb24_bgr24_round_trip_witness :
    (ImageConverter.convertBGR24ImageToRGB24Image
      (ImageConverter.convertRGB24ImageToBGR24Image smallRGB24 smallBGR24).2.destination
      smallRGB24).2.destination.buffer = smallRGB24.buffer :=
  (ImageConverter.rgb24_bgr24_round_trip smallRGB24 smallBGR24 smallRGB24 (by decide)
    (by decide) (by decide) (by decide) (by decide) (by decide) (by decide) (by decide)
    (by decide) (by decide)).2.2

theorem flipImageVertically_involution_witness :
    (Device.flipImageVertically (Device.flipImageVertically tallRGB24 tallRGB24).2.destination
      tallRGB24).2.destination.buffer = tallRGB24.buffer :=
  (Device.flipImageVertically_involution tallRGB24 tallRGB24 tallRGB24 (by decide) (by decide)
    (by decide) (by decide) (by decide) (by decide)).2.2

theorem flipImageVertically_mirrors_rows_witness :
    (Device.flipImageVertically tallRGB24 tallRGB24).1 = true ∧
    (Device.flipImageVertically tallRGB24 tallRGB24).2.source = tallRGB24 :=
  ⟨(Device.flipImageVertically_mirrors_rows tallRGB24 tallRGB24 (by decide) (by decide)
      (by decide) (by decide)).1.1,
   (Device.flipImageVertically_mirrors_rows tallRGB24 tallRGB24 (by decide) (by decide)
      (by decide) (by decide)).1.2.1⟩

theorem convert_swaps_first_and_third_bytes_witness :
    (ImageConverter.convertBGR24ImageToRGB24Image smallBGR24 smallRGB24).1 = true ∧
    ImageConverter.swapFirstAndThirdBytesEveryThreeBytes { bytes := [1, 2, 3, 4] }
      = (false, { bytes := [1, 2, 3, 4] }) :=
  ⟨(ImageConverter.convert_swaps_first_and_third_bytes smallBGR24 smallRGB24
      { bytes := [1, 2, 3, 4] } (by decide) (by decide) (by decide) (by decide) (by decide)
      (by decide) (by decide)).1.1,
   (ImageConverter.convert_swaps_first_and_third_bytes smallBGR24 smallRGB24
      { bytes := [1, 2, 3, 4] } (by decide) (by decide) (by decide) (by decide) (by decide)
      (by decide) (by decide)).2.2⟩

theorem update_same_format_copies_witness :
    (ImageConverter.update { mImage := smallRGB24 } smallRGB24).1 = true ∧
    (ImageConverter.update { mImage := smallRGB24 } smallRGB24).2.2.mImage.buffer
      = smallRGB24.buffer :=
  ⟨(ImageConverter.update_same_format_copies { mImage := smallRGB24 } smallRGB24 (by decide)
      (by decide) (by decide)).1,
   (ImageConverter.update_same_format_copies { mImage := smallRGB24 } smallRGB24 (by decide)
      (by decide) (by decide)).2.1⟩

theorem update_unsupported_fails_witness :
    (ImageConverter.update { mImage := grayYUYV } smallRGB24).1 = false ∧
    (ImageConverter.update { mImage := smallRGB24 } oddYUYV).1 = false :=
  ⟨ImageConverter.update_unsupported_fails { mImage := grayYUYV } smallRGB24 (by decide)
      (Or.inl (by decide)),
   ImageConverter.update_unsupported_fails { mImage := smallRGB24 } oddYUYV (by decide)
      (Or.inr (Or.inl (by decide)))⟩

/-! ## The capture session: sequence numbers -/

namespace DeviceInternals

theorem OnReadSample_number (self : DeviceInternals) (call : ReadSampleCall) :
    (self.OnReadSample call).2.mCapturedImageNumber =
      if self.accepts call then (self.mCapturedImageNumber + 1) % UINT_RANGE
      else self.mCapturedImageNumber := by
  unfold OnReadSample accepts isCapturing requestMoreSamples
  cases hcap : self.mIsCapturing
  · simp
  · cases hst : call.hrStatus
    · simp
    · cases hs : call.pSample with
      | none => cases hrs : call.readSample <;> simp
      | some sample =>
        cases hconv : sample.convertToContiguousBuffer
        · simp [hconv]
        · cases hlock : sample.lock
          · simp [hconv, hlock]
          · cases hbuf : self.mCapturedImageBuffer with
            | none =>
              cases hun : sample.unlock <;> cases hrs : call.readSample <;>
                simp [MemoryBuffer.getSizeInBytes, hconv, hlock, hun, hrs]
            | some b =>
              by_cases hsz : b.getSizeInBytes = sample.bufferData.length
              · cases hun : sample.unlock <;> cases hrs : call.readSample <;>
                  simp [hsz, hconv, hlock, hun, hrs]
              · simp [hsz, hconv, hlock]

theorem OnReadSample_isCapturing (self : DeviceInternals) (call : ReadSampleCall) :
    (self.OnReadSample call).2.mIsCapturing = self.mIsCapturing := by
  unfold OnReadSample isCapturing requestMoreSamples
  cases hcap : self.mIsCapturing
  · simp [hcap]
  · cases hst : call.hrStatus
    · simp [hcap]
    · cases hs : call.pSample with
      | none => cases hrs : call.readSample <;> simp [hcap]
      | some sample =>
        cases hconv : sample.convertToContiguousBuffer
        · simp [hcap, hconv]
        · cases hlock : sample.lock
          · simp [hcap, hconv, hlock]
          · simp only [hconv, hlock, Bool.not_true, Bool.false_eq_true, if_false]
            split_ifs <;> simp [hcap]

theorem deliver_append (self : DeviceInternals) (a b : List ReadSampleCall) :
    self.deliver (a ++ b) = (self.deliver a).deliver b := by
  induction a generalizing self with
  | nil => rfl
  | cons c a ih => exact ih _

theorem acceptedCount_append (self : DeviceInternals) (a b : List ReadSampleCall) :
    self.acceptedCount (a ++ b) = self.acceptedCount a + (self.deliver a).acceptedCount b := by
  induction a generalizing self with
  | nil => simp [acceptedCount, deliver]
  | cons c a ih =>
    show (if self.accepts c then 1 else 0) + acceptedCount (self.OnReadSample c).2 (a ++ b) = _
    rw [ih]
    show _ = (if self.accepts c then 1 else 0) + acceptedCount (self.OnReadSample c).2 a
      + ((self.OnReadSample c).2.deliver a).acceptedCount b
    omega

theorem deliver_number (self : DeviceInternals) (calls : List ReadSampleCall)
    (hlt : self.mCapturedImageNumber < UINT_RANGE) :
    (self.deliver calls).mCapturedImageNumber
      = (self.mCapturedImageNumber + self.acceptedCount calls) % UINT_RANGE := by
  induction calls generalizing self with
  | nil =>
    show self.mCapturedImageNumber = (self.mCapturedImageNumber + 0) % UINT_RANGE
    rw [Nat.add_zero, Nat.mod_eq_of_lt hlt]
  | cons c calls ih =>
    show ((self.OnReadSample c).2.deliver calls).mCapturedImageNumber
      = (self.mCapturedImageNumber
          + ((if self.accepts c then 1 else 0) + acceptedCount (self.OnReadSample c).2 calls))
        % UINT_RANGE
    have hnum := OnReadSample_number self c
    have hlt' : (self.OnReadSample c).2.mCapturedImageNumber < UINT_RANGE := by
      rw [hnum]
      unfold UINT_RANGE at *
      split_ifs <;> omega
    rw [ih _ hlt', hnum]
    unfold UINT_RANGE at *
    split_ifs <;> omega

theorem startCapture_success (self : DeviceInternals) (mediaTypeIndex : Nat)
    (calls : StartCalls) (hstart : (self.startCapture mediaTypeIndex calls).1 = true) :
    (self.startCapture mediaTypeIndex calls).2.mCapturedImageNumber = 0 ∧
    (self.startCapture mediaTypeIndex calls).2.mIsCapturing = true ∧
    (self.startCapture mediaTypeIndex calls).2.mCapturedImageBuffer = none := by
  unfold startCapture isCapturing at *
  cases h1 : self.mIsCapturing <;> cases h2 : calls.createMediaSourceReader <;>
    cases h3 : calls.setCurrentMediaType <;> cases h4 : calls.readSample <;>
    simp [h1, h2, h3, h4] at hstart ⊢

theorem deliver_oneByteCall (n : Nat) :
    (init.startCapture 0 startOk).2.deliver (List.replicate (n + 1) oneByteCall) =
      { mSourceReaderRes := true, mIsCapturing := true,
        mCapturedImageNumber := (n + 1) % UINT_RANGE, mCapturedImageTimestamp := 1000,
        mCapturedImageBuffer := some { bytes := [42] }, readSampleRequests := n + 2 } := by
  induction n with
  | zero => decide
  | succ n ih =>
    rw [List.replicate_succ', deliver_append, ih]
    simp [deliver, OnReadSample, isCapturing, requestMoreSamples, oneByteCall,
      MemoryBuffer.getSizeInBytes, memcpy, writeByte, readByte]

/-- C10, as the code has it: a successful start sets the sequence number to 0; an
accepted delivery takes the sequence number `n` to `(n+1) mod 2^32` (the counter is an
`unsigned int`), which is `n+1` as long as `n+1 < 2^32`; every other delivery leaves it
unchanged; so as long as fewer than `2^32` deliveries have been accepted since the start,
the sequence number equals the number of accepted deliveries, never decreases, and is
strictly larger after each further accepted delivery (no value repeats). -/
theorem sequence_number_steps (self : DeviceInternals) (mediaTypeIndex : Nat)
    (calls : StartCalls) (hstart : (self.startCapture mediaTypeIndex calls).1 = true) :
    (self.startCapture mediaTypeIndex calls).2.mCapturedImageNumber = 0 ∧
    (∀ (s : DeviceInternals) (c : ReadSampleCall), s.accepts c = true →
      (s.OnReadSample c).2.mCapturedImageNumber = (s.mCapturedImageNumber + 1) % UINT_RANGE ∧
      (s.mCapturedImageNumber + 1 < UINT_RANGE →
        (s.OnReadSample c).2.mCapturedImageNumber = s.mCapturedImageNumber + 1)) ∧
    (∀ (s : DeviceInternals) (c : ReadSampleCall), s.accepts c = false →
      (s.OnReadSample c).2.mCapturedImageNumber = s.mCapturedImageNumber) ∧
    (∀ before after : List ReadSampleCall,
      (self.startCapture mediaTypeIndex calls).2.acceptedCount (before ++ after) < UINT_RANGE →
      ((self.startCapture mediaTypeIndex calls).2.deliver before).mCapturedImageNumber
        = (self.startCapture mediaTypeIndex calls).2.acceptedCount before ∧
      ((self.startCapture mediaTypeIndex calls).2.deliver before).mCapturedImageNumber
        ≤ ((self.startCapture mediaTypeIndex calls).2.deliver (before ++ after)).mCapturedImageNumber ∧
      (0 < ((self.startCapture mediaTypeIndex calls).2.deliver before).acceptedCount after →
        ((self.startCapture mediaTypeIndex calls).2.deliver before).mCapturedImageNumber
          < ((self.startCapture mediaTypeIndex calls).2.deliver (before ++ after)).mCapturedImageNumber)) := by
  obtain ⟨h0, -, -⟩ := startCapture_success self mediaTypeIndex calls hstart
  refine ⟨h0, ?_, ?_, ?_⟩
  · intro s c hacc
    have hnum := OnReadSample_number s c
    rw [if_pos hacc] at hnum
    refine ⟨hnum, ?_⟩
    intro hlt
    rw [hnum, Nat.mod_eq_of_lt hlt]
  · intro s c hacc
    have hnum := OnReadSample_number s c
    rw [hacc] at hnum
    simpa using hnum
  · intro before after hcount
    have hlt0 : (self.startCapture mediaTypeIndex calls).2.mCapturedImageNumber < UINT_RANGE := by
      rw [h0]
      decide
    have hb := deliver_number _ before hlt0
    have hba := deliver_number _ (before ++ after) hlt0
    rw [h0, Nat.zero_add] at hb hba
    rw [acceptedCount_append] at hcount hba
    rw [hb, hba]
    unfold UINT_RANGE at *
    rw [Nat.mod_eq_of_lt (by omega), Nat.mod_eq_of_lt hcount]
    refine ⟨rfl, by omega, ?_⟩
    intro hpos
    omega

/-- C10 as stated fails: after a successful start and 4294967295 accepted one-byte
deliveries the sequence number is 4294967295, and the next accepted delivery takes it to
0: it neither increases by 1 nor stays above the earlier values. -/
theorem sequence_number_wraps :
    (init.startCapture 0 startOk).1 = true ∧
    ((init.startCapture 0 startOk).2.deliver
      (List.replicate 4294967295 oneByteCall)).mCapturedImageNumber = 4294967295 ∧
    ((init.startCapture 0 startOk).2.deliver
      (List.replicate 4294967295 oneByteCall)).accepts oneByteCall = true ∧
    (((init.startCapture 0 startOk).2.deliver
      (List.replicate 4294967295 oneByteCall)).OnReadSample oneByteCall).2.mCapturedImageNumber
      = 0 := by
  have hstate := deliver_oneByteCall 4294967294
  have hnorm : (4294967294 + 1) % UINT_RANGE = 4294967295 := by decide
  rw [hnorm] at hstate
  have hlist : List.replicate (4294967294 + 1) oneByteCall
      = List.replicate 4294967295 oneByteCall := rfl
  rw [hlist] at hstate
  rw [hstate]
  refine ⟨by decide, rfl, by decide, by decide⟩

theorem sequence_number_steps_witness :
    (init.startCapture 0 startOk).1 = true ∧
    (init.startCapture 0 startOk).2.mCapturedImageNumber = 0 :=
  ⟨by decide, (sequence_number_steps init 0 startOk (by decide)).1⟩

end DeviceInternals

/-! ## The capture session: fetching the latest frame, mismatched samples -/

theorem memcpy_full (dest source : List Byte) (hlen : dest.length = source.length) :
    memcpy dest 0 source 0 dest.length = source := by
  apply eq_of_readByte_eq _ _ (by rw [length_memcpy, hlen])
  intro i hi
  rw [length_memcpy] at hi
  rw [readByte_memcpy _ _ _ _ _ (by omega), if_pos (by omega)]
  simp

namespace DeviceInternals

theorem OnReadSample_first_accept (self : DeviceInternals) (call : ReadSampleCall)
    (hbuf : self.mCapturedImageBuffer = none) (hacc : self.accepts call = true) :
    ∃ sample, call.pSample = some sample ∧
      (self.OnReadSample call).2.mCapturedImageBuffer = some { bytes := sample.bufferData } ∧
      (self.OnReadSample call).2.mCapturedImageNumber
        = (self.mCapturedImageNumber + 1) % UINT_RANGE ∧
      (self.OnReadSample call).2.mCapturedImageTimestamp = call.llTimestamp := by
  unfold accepts at hacc
  cases hs : call.pSample with
  | none => simp [hs] at hacc
  | some sample =>
    simp only [hs, hbuf, Bool.and_true, Bool.and_eq_true] at hacc
    obtain ⟨⟨hcap, hst⟩, hconv, hlock⟩ := hacc
    have hcopy : memcpy (List.replicate sample.bufferData.length (0 : Byte)) 0 sample.bufferData 0
        sample.bufferData.length = sample.bufferData := by
      have := memcpy_full (List.replicate sample.bufferData.length (0 : Byte)) sample.bufferData
        (by simp)
      simpa using this
    refine ⟨sample, rfl, ?_, ?_, ?_⟩ <;>
      cases hun : sample.unlock <;> cases hrs : call.readSample <;>
      simp [OnReadSample, isCapturing, requestMoreSamples, hs, hbuf, hcap, hst, hconv, hlock,
        hun, hrs, MemoryBuffer.getSizeInBytes, hcopy]

theorem OnReadSample_buffer_none (self : DeviceInternals) (call : ReadSampleCall)
    (hbuf : self.mCapturedImageBuffer = none) (hacc : self.accepts call = false) :
    (self.OnReadSample call).2.mCapturedImageBuffer = none := by
  unfold accepts at hacc
  unfold OnReadSample isCapturing requestMoreSamples
  cases hcap : self.mIsCapturing
  · simp [hbuf]
  · cases hst : call.hrStatus
    · simp [hbuf]
    · cases hs : call.pSample with
      | none => cases hrs : call.readSample <;> simp [hbuf]
      | some sample =>
        simp only [hs, hbuf, hcap, hst, Bool.and_true, Bool.true_and, Bool.and_eq_false_iff] at hacc
        rcases hacc with hconv | hlock
        · simp [hconv, hbuf]
        · cases hconv : sample.convertToContiguousBuffer <;> simp [hconv, hlock, hbuf]

theorem deliver_buffer_none (self : DeviceInternals) (calls : List ReadSampleCall)
    (hbuf : self.mCapturedImageBuffer = none) (hnone : self.acceptedCount calls = 0) :
    (self.deliver calls).mCapturedImageBuffer = none := by
  induction calls generalizing self with
  | nil => exact hbuf
  | cons c calls ih =>
    have hsum : (if self.accepts c then 1 else 0) + acceptedCount (self.OnReadSample c).2 calls = 0 :=
      hnone
    have hacc : self.accepts c = false := by
      cases h : self.accepts c
      · rfl
      · rw [h] at hsum
        simp at hsum
    exact ih _ (OnReadSample_buffer_none self c hbuf hacc) (by omega)

/-- C11: `getCapturedImage` returns false and leaves the output buffer unchanged when no
pending buffer exists, which is the case after a successful start as long as no delivery
has been accepted, or when the output buffer's size differs from the pending buffer's
size; otherwise it returns true, the output buffer becomes the pending buffer and the
returned sequence number and timestamp are the session's current ones. After a successful
start and a first accepted delivery of `n` bytes with timestamp `t`, a fetch into an
`n`-byte buffer returns those bytes, sequence number 1 and timestamp `t`. -/
theorem getCapturedImage_spec (self : DeviceInternals) (mediaTypeIndex : Nat)
    (calls : StartCalls) (hstart : (self.startCapture mediaTypeIndex calls).1 = true) :
    (∀ (s : DeviceInternals) (buffer : MemoryBuffer) (sequenceNumber : Nat) (timestamp : Int),
      s.mCapturedImageBuffer = none →
      s.getCapturedImage buffer sequenceNumber timestamp
        = (false, buffer, sequenceNumber, timestamp)) ∧
    (∀ (delivered : List ReadSampleCall) (buffer : MemoryBuffer) (sequenceNumber : Nat)
      (timestamp : Int),
      (self.startCapture mediaTypeIndex calls).2.acceptedCount delivered = 0 →
      (((self.startCapture mediaTypeIndex calls).2.deliver delivered).getCapturedImage buffer
          sequenceNumber timestamp).1 = false ∧
      (((self.startCapture mediaTypeIndex calls).2.deliver delivered).getCapturedImage buffer
          sequenceNumber timestamp).2.1 = buffer) ∧
    (∀ (s : DeviceInternals) (pending buffer : MemoryBuffer) (sequenceNumber : Nat)
      (timestamp : Int),
      s.mCapturedImageBuffer = some pending →
      buffer.getSizeInBytes ≠ pending.getSizeInBytes →
      (s.getCapturedImage buffer sequenceNumber timestamp).1 = false ∧
      (s.getCapturedImage buffer sequenceNumber timestamp).2.1 = buffer) ∧
    (∀ (s : DeviceInternals) (pending buffer : MemoryBuffer) (sequenceNumber : Nat)
      (timestamp : Int),
      s.mCapturedImageBuffer = some pending →
      buffer.getSizeInBytes = pending.getSizeInBytes →
      s.getCapturedImage buffer sequenceNumber timestamp
        = (true, pending, s.mCapturedImageNumber, s.mCapturedImageTimestamp)) ∧
    (∀ (rejected : List ReadSampleCall) (first : ReadSampleCall) (sample : Sample)
      (buffer : MemoryBuffer) (sequenceNumber : Nat) (timestamp : Int),
      (self.startCapture mediaTypeIndex calls).2.acceptedCount rejected = 0 →
      ((self.startCapture mediaTypeIndex calls).2.deliver rejected).accepts first = true →
      first.pSample = some sample →
      buffer.getSizeInBytes = sample.bufferData.length →
      ((self.startCapture mediaTypeIndex calls).2.deliver (rejected ++ [first])).getCapturedImage
          buffer sequenceNumber timestamp
        = (true, { bytes := sample.bufferData }, 1, first.llTimestamp)) := by
  obtain ⟨h0, -, hnone⟩ := startCapture_success self mediaTypeIndex calls hstart
  have hfail : ∀ (s : DeviceInternals) (buffer : MemoryBuffer) (sequenceNumber : Nat)
      (timestamp : Int), s.mCapturedImageBuffer = none →
      s.getCapturedImage buffer sequenceNumber timestamp
        = (false, buffer, sequenceNumber, timestamp) := by
    intro s buffer sequenceNumber timestamp hbuf
    simp [getCapturedImage, hbuf]
  have hok : ∀ (s : DeviceInternals) (pending buffer : MemoryBuffer) (sequenceNumber : Nat)
      (timestamp : Int), s.mCapturedImageBuffer = some pending →
      buffer.getSizeInBytes = pending.getSizeInBytes →
      s.getCapturedImage buffer sequenceNumber timestamp
        = (true, pending, s.mCapturedImageNumber, s.mCapturedImageTimestamp) := by
    intro s pending buffer sequenceNumber timestamp hbuf hsz
    simp [getCapturedImage, hbuf, hsz, MemoryBuffer.copyFrom]
  refine ⟨hfail, ?_, ?_, hok, ?_⟩
  · intro delivered buffer sequenceNumber timestamp hcount
    rw [hfail _ buffer sequenceNumber timestamp (deliver_buffer_none _ delivered hnone hcount)]
    exact ⟨rfl, rfl⟩
  · intro s pending buffer sequenceNumber timestamp hbuf hsz
    simp [getCapturedImage, hbuf, hsz]
  · intro rejected first sample buffer sequenceNumber timestamp hcount hacc hs hsz
    have hbufnone := deliver_buffer_none _ rejected hnone hcount
    have hnum := deliver_number (self.startCapture mediaTypeIndex calls).2 rejected
      (by rw [h0]; decide)
    rw [h0, hcount] at hnum
    obtain ⟨sample', hs', hb, hn, ht⟩ := OnReadSample_first_accept _ first hbufnone hacc
    rw [hs] at hs'
    cases hs'
    rw [hnum] at hn
    have hstate : (self.startCapture mediaTypeIndex calls).2.deliver (rejected ++ [first])
        = (((self.startCapture mediaTypeIndex calls).2.deliver rejected).OnReadSample first).2 := by
      rw [deliver_append]
      rfl
    rw [hstate, hok _ { bytes := sample.bufferData } buffer sequenceNumber timestamp hb
      (by rw [hsz]; rfl), hn, ht]
    rfl

theorem getCapturedImage_spec_witness :
    ((init.startCapture 0 startOk).2.getCapturedImage { bytes := [0] } 5 6).1 = false ∧
    ((init.startCapture 0 startOk).2.deliver ([] ++ [oneByteCall])).getCapturedImage
        { bytes := [0] } 5 6 = (true, { bytes := [42] }, 1, 1000) :=
  ⟨((getCapturedImage_spec init 0 startOk (by decide)).2.1 [] { bytes := [0] } 5 6
      (by decide)).1,
   (getCapturedImage_spec init 0 startOk (by decide)).2.2.2.2 [] oneByteCall
      { convertToContiguousBuffer := true, lock := true, bufferData := [42], unlock := true }
      { bytes := [0] } 5 6 (by decide) (by decide) (by decide) (by decide)⟩

/-- C12, as the code has it: when a sample whose byte length differs from the size of the
already-allocated pending buffer is delivered to a capturing session, `OnReadSample`
returns `S_FALSE` from inside the size check: the session is left exactly as it was
(pending bytes, sequence number and timestamp unchanged) and no read request is issued
by this callback; the unchanged session still accepts a size-matching sample if one is
delivered. -/
theorem OnReadSample_size_mismatch (self : DeviceInternals) (call : ReadSampleCall)
    (sample : Sample) (pending : MemoryBuffer)
    (hcap : self.mIsCapturing = true) (hst : call.hrStatus = true)
    (hs : call.pSample = some sample)
    (hconv : sample.convertToContiguousBuffer = true) (hlock : sample.lock = true)
    (hbuf : self.mCapturedImageBuffer = some pending)
    (hsz : pending.getSizeInBytes ≠ sample.bufferData.length) :
    (self.OnReadSample call).1 = false ∧
    (self.OnReadSample call).2 = self ∧
    (self.OnReadSample call).2.readSampleRequests = self.readSampleRequests ∧
    (∀ (later : ReadSampleCall) (matching : Sample),
      later.hrStatus = true → later.pSample = some matching →
      matching.convertToContiguousBuffer = true → matching.lock = true →
      pending.getSizeInBytes = matching.bufferData.length →
      (self.OnReadSample call).2.accepts later = true) := by
  have hrun : self.OnReadSample call = (false, self) := by
    cases self with
    | mk reader capturing number timestamp buffer requests mediaTypes =>
      simp only at hcap hbuf
      subst hcap hbuf
      simp [OnReadSample, isCapturing, hst, hs, hconv, hlock, hsz]
  rw [hrun]
  refine ⟨rfl, rfl, rfl, ?_⟩
  intro later matching hst' hs' hconv' hlock' hsz'
  simp [accepts, hcap, hst', hs', hconv', hlock', hbuf, hsz']

/-- C12 as stated fails: a capturing session holding a one-byte frame receives a two-byte
sample; the callback returns `S_FALSE` and the count of read requests stays at 2, although
the request would have succeeded. -/
theorem OnReadSample_size_mismatch_counterexample :
    ((init.startCapture 0 startOk).2.deliver [oneByteCall]).mIsCapturing = true ∧
    ((init.startCapture 0 startOk).2.deliver [oneByteCall]).mCapturedImageBuffer
      = some { bytes := [42] } ∧
    ((init.startCapture 0 startOk).2.deliver [oneByteCall]).readSampleRequests = 2 ∧
    twoByteCall.readSample = true ∧
    (((init.startCapture 0 startOk).2.deliver [oneByteCall]).OnReadSample twoByteCall).1 = false ∧
    (((init.startCapture 0 startOk).2.deliver [oneByteCall]).OnReadSample
      twoByteCall).2.readSampleRequests = 2 := by
  decide

theorem OnReadSample_size_mismatch_witness :
    (((init.startCapture 0 startOk).2.deliver [oneByteCall]).OnReadSample twoByteCall).2
      = (init.startCapture 0 startOk).2.deliver [oneByteCall] :=
  (OnReadSample_size_mismatch ((init.startCapture 0 startOk).2.deliver [oneByteCall])
    twoByteCall
    { convertToContiguousBuffer := true, lock := true, bufferData := [7, 9], unlock := true }
    { bytes := [42] } (by decide) (by decide) (by decide) (by decide) (by decide) (by decide)
    (by decide)).2.1

end DeviceInternals

/-! ## The device: starting and stopping -/

namespace Device

/-- C13, the code at the failing input: a start on an idle session, and on an idle device
with a valid index, in which only the first read request fails returns false with
`mIsCapturing` already set, so `isCapturing()` is true on the session and on the device
(the scratch image is released). -/
theorem startCapture_first_read_fails :
    DeviceInternals.init.isCapturing = false ∧
    (DeviceInternals.init.startCapture 0 startNoFirstRead).1 = false ∧
    (DeviceInternals.init.startCapture 0 startNoFirstRead).2.isCapturing = true ∧
    sampleDevice.isCapturing = false ∧
    0 < sampleDevice.mSupportedCaptureSettingsList.length ∧
    (sampleDevice.startCapture 0 startNoFirstRead).1 = false ∧
    (sampleDevice.startCapture 0 startNoFirstRead).2.isCapturing = true ∧
    (sampleDevice.startCapture 0 startNoFirstRead).2.mInternals.isCapturing = true ∧
    (sampleDevice.startCapture 0 startNoFirstRead).2.mTempImage = none := by
  decide

/-- C14: while the device is capturing, `startCapture( index )` and
`startCapture( settings )` return false for every index and every settings value, and
`startCapture( index )` returns false for every index not below the size of the settings
list; in both cases the device is left exactly as it was (started index, captured image,
scratch image, session, notifications made). -/
theorem startCapture_rejected (self : Device) (captureSettingsIndex : Nat)
    (captureSettings : CaptureSettings) (calls : StartCalls) :
    (self.isCapturing = true →
      self.startCapture captureSettingsIndex calls = (false, self) ∧
      self.startCaptureBySettings captureSettings calls = (false, self)) ∧
    (self.mSupportedCaptureSettingsList.length ≤ captureSettingsIndex →
      self.startCapture captureSettingsIndex calls = (false, self)) := by
  refine ⟨?_, ?_⟩
  · intro hcap
    exact ⟨by simp [startCapture, hcap], by simp [startCaptureBySettings, hcap]⟩
  · intro hidx
    cases hcap : self.isCapturing
    · simp [startCapture, hcap, hidx]
    · simp [startCapture, hcap]

theorem stopCapture_idle (self : Device) (hidle : self.isCapturing = false) :
    self.stopCapture = self := by
  simp [stopCapture, hidle]

theorem stopCapture_capturing (self : Device) (hcap : self.isCapturing = true) :
    self.stopCapture =
      { self with
        notifications := self.notifications ++
          self.mListeners.map (fun l => Notification.mk l DeviceEvent.onDeviceStopping true)
        mInternals := self.mInternals.stopCapture
        mCapturedImage := none
        mTempImage := none
        mStartedCaptureSettingsIndex := 0 } := by
  simp [stopCapture, notify, hcap]

theorem isCapturing_stopCapture (self : Device) : self.stopCapture.isCapturing = false := by
  cases hcap : self.isCapturing
  · rw [stopCapture_idle self hcap, hcap]
  · rw [stopCapture_capturing self hcap]
    have hc : self.mInternals.mIsCapturing = true := hcap
    simp [isCapturing, DeviceInternals.stopCapture, DeviceInternals.isCapturing, hc]

/-- C20: `stopCapture` on a device that is not capturing changes nothing and notifies
nobody, so a second `stopCapture` changes nothing more; on a capturing device every
listener receives `onDeviceStopping` in registration order while `isCapturing()` is
still true, and afterwards `isCapturing()` is false, `getCapturedImage()` is null, the
scratch image is released and the started index is 0. -/
theorem stopCapture_spec (self : Device) :
    (self.isCapturing = false → self.stopCapture = self) ∧
    self.stopCapture.stopCapture = self.stopCapture ∧
    (self.isCapturing = true →
      self.stopCapture.notifications = self.notifications ++
        self.mListeners.map (fun l => Notification.mk l DeviceEvent.onDeviceStopping true) ∧
      self.stopCapture.isCapturing = false ∧
      self.stopCapture.getCapturedImage = none ∧
      self.stopCapture.mTempImage = none ∧
      self.stopCapture.mStartedCaptureSettingsIndex = 0 ∧
      self.stopCapture.mListeners = self.mListeners ∧
      self.stopCapture.mSupportedCaptureSettingsList = self.mSupportedCaptureSettingsList) := by
  refine ⟨stopCapture_idle self, stopCapture_idle _ (isCapturing_stopCapture self), ?_⟩
  intro hcap
  refine ⟨?_, isCapturing_stopCapture self, ?_, ?_, ?_, ?_, ?_⟩
  all_goals
    rw [stopCapture_capturing self hcap]
    try rfl

end Device

/-! ## The device: construction and start by settings -/

namespace Device

theorem constructorLoop_eq (index : Nat) (mediaTypes : List VideoMediaType)
    (settingsList : List CaptureSettings) (mediaTypeIndices : List Nat) :
    constructorLoop index mediaTypes (settingsList, mediaTypeIndices) =
      (settingsList ++
        ((List.enumFrom index mediaTypes).filter (fun q => supported q.2)).map
          (fun q => settingsOf q.2),
       mediaTypeIndices ++
        ((List.enumFrom index mediaTypes).filter (fun q => supported q.2)).map Prod.fst) := by
  induction mediaTypes generalizing index settingsList mediaTypeIndices with
  | nil => simp [constructorLoop]
  | cons mediaType rest ih =>
    by_cases h1 : mediaType.subType = MFVideoFormat_RGB24
    · simp [constructorLoop, List.enumFrom, List.filter, supported, settingsOf, h1, ih]
    · by_cases h2 : mediaType.subType = MFVideoFormat_YUY2
      · have hne : MFVideoFormat_YUY2 ≠ MFVideoFormat_RGB24 := by decide
        simp [constructorLoop, List.enumFrom, List.filter, supported, settingsOf, h2, hne, ih]
      · simp [constructorLoop, List.enumFrom, List.filter, supported, h1, h2, ih]

theorem create_settings (mediaTypes : List VideoMediaType) :
    (create mediaTypes).mSupportedCaptureSettingsList =
      (mediaTypes.enum.filter (fun q => supported q.2)).map (fun q => settingsOf q.2) := by
  simp [create, constructorLoop_eq, List.enum]

theorem create_indices (mediaTypes : List VideoMediaType) :
    (create mediaTypes).mMediaTypeIndices =
      (mediaTypes.enum.filter (fun q => supported q.2)).map Prod.fst := by
  simp [create, constructorLoop_eq, List.enum]

theorem create_mediaTypes (mediaTypes : List VideoMediaType) :
    (create mediaTypes).mInternals.mSupportedVideoMediaTypes = mediaTypes := rfl

theorem create_indices_pairwise (mediaTypes : List VideoMediaType) :
    List.Pairwise (fun a b => a < b) (create mediaTypes).mMediaTypeIndices := by
  rw [create_indices]
  have hsub : ((mediaTypes.enum.filter (fun q => supported q.2)).map Prod.fst).Sublist
      (mediaTypes.enum.map Prod.fst) := List.Sublist.map _ (List.filter_sublist _)
  apply List.Pairwise.sublist hsub
  show List.Pairwise (fun a b => a < b) ((List.enumFrom 0 mediaTypes).map Prod.fst)
  rw [List.enumFrom_map_fst]
  exact List.pairwise_lt_range' 0 mediaTypes.length

theorem create_entry (mediaTypes : List VideoMediaType) (k i : Nat)
    (hk : (create mediaTypes).mMediaTypeIndices[k]? = some i) :
    ∃ mediaType, mediaTypes[i]? = some mediaType ∧ supported mediaType = true ∧
      (create mediaTypes).mSupportedCaptureSettingsList[k]? = some (settingsOf mediaType) := by
  rw [create_indices, List.getElem?_map] at hk
  rw [create_settings, List.getElem?_map]
  cases hq : (mediaTypes.enum.filter (fun q => supported q.2))[k]? with
  | none => simp [hq] at hk
  | some q =>
    rw [hq] at hk
    simp only [Option.map_some', Option.some.injEq] at hk
    have hmem : q ∈ mediaTypes.enum.filter (fun q => supported q.2) :=
      List.mem_iff_getElem?.mpr ⟨k, hq⟩
    rw [List.mem_filter] at hmem
    obtain ⟨hin, hsup⟩ := hmem
    obtain ⟨j, m⟩ := q
    simp only at hk hsup
    subst hk
    exact ⟨m, List.mk_mem_enum_iff_getElem?.mp hin, hsup, rfl⟩

theorem create_mem_indices (mediaTypes : List VideoMediaType) (i : Nat)
    (mediaType : VideoMediaType) (hi : mediaTypes[i]? = some mediaType) :
    i ∈ (create mediaTypes).mMediaTypeIndices ↔ supported mediaType = true := by
  rw [create_indices, List.mem_map]
  constructor
  · rintro ⟨⟨j, m⟩, hmem, hj⟩
    simp only at hj
    subst hj
    rw [List.mem_filter] at hmem
    have hm := List.mk_mem_enum_iff_getElem?.mp hmem.1
    rw [hi] at hm
    cases hm
    exact hmem.2
  · intro hsup
    exact ⟨(i, mediaType), List.mem_filter.mpr ⟨List.mk_mem_enum_iff_getElem?.mpr hi, hsup⟩, rfl⟩

/-- C17: for every list of native media types the constructor builds a settings list and
an index list of equal length: they list, in native order, the media types whose subtype
is `MFVideoFormat_RGB24` (exposed as BGR24) or `MFVideoFormat_YUY2` (exposed as YUYV),
each with its width, height and frame rate, next to its native index; a media type of any
other subtype has no entry; the index list is strictly increasing and every entry is a
valid native index, so for a valid settings index both element accesses of
`startCapture( index )` are in range. -/
theorem create_spec (mediaTypes : List VideoMediaType) :
    (create mediaTypes).mSupportedCaptureSettingsList.length
      = (create mediaTypes).mMediaTypeIndices.length ∧
    (create mediaTypes).mSupportedCaptureSettingsList =
      (mediaTypes.enum.filter (fun q => supported q.2)).map (fun q => settingsOf q.2) ∧
    (create mediaTypes).mMediaTypeIndices =
      (mediaTypes.enum.filter (fun q => supported q.2)).map Prod.fst ∧
    (∀ k i : Nat, (create mediaTypes).mMediaTypeIndices[k]? = some i →
      ∃ (mediaType : VideoMediaType) (settings : CaptureSettings),
        mediaTypes[i]? = some mediaType ∧
        (create mediaTypes).mSupportedCaptureSettingsList[k]? = some settings ∧
        settings.mImageFormat.width = mediaType.width ∧
        settings.mImageFormat.height = mediaType.height ∧
        settings.mFrameRate = mediaType.frameRate ∧
        ((mediaType.subType = MFVideoFormat_RGB24 ∧
            settings.mImageFormat.encoding = Encoding.BGR24) ∨
          (mediaType.subType = MFVideoFormat_YUY2 ∧
            settings.mImageFormat.encoding = Encoding.YUYV))) ∧
    (∀ (i : Nat) (mediaType : VideoMediaType), mediaTypes[i]? = some mediaType →
      (i ∈ (create mediaTypes).mMediaTypeIndices ↔
        (mediaType.subType = MFVideoFormat_RGB24 ∨ mediaType.subType = MFVideoFormat_YUY2))) ∧
    List.Pairwise (fun a b => a < b) (create mediaTypes).mMediaTypeIndices ∧
    (∀ k, k < (create mediaTypes).mSupportedCaptureSettingsList.length →
      k < (create mediaTypes).mMediaTypeIndices.length ∧
      (create mediaTypes).mMediaTypeIndices.getD k 0
        < (create mediaTypes).mInternals.mSupportedVideoMediaTypes.length) := by
  have hlen : (create mediaTypes).mSupportedCaptureSettingsList.length
      = (create mediaTypes).mMediaTypeIndices.length := by
    rw [create_settings, create_indices, List.length_map, List.length_map]
  refine ⟨hlen, create_settings mediaTypes, create_indices mediaTypes, ?_, ?_,
    create_indices_pairwise mediaTypes, ?_⟩
  · intro k i hk
    obtain ⟨mediaType, hmt, hsup, hset⟩ := create_entry mediaTypes k i hk
    refine ⟨mediaType, settingsOf mediaType, hmt, hset, rfl, rfl, rfl, ?_⟩
    by_cases h1 : mediaType.subType = MFVideoFormat_RGB24
    · exact Or.inl ⟨h1, by simp [settingsOf, h1]⟩
    · have h2 : mediaType.subType = MFVideoFormat_YUY2 := by
        simpa [supported, h1] using hsup
      exact Or.inr ⟨h2, by simp [settingsOf, h1]⟩
  · intro i mediaType hi
    rw [create_mem_indices mediaTypes i mediaType hi]
    simp [supported]
  · intro k hk
    rw [hlen] at hk
    refine ⟨hk, ?_⟩
    have hget : (create mediaTypes).mMediaTypeIndices[k]?
        = some ((create mediaTypes).mMediaTypeIndices.getD k 0) := by
      rw [List.getD_eq_getElem _ _ hk]
      exact List.getElem?_eq_getElem hk
    obtain ⟨mediaType, hmt, -, -⟩ := create_entry mediaTypes k _ hget
    rw [create_mediaTypes]
    exact (List.getElem?_eq_some.mp hmt).1

theorem startCaptureSearch_none (self : Device) (captureSettings : CaptureSettings)
    (calls : StartCalls) (index : Nat) (candidates : List CaptureSettings)
    (hnone : ∀ x ∈ candidates, x ≠ captureSettings) :
    startCaptureSearch self captureSettings calls index candidates = (false, self) := by
  induction candidates generalizing index with
  | nil => rfl
  | cons candidate rest ih =>
    have hne : captureSettings ≠ candidate := fun h =>
      hnone candidate (List.mem_cons_self _ _) h.symm
    simp only [startCaptureSearch, hne, if_false]
    exact ih (index + 1) (fun x hx => hnone x (List.mem_cons_of_mem _ hx))

theorem startCaptureSearch_first (self : Device) (captureSettings : CaptureSettings)
    (calls : StartCalls) (index : Nat) (candidates : List CaptureSettings) (i : Nat)
    (hi : candidates[i]? = some captureSettings)
    (hleast : ∀ j, j < i → candidates[j]? ≠ some captureSettings) :
    startCaptureSearch self captureSettings calls index candidates
      = self.startCapture (index + i) calls := by
  induction candidates generalizing index i with
  | nil => simp at hi
  | cons candidate rest ih =>
    cases i with
    | zero =>
      simp only [List.getElem?_cons_zero, Option.some.injEq] at hi
      simp [startCaptureSearch, hi]
    | succ i =>
      have hne : captureSettings ≠ candidate := by
        intro h
        exact hleast 0 (Nat.succ_pos i) (by simp [h])
      simp only [startCaptureSearch, hne, if_false]
      rw [ih (index + 1) i (by simpa using hi)
        (fun j hj => by simpa using hleast (j + 1) (by omega))]
      congr 1
      omega

/-- C16: on a device that is not capturing, `startCapture( settings )` is
`startCapture( i )` for the least index `i` whose entry of the settings list equals the
given settings, result and device alike, and it returns false leaving the device as it
was (no notification) when no entry equals them. -/
theorem startCaptureBySettings_spec (self : Device) (captureSettings : CaptureSettings)
    (calls : StartCalls) (hidle : self.isCapturing = false) :
    (∀ i : Nat, self.mSupportedCaptureSettingsList[i]? = some captureSettings →
      (∀ j : Nat, j < i → self.mSupportedCaptureSettingsList[j]? ≠ some captureSettings) →
      self.startCaptureBySettings captureSettings calls = self.startCapture i calls) ∧
    ((∀ x ∈ self.mSupportedCaptureSettingsList, x ≠ captureSettings) →
      self.startCaptureBySettings captureSettings calls = (false, self)) := by
  refine ⟨?_, ?_⟩
  · intro i hi hleast
    simp only [startCaptureBySettings, hidle, Bool.false_eq_true, if_false]
    rw [startCaptureSearch_first self captureSettings calls 0 _ i hi hleast, Nat.zero_add]
  · intro hnone
    simp only [startCaptureBySettings, hidle, Bool.false_eq_true, if_false]
    exact startCaptureSearch_none self captureSettings calls 0 _ hnone

theorem startCaptureBySettings_spec_witness :
    sampleDevice.startCaptureBySettings
        { mImageFormat := { width := 2, height := 1, encoding := Encoding.YUYV },
          mFrameRate := 15 } DeviceInternals.startOk
      = sampleDevice.startCapture 1 DeviceInternals.startOk :=
  (startCaptureBySettings_spec sampleDevice
    { mImageFormat := { width := 2, height := 1, encoding := Encoding.YUYV }, mFrameRate := 15 }
    DeviceInternals.startOk (by decide)).1 1 (by decide) (by decide)

end Device

/-! ## The device: polling -/

namespace DeviceInternals

theorem getCapturedImage_none (self : DeviceInternals) (buffer : MemoryBuffer)
    (sequenceNumber : Nat) (timestamp : Int) (hbuf : self.mCapturedImageBuffer = none) :
    self.getCapturedImage buffer sequenceNumber timestamp
      = (false, buffer, sequenceNumber, timestamp) := by
  simp [getCapturedImage, hbuf]

theorem getCapturedImage_mismatch (self : DeviceInternals) (pending buffer : MemoryBuffer)
    (sequenceNumber : Nat) (timestamp : Int) (hbuf : self.mCapturedImageBuffer = some pending)
    (hsz : buffer.getSizeInBytes ≠ pending.getSizeInBytes) :
    self.getCapturedImage buffer sequenceNumber timestamp = (false, buffer, 0, 0) := by
  simp [getCapturedImage, hbuf, hsz]

theorem getCapturedImage_ok (self : DeviceInternals) (pending buffer : MemoryBuffer)
    (sequenceNumber : Nat) (timestamp : Int) (hbuf : self.mCapturedImageBuffer = some pending)
    (hsz : buffer.getSizeInBytes = pending.getSizeInBytes) :
    self.getCapturedImage buffer sequenceNumber timestamp
      = (true, pending, self.mCapturedImageNumber, self.mCapturedImageTimestamp) := by
  simp [getCapturedImage, hbuf, hsz, MemoryBuffer.copyFrom]

theorem getCapturedImage_fails_iff (self : DeviceInternals) (buffer : MemoryBuffer)
    (sequenceNumber : Nat) (timestamp : Int) :
    (self.getCapturedImage buffer sequenceNumber timestamp).1 = false ↔
      (self.mCapturedImageBuffer = none ∨
        ∃ pending, self.mCapturedImageBuffer = some pending ∧
          buffer.getSizeInBytes ≠ pending.getSizeInBytes) := by
  cases hbuf : self.mCapturedImageBuffer with
  | none => simp [getCapturedImage_none self buffer sequenceNumber timestamp hbuf]
  | some pending =>
    by_cases hsz : buffer.getSizeInBytes = pending.getSizeInBytes
    · simp [getCapturedImage_ok self pending buffer sequenceNumber timestamp hbuf hsz, hsz]
    · simp [getCapturedImage_mismatch self pending buffer sequenceNumber timestamp hbuf hsz, hsz]

end DeviceInternals

namespace Device

theorem update_idle (self : Device) (hidle : self.isCapturing = false) : self.update = self := by
  simp [update, hidle]

theorem update_fetch_fails (self : Device) (capturedImage : CapturedImage)
    (hcap : self.isCapturing = true) (hci : self.mCapturedImage = some capturedImage)
    (hfail : (self.mInternals.getCapturedImage
      (match self.mTempImage with
        | some tempImage => tempImage.buffer
        | none => capturedImage.mImage.buffer) 0 0).1 = false) :
    self.update = self := by
  obtain ⟨settingsList, indices, internals, started, captured, temp, listeners, log, name,
    link⟩ := self
  simp only at hci
  subst hci
  have hcap' : internals.isCapturing = true := hcap
  cases temp with
  | none =>
    simp only at hfail
    have hbuf : (internals.getCapturedImage capturedImage.mImage.buffer 0 0).2.1
        = capturedImage.mImage.buffer := by
      rcases (DeviceInternals.getCapturedImage_fails_iff internals _ 0 0).mp hfail with
        h | ⟨pending, h, hsz⟩
      · rw [DeviceInternals.getCapturedImage_none internals _ 0 0 h]
      · rw [DeviceInternals.getCapturedImage_mismatch internals pending _ 0 0 h hsz]
    simp [update, isCapturing, hcap', hfail, hbuf]
  | some tempImage =>
    simp only at hfail
    have hbuf : (internals.getCapturedImage tempImage.buffer 0 0).2.1 = tempImage.buffer := by
      rcases (DeviceInternals.getCapturedImage_fails_iff internals _ 0 0).mp hfail with
        h | ⟨pending, h, hsz⟩
      · rw [DeviceInternals.getCapturedImage_none internals _ 0 0 h]
      · rw [DeviceInternals.getCapturedImage_mismatch internals pending _ 0 0 h hsz]
    simp [update, isCapturing, hcap', hfail, hbuf]

/-- C19: `update` leaves the device exactly as it was, notifications included, when the
device is not capturing, and also when it is capturing but the fetch from the session
fails; the fetch fails exactly when the session holds no pending frame (none accepted
since the start) or the pending frame's size differs from the size of the buffer it is
fetched into. -/
theorem update_no_op (self : Device) :
    (self.isCapturing = false → self.update = self) ∧
    (∀ capturedImage : CapturedImage,
      self.isCapturing = true → self.mCapturedImage = some capturedImage →
      (self.mInternals.mCapturedImageBuffer = none ∨
        ∃ pending, self.mInternals.mCapturedImageBuffer = some pending ∧
          (match self.mTempImage with
            | some tempImage => tempImage.buffer
            | none => capturedImage.mImage.buffer).getSizeInBytes ≠ pending.getSizeInBytes) →
      (self.mInternals.getCapturedImage
        (match self.mTempImage with
          | some tempImage => tempImage.buffer
          | none => capturedImage.mImage.buffer) 0 0).1 = false ∧
      self.update = self ∧
      self.update.getCapturedImage = some capturedImage ∧
      self.update.notifications = self.notifications) := by
  refine ⟨update_idle self, ?_⟩
  intro capturedImage hcap hci hwhy
  have hfail := (DeviceInternals.getCapturedImage_fails_iff self.mInternals _ 0 0).mpr hwhy
  have hsame := update_fetch_fails self capturedImage hcap hci hfail
  refine ⟨hfail, hsame, ?_, ?_⟩
  · rw [hsame]
    exact hci
  · rw [hsame]

theorem create_valid (format : ImageFormat) : (Image.create format).valid := by
  simp [Image.valid, Image.create, MemoryBuffer.getSizeInBytes]

theorem flip_rows (sourceImage destinationImage : Image)
    (hsl : sourceImage.buffer.getSizeInBytes = sourceImage.format.getDataSizeInBytes)
    (hdv : destinationImage.valid) (hfmt : sourceImage.format = destinationImage.format) :
    ∀ y, y < sourceImage.format.height →
      ∀ c, c < sourceImage.format.getNumBytesPerLine → ∃ b : Byte,
        sourceImage.buffer.bytes[y * sourceImage.format.getNumBytesPerLine + c]? = some b ∧
        (flipImageVertically sourceImage destinationImage).2.destination.buffer.bytes[
          (sourceImage.format.height - 1 - y) * sourceImage.format.getNumBytesPerLine + c]?
          = some b := by
  obtain ⟨-, -, -, r4, r5⟩ := flipImageVertically_run sourceImage destinationImage hdv hfmt
  have hsl' : sourceImage.buffer.bytes.length
      = sourceImage.format.getNumBytesPerLine * sourceImage.format.height := hsl
  have hdl : destinationImage.buffer.bytes.length
      = sourceImage.format.getNumBytesPerLine * sourceImage.format.height := by
    rw [hfmt]
    exact hdv
  intro y hy c hc
  obtain ⟨q, hq⟩ : ∃ q, sourceImage.format.height = y + 1 + q :=
    ⟨sourceImage.format.height - (y + 1), by omega⟩
  have hexp : sourceImage.format.getNumBytesPerLine * (y + 1 + q)
      = y * sourceImage.format.getNumBytesPerLine + sourceImage.format.getNumBytesPerLine
        + q * sourceImage.format.getNumBytesPerLine := by ring
  have hsrcIdx : y * sourceImage.format.getNumBytesPerLine + c
      < sourceImage.buffer.bytes.length := by
    rw [hsl', hq]
    omega
  have hdstIdx : (sourceImage.format.height - 1 - y) * sourceImage.format.getNumBytesPerLine + c
      < (flipImageVertically sourceImage destinationImage).2.destination.buffer.bytes.length := by
    rw [r4, hdl, hq]
    have e : y + 1 + q - 1 - y = q := by omega
    rw [e]
    omega
  refine ⟨readByte sourceImage.buffer.bytes (y * sourceImage.format.getNumBytesPerLine + c),
    getElem?_eq_readByte _ _ hsrcIdx, ?_⟩
  rw [← r5 y c hy hc]
  exact getElem?_eq_readByte _ _ hdstIdx

theorem startCapture_run (self : Device) (captureSettingsIndex : Nat) (calls : StartCalls)
    (settings : CaptureSettings) (mediaType : VideoMediaType)
    (hidle : self.isCapturing = false)
    (hs : self.mSupportedCaptureSettingsList[captureSettingsIndex]? = some settings)
    (hm : self.mInternals.mSupportedVideoMediaTypes[
      self.mMediaTypeIndices.getD captureSettingsIndex 0]? = some mediaType) :
    self.startCapture captureSettingsIndex calls =
      if (self.mInternals.startCapture
          (self.mMediaTypeIndices.getD captureSettingsIndex 0) calls).1 = true then
        (true,
          { self with
            mStartedCaptureSettingsIndex := captureSettingsIndex
            mCapturedImage := some (CapturedImage.create settings.mImageFormat)
            mTempImage :=
              if mediaType.stride < 0 then some (Image.create settings.mImageFormat)
              else self.mTempImage
            mInternals := (self.mInternals.startCapture
              (self.mMediaTypeIndices.getD captureSettingsIndex 0) calls).2
            notifications := self.notifications ++
              self.mListeners.map (fun l => Notification.mk l DeviceEvent.onDeviceStarted true) })
      else
        (false,
          { self with
            mStartedCaptureSettingsIndex := captureSettingsIndex
            mCapturedImage := some (CapturedImage.create settings.mImageFormat)
            mTempImage := none
            mInternals := (self.mInternals.startCapture
              (self.mMediaTypeIndices.getD captureSettingsIndex 0) calls).2 }) := by
  obtain ⟨hlt, hget⟩ := List.getElem?_eq_some.mp hs
  simp only [List.getD_eq_getElem?_getD] at hm ⊢
  cases hr : (self.mInternals.startCapture
      (self.mMediaTypeIndices[captureSettingsIndex]?.getD 0) calls).1
  · by_cases hstride : mediaType.stride < 0 <;>
      simp [startCapture, hidle, hlt, hget, hs, hm, hr, hstride, Nat.not_le.mpr hlt]
  · have hcapt := (DeviceInternals.startCapture_success self.mInternals _ calls hr).2.1
    have hidle' : self.mInternals.mIsCapturing = false := hidle
    by_cases hstride : mediaType.stride < 0 <;>
      simp [startCapture, hidle', hlt, hget, hs, hm, hr, hstride, Nat.not_le.mpr hlt, notify,
        isCapturing, DeviceInternals.isCapturing, hcapt]

theorem update_direct (self : Device) (capturedImage : CapturedImage) (pending : MemoryBuffer)
    (hcap : self.isCapturing = true) (hci : self.mCapturedImage = some capturedImage)
    (htemp : self.mTempImage = none)
    (hpending : self.mInternals.mCapturedImageBuffer = some pending)
    (hsize : pending.getSizeInBytes = capturedImage.mImage.buffer.getSizeInBytes) :
    self.update =
      { self with
        mCapturedImage := some
          { mImage := { format := capturedImage.mImage.format, buffer := pending }
            mSequenceNumber := self.mInternals.mCapturedImageNumber
            mTimestampInSec := (self.mInternals.mCapturedImageTimestamp : ℚ) / 10000000 }
        notifications := self.notifications ++
          self.mListeners.map
            (fun l => Notification.mk l DeviceEvent.onDeviceCapturedImage true) } := by
  have hget := DeviceInternals.getCapturedImage_ok self.mInternals pending
    capturedImage.mImage.buffer 0 0 hpending hsize.symm
  have hcap' : self.mInternals.isCapturing = true := hcap
  simp [update, publish, notify, isCapturing, hcap', hci, htemp, hget]

theorem update_flip (self : Device) (capturedImage : CapturedImage) (tempImage : Image)
    (pending : MemoryBuffer)
    (hcap : self.isCapturing = true) (hci : self.mCapturedImage = some capturedImage)
    (htemp : self.mTempImage = some tempImage)
    (hpending : self.mInternals.mCapturedImageBuffer = some pending)
    (hsize : pending.getSizeInBytes = tempImage.buffer.getSizeInBytes) :
    self.update =
      { self with
        mTempImage := some
          (flipImageVertically { format := tempImage.format, buffer := pending }
            capturedImage.mImage).2.source
        mCapturedImage := some
          { mImage := (flipImageVertically { format := tempImage.format, buffer := pending }
              capturedImage.mImage).2.destination
            mSequenceNumber := self.mInternals.mCapturedImageNumber
            mTimestampInSec := (self.mInternals.mCapturedImageTimestamp : ℚ) / 10000000 }
        notifications := self.notifications ++
          self.mListeners.map
            (fun l => Notification.mk l DeviceEvent.onDeviceCapturedImage true) } := by
  have hget := DeviceInternals.getCapturedImage_ok self.mInternals pending
    tempImage.buffer 0 0 hpending hsize.symm
  have hcap' : self.mInternals.isCapturing = true := hcap
  simp [update, publish, notify, isCapturing, hcap', hci, htemp, hget]

/-- C18: on a capturing device whose fetch succeeds (the session holds a pending frame of
the size of the image buffers), `update` publishes a captured image that is byte-identical
to the pending frame when no scratch image exists, and is its vertical flip (row
`height-1-y` of the published image is row `y` of the pending frame) when one exists; in
both cases the published sequence number is the session's sequence number, and every
registered listener receives `onDeviceCapturedImage` once per registration, in
registration order, after all earlier notifications. A successful start creates the
scratch image exactly when the started native media type has negative stride. -/
theorem update_publishes (self : Device) (capturedImage : CapturedImage)
    (pending : MemoryBuffer)
    (hcap : self.isCapturing = true)
    (hci : self.mCapturedImage = some capturedImage)
    (hvalid : capturedImage.mImage.valid)
    (htemp : ∀ tempImage, self.mTempImage = some tempImage →
      tempImage.format = capturedImage.mImage.format ∧ tempImage.valid)
    (hpending : self.mInternals.mCapturedImageBuffer = some pending)
    (hsize : pending.getSizeInBytes = capturedImage.mImage.buffer.getSizeInBytes) :
    (∃ published : CapturedImage,
      self.update.getCapturedImage = some published ∧
      published.mSequenceNumber = self.mInternals.mCapturedImageNumber ∧
      published.mImage.format = capturedImage.mImage.format ∧
      (self.mTempImage = none → published.mImage.buffer = pending) ∧
      (self.mTempImage.isSome = true →
        ∀ y, y < capturedImage.mImage.format.height →
          ∀ c, c < capturedImage.mImage.format.getNumBytesPerLine → ∃ b : Byte,
            pending.bytes[y * capturedImage.mImage.format.getNumBytesPerLine + c]? = some b ∧
            published.mImage.buffer.bytes[
              (capturedImage.mImage.format.height - 1 - y)
                * capturedImage.mImage.format.getNumBytesPerLine + c]? = some b)) ∧
    self.update.notifications = self.notifications ++
      self.mListeners.map (fun l => Notification.mk l DeviceEvent.onDeviceCapturedImage true) ∧
    (∀ (idle : Device) (captureSettingsIndex : Nat) (calls : StartCalls)
      (settings : CaptureSettings) (mediaType : VideoMediaType),
      idle.isCapturing = false → idle.mTempImage = none →
      idle.mSupportedCaptureSettingsList[captureSettingsIndex]? = some settings →
      idle.mInternals.mSupportedVideoMediaTypes[
        idle.mMediaTypeIndices.getD captureSettingsIndex 0]? = some mediaType →
      (idle.startCapture captureSettingsIndex calls).1 = true →
      (idle.startCapture captureSettingsIndex calls).2.mCapturedImage
        = some (CapturedImage.create settings.mImageFormat) ∧
      (idle.startCapture captureSettingsIndex calls).2.mTempImage
        = (if mediaType.stride < 0 then some (Image.create settings.mImageFormat) else none)) := by
  refine ⟨?_, ?_, ?_⟩
  · cases ht : self.mTempImage with
    | none =>
      rw [update_direct self capturedImage pending hcap hci ht hpending hsize]
      refine ⟨_, rfl, rfl, rfl, fun _ => rfl, ?_⟩
      intro h
      simp at h
    | some tempImage =>
      obtain ⟨hfmt, htv⟩ := htemp tempImage ht
      have hsz : pending.getSizeInBytes = tempImage.buffer.getSizeInBytes := by
        have h1 : tempImage.buffer.getSizeInBytes = tempImage.format.getDataSizeInBytes := htv
        have h2 : capturedImage.mImage.buffer.getSizeInBytes
            = capturedImage.mImage.format.getDataSizeInBytes := hvalid
        rw [hsize, h1, h2, hfmt]
      rw [update_flip self capturedImage tempImage pending hcap hci ht hpending hsz]
      have hrun := flipImageVertically_run (Image.mk tempImage.format pending)
        capturedImage.mImage hvalid hfmt
      have hrows := flip_rows (Image.mk tempImage.format pending) capturedImage.mImage
        (by
          show pending.getSizeInBytes = tempImage.format.getDataSizeInBytes
          rw [hsz]
          exact htv)
        hvalid hfmt
      refine ⟨_, rfl, rfl, hrun.2.2.1, ?_, ?_⟩
      · intro h
        cases h
      · intro _ y hy c hc
        rw [← hfmt] at hy hc ⊢
        exact hrows y hy c hc
  · cases ht : self.mTempImage with
    | none => rw [update_direct self capturedImage pending hcap hci ht hpending hsize]
    | some tempImage =>
      obtain ⟨hfmt, htv⟩ := htemp tempImage ht
      have hsz : pending.getSizeInBytes = tempImage.buffer.getSizeInBytes := by
        have h1 : tempImage.buffer.getSizeInBytes = tempImage.format.getDataSizeInBytes := htv
        have h2 : capturedImage.mImage.buffer.getSizeInBytes
            = capturedImage.mImage.format.getDataSizeInBytes := hvalid
        rw [hsize, h1, h2, hfmt]
      rw [update_flip self capturedImage tempImage pending hcap hci ht hpending hsz]
  · intro idle captureSettingsIndex calls settings mediaType hidle hnotemp hs hm hok
    have hrun := startCapture_run idle captureSettingsIndex calls settings mediaType hidle hs hm
    by_cases hr : (idle.mInternals.startCapture
        (idle.mMediaTypeIndices.getD captureSettingsIndex 0) calls).1 = true
    · rw [if_pos hr] at hrun
      rw [hrun]
      exact ⟨rfl, by simp [hnotemp]⟩
    · rw [if_neg hr] at hrun
      rw [hrun] at hok
      cases hok

theorem update_publishes_witness :
    sampleFlipping.update.notifications = sampleFlipping.notifications ++
      sampleFlipping.mListeners.map
        (fun l => Notification.mk l DeviceEvent.onDeviceCapturedImage true) :=
  (update_publishes sampleFlipping
    (CapturedImage.create { width := 1, height := 2, encoding := Encoding.BGR24 })
    { bytes := [1, 2, 3, 4, 5, 6] } (by decide) (by decide) (by decide)
    (fun tempImage ht => by
      have hsome : sampleFlipping.mTempImage
          = some (Image.create { width := 1, height := 2, encoding := Encoding.BGR24 }) := by
        decide
      rw [hsome] at ht
      cases ht
      exact ⟨by decide, by decide⟩)
    (by decide) (by decide)).2.1

theorem startCapture_isCapturing (self : Device) (captureSettingsIndex : Nat)
    (calls : StartCalls) (hok : (self.startCapture captureSettingsIndex calls).1 = true) :
    (self.startCapture captureSettingsIndex calls).2.isCapturing = true := by
  by_cases h1 : self.isCapturing = true
  · simp [startCapture, h1] at hok
  · by_cases h2 : captureSettingsIndex ≥ self.mSupportedCaptureSettingsList.length
    · simp [startCapture, h1, h2] at hok
    · have h1' : self.isCapturing = false := by simpa using h1
      cases hr : (self.mInternals.startCapture
          (self.mMediaTypeIndices.getD captureSettingsIndex 0) calls).1
      · have hr' := hr
        simp only [List.getD_eq_getElem?_getD] at hr'
        unfold startCapture at hok
        simp only [h1', h2, Bool.false_eq_true, if_false] at hok
        generalize self.mInternals.mSupportedVideoMediaTypes.getD _ _ = mediaType at hok
        by_cases hstride : mediaType.stride < 0 <;> simp [hstride, hr'] at hok
      · have hcapt := (DeviceInternals.startCapture_success self.mInternals _ calls hr).2.1
        have hr' := hr
        simp only [List.getD_eq_getElem?_getD] at hr' hcapt
        unfold startCapture
        simp only [h1', h2, Bool.false_eq_true, if_false]
        generalize self.mInternals.mSupportedVideoMediaTypes.getD _ _ = mediaType
        by_cases hstride : mediaType.stride < 0 <;>
          simp [hstride, hr', notify, isCapturing, DeviceInternals.isCapturing, hcapt]

theorem startCapture_settingsList (self : Device) (captureSettingsIndex : Nat)
    (calls : StartCalls) :
    (self.startCapture captureSettingsIndex calls).2.mSupportedCaptureSettingsList
      = self.mSupportedCaptureSettingsList := by
  by_cases h1 : self.isCapturing = true
  · simp [startCapture, h1]
  · by_cases h2 : captureSettingsIndex ≥ self.mSupportedCaptureSettingsList.length
    · simp [startCapture, h1, h2]
    · have h1' : self.isCapturing = false := by simpa using h1
      unfold startCapture
      simp only [h1', h2, Bool.false_eq_true, if_false]
      generalize self.mInternals.mSupportedVideoMediaTypes.getD _ _ = mediaType
      cases hr : (self.mInternals.startCapture
          (self.mMediaTypeIndices[captureSettingsIndex]?.getD 0) calls).1 <;>
        by_cases hstride : mediaType.stride < 0 <;>
        simp [hstride, hr, notify]

/-- When the start succeeds, `startCapture( i )` followed by `stopCapture()` leaves the
device not capturing, without captured image or scratch image, the started index 0 and
the settings list as it was. -/
theorem startCapture_stopCapture_of_success (self : Device) (captureSettingsIndex : Nat)
    (calls : StartCalls) (hok : (self.startCapture captureSettingsIndex calls).1 = true) :
    (self.startCapture captureSettingsIndex calls).2.stopCapture.isCapturing = false ∧
    (self.startCapture captureSettingsIndex calls).2.stopCapture.getCapturedImage = none ∧
    (self.startCapture captureSettingsIndex calls).2.stopCapture.mTempImage = none ∧
    (self.startCapture captureSettingsIndex calls).2.stopCapture.getStartedCaptureSettingsIndex
      = (false, 0) ∧
    (self.startCapture captureSettingsIndex calls).2.stopCapture.mSupportedCaptureSettingsList
      = self.mSupportedCaptureSettingsList := by
  have hcap := startCapture_isCapturing self captureSettingsIndex calls hok
  have hlist := startCapture_settingsList self captureSettingsIndex calls
  have hstop := stopCapture_capturing _ hcap
  have hidle := isCapturing_stopCapture (self.startCapture captureSettingsIndex calls).2
  refine ⟨hidle, ?_, ?_, ?_, ?_⟩
  · rw [hstop]
    rfl
  · rw [hstop]
  · simp [getStartedCaptureSettingsIndex, hidle]
  · rw [hstop]
    exact hlist

/-- C15, the code at the failing input: on `sampleDevice` (not capturing, no captured
image) `startCapture( 0 )` in which the reader cannot be created returns false leaving
the captured image allocated, and the `stopCapture()` that follows does nothing, the device
not capturing: `getCapturedImage()` is not null afterwards. -/
theorem startCapture_stopCapture_failed_start :
    sampleDevice.isCapturing = false ∧
    sampleDevice.getCapturedImage = none ∧
    0 < sampleDevice.mSupportedCaptureSettingsList.length ∧
    (sampleDevice.startCapture 0 startNoReader).1 = false ∧
    (sampleDevice.startCapture 0 startNoReader).2.stopCapture.isCapturing = false ∧
    (sampleDevice.startCapture 0 startNoReader).2.stopCapture.getCapturedImage
      = some (CapturedImage.create { width := 1, height := 2, encoding := Encoding.BGR24 }) ∧
    (sampleDevice.startCapture 0 startNoReader).2.stopCapture.getCapturedImage
      ≠ sampleDevice.getCapturedImage := by
  decide

end Device

/-! ## The device theorems at concrete devices -/

theorem startCapture_rejected_witness :
    sampleFlipping.startCapture 1 DeviceInternals.startOk = (false, sampleFlipping) ∧
    sampleDevice.startCapture 2 DeviceInternals.startOk = (false, sampleDevice) :=
  ⟨((Device.startCapture_rejected sampleFlipping 1
      { mImageFormat := { width := 2, height := 1, encoding := Encoding.YUYV }, mFrameRate := 15 }
      DeviceInternals.startOk).1 (by decide)).1,
   (Device.startCapture_rejected sampleDevice 2
      { mImageFormat := { width := 2, height := 1, encoding := Encoding.YUYV }, mFrameRate := 15 }
      DeviceInternals.startOk).2 (by decide)⟩

theorem update_no_op_witness :
    sampleDevice.update = sampleDevice ∧
    (sampleDevice.startCapture 0 DeviceInternals.startOk).2.update
      = (sampleDevice.startCapture 0 DeviceInternals.startOk).2 :=
  ⟨(Device.update_no_op sampleDevice).1 (by decide),
   ((Device.update_no_op (sampleDevice.startCapture 0 DeviceInternals.startOk).2).2
      (CapturedImage.create { width := 1, height := 2, encoding := Encoding.BGR24 })
      (by decide) (by decide) (Or.inl (by decide))).2.1⟩

theorem stopCapture_spec_witness :
    sampleDevice.stopCapture = sampleDevice ∧
    sampleFlipping.stopCapture.isCapturing = false ∧
    sampleFlipping.stopCapture.getCapturedImage = none :=
  ⟨(Device.stopCapture_spec sampleDevice).1 (by decide),
   ((Device.stopCapture_spec sampleFlipping).2.2 (by decide)).2.1,
   ((Device.stopCapture_spec sampleFlipping).2.2 (by decide)).2.2.1⟩

theorem create_spec_witness :
    (Device.create sampleMediaTypes).mMediaTypeIndices = [0, 2] ∧
    List.Pairwise (fun a b => a < b) (Device.create sampleMediaTypes).mMediaTypeIndices :=
  ⟨by decide, (Device.create_spec sampleMediaTypes).2.2.2.2.2.1⟩

/-! ## The two packed-4:2:2 routines compared -/

namespace ImageConverter

theorem bgr24PairBytes_swap (y0 u0 y1 v0 : Byte) :
    bgr24PairBytes y0 u0 y1 v0 0 = rgb24PairBytes y0 u0 y1 v0 2 ∧
    bgr24PairBytes y0 u0 y1 v0 1 = rgb24PairBytes y0 u0 y1 v0 1 ∧
    bgr24PairBytes y0 u0 y1 v0 2 = rgb24PairBytes y0 u0 y1 v0 0 ∧
    bgr24PairBytes y0 u0 y1 v0 3 = rgb24PairBytes y0 u0 y1 v0 5 ∧
    bgr24PairBytes y0 u0 y1 v0 4 = rgb24PairBytes y0 u0 y1 v0 4 ∧
    bgr24PairBytes y0 u0 y1 v0 5 = rgb24PairBytes y0 u0 y1 v0 3 :=
  ⟨rfl, rfl, rfl, rfl, rfl, rfl⟩

/-- The success of the two packed-4:2:2 routines depends on the source encoding and on
the sizes only. -/
theorem convertYUYV_success_iff (source rgb24Image bgr24Image : Image)
    (hre : rgb24Image.format.encoding = Encoding.RGB24)
    (hbe : bgr24Image.format.encoding = Encoding.BGR24) :
    ((convertYUYVImageToRGB24Image source rgb24Image).1 = true ↔
      (source.format.encoding = Encoding.YUYV ∧
        rgb24Image.format.width = source.format.width ∧
        rgb24Image.format.height = source.format.height)) ∧
    ((convertYUYVImageToBGR24Image source bgr24Image).1 = true ↔
      (source.format.encoding = Encoding.YUYV ∧
        bgr24Image.format.width = source.format.width ∧
        bgr24Image.format.height = source.format.height)) := by
  constructor
  · unfold convertYUYVImageToRGB24Image
    by_cases h1 : source.format.encoding = Encoding.YUYV
    · by_cases h2 : rgb24Image.format.width = source.format.width
      · by_cases h3 : rgb24Image.format.height = source.format.height
        · simp [h1, h2, h3, hre]
        · simp [h1, h2, h3, hre]
      · simp [h1, h2, hre]
    · simp [h1]
  · unfold convertYUYVImageToBGR24Image
    by_cases h1 : source.format.encoding = Encoding.YUYV
    · by_cases h2 : bgr24Image.format.width = source.format.width
      · by_cases h3 : bgr24Image.format.height = source.format.height
        · simp [h1, h2, h3, hbe]
        · simp [h1, h2, h3, hbe]
      · simp [h1, h2, hbe]
    · simp [h1]

/-- C25: for a YUYV source and well-formed RGB24 and BGR24 destinations of the source
dimensions, every pixel written by `convertYUYVImageToBGR24Image` holds the bytes the
RGB24 routine writes for that pixel with bytes 0 and 2 exchanged, both routines leave
the bytes past the last written pixel as they were, and for every source image and every
pair of RGB24 and BGR24 destinations of equal dimensions the two routines succeed
together or fail together. -/
theorem convertYUYV_bgr24_is_rgb24_swapped (yuyvImage rgb24Image bgr24Image : Image)
    (hrgb : rgb24Image.valid) (hbgr : bgr24Image.valid)
    (hse : yuyvImage.format.encoding = Encoding.YUYV)
    (hre : rgb24Image.format.encoding = Encoding.RGB24)
    (hbe : bgr24Image.format.encoding = Encoding.BGR24)
    (hrw : rgb24Image.format.width = yuyvImage.format.width)
    (hrh : rgb24Image.format.height = yuyvImage.format.height)
    (hbw : bgr24Image.format.width = yuyvImage.format.width)
    (hbh : bgr24Image.format.height = yuyvImage.format.height) :
    (∀ p, p < 2 * (yuyvImage.format.width / 2 * yuyvImage.format.height) →
      ∃ r g b : Byte,
        (convertYUYVImageToRGB24Image yuyvImage rgb24Image).2.destination.buffer.bytes[3 * p]?
          = some r ∧
        (convertYUYVImageToRGB24Image yuyvImage rgb24Image).2.destination.buffer.bytes[3 * p + 1]?
          = some g ∧
        (convertYUYVImageToRGB24Image yuyvImage rgb24Image).2.destination.buffer.bytes[3 * p + 2]?
          = some b ∧
        (convertYUYVImageToBGR24Image yuyvImage bgr24Image).2.destination.buffer.bytes[3 * p]?
          = some b ∧
        (convertYUYVImageToBGR24Image yuyvImage bgr24Image).2.destination.buffer.bytes[3 * p + 1]?
          = some g ∧
        (convertYUYVImageToBGR24Image yuyvImage bgr24Image).2.destination.buffer.bytes[3 * p + 2]?
          = some r) ∧
    (∀ j : Nat, 6 * (yuyvImage.format.width / 2 * yuyvImage.format.height) ≤ j →
      (convertYUYVImageToRGB24Image yuyvImage rgb24Image).2.destination.buffer.bytes[j]?
        = rgb24Image.buffer.bytes[j]? ∧
      (convertYUYVImageToBGR24Image yuyvImage bgr24Image).2.destination.buffer.bytes[j]?
        = bgr24Image.buffer.bytes[j]?) ∧
    (∀ source rgb bgr : Image,
      rgb.format.encoding = Encoding.RGB24 → bgr.format.encoding = Encoding.BGR24 →
      rgb.format.width = bgr.format.width → rgb.format.height = bgr.format.height →
      (convertYUYVImageToRGB24Image source rgb).1
        = (convertYUYVImageToBGR24Image source bgr).1) := by
  obtain ⟨-, -, -, -, -, -, hrlen, hrpix, hrrest⟩ :=
    convertYUYVImageToRGB24Image_run yuyvImage rgb24Image hrgb hse hre hrw hrh
  obtain ⟨-, -, -, -, -, -, hblen, hbpix, hbrest⟩ :=
    convertYUYVImageToBGR24Image_run yuyvImage bgr24Image hbgr hse hbe hbw hbh
  simp only at hrlen hrpix hrrest hblen hbpix hbrest
  have hrl : rgb24Image.buffer.bytes.length
      = yuyvImage.format.width * 3 * yuyvImage.format.height := by
    have := hrgb
    simp only [Image.valid, MemoryBuffer.getSizeInBytes, ImageFormat.getDataSizeInBytes,
      ImageFormat.getNumBytesPerLine, hre, hrw, hrh, Encoding.getNumBytesPerPixel] at this
    exact this
  have hbl : bgr24Image.buffer.bytes.length
      = yuyvImage.format.width * 3 * yuyvImage.format.height := by
    have := hbgr
    simp only [Image.valid, MemoryBuffer.getSizeInBytes, ImageFormat.getDataSizeInBytes,
      ImageFormat.getNumBytesPerLine, hbe, hbw, hbh, Encoding.getNumBytesPerPixel] at this
    exact this
  have hp := pairs_fit yuyvImage.format.width yuyvImage.format.height
  refine ⟨?_, ?_, ?_⟩
  · intro p hlt
    obtain ⟨s0, s1, s2, s3, s4, s5⟩ := bgr24PairBytes_swap
      (readByte yuyvImage.buffer.bytes (4 * (p / 2)))
      (readByte yuyvImage.buffer.bytes (4 * (p / 2) + 1))
      (readByte yuyvImage.buffer.bytes (4 * (p / 2) + 2))
      (readByte yuyvImage.buffer.bytes (4 * (p / 2) + 3))
    have hm : p / 2 < yuyvImage.format.width / 2 * yuyvImage.format.height := by omega
    refine ⟨_, _, _, getElem?_eq_readByte _ _ (by omega), getElem?_eq_readByte _ _ (by omega),
      getElem?_eq_readByte _ _ (by omega), ?_, ?_, ?_⟩
    · rw [getElem?_eq_readByte _ _ (by omega)]
      congr 1
      rcases Nat.mod_two_eq_zero_or_one p with hq | hq
      · have e0 : 3 * p = 6 * (p / 2) + 0 := by omega
        have e2 : 3 * p + 2 = 6 * (p / 2) + 2 := by omega
        rw [e2, e0, hbpix _ 0 hm (by omega), hrpix _ 2 hm (by omega)]
        exact s0
      · have e0 : 3 * p = 6 * (p / 2) + 3 := by omega
        have e2 : 3 * p + 2 = 6 * (p / 2) + 5 := by omega
        rw [e2, e0, hbpix _ 3 hm (by omega), hrpix _ 5 hm (by omega)]
        exact s3
    · rw [getElem?_eq_readByte _ _ (by omega)]
      congr 1
      rcases Nat.mod_two_eq_zero_or_one p with hq | hq
      · have e1 : 3 * p + 1 = 6 * (p / 2) + 1 := by omega
        rw [e1, hbpix _ 1 hm (by omega), hrpix _ 1 hm (by omega)]
        exact s1
      · have e1 : 3 * p + 1 = 6 * (p / 2) + 4 := by omega
        rw [e1, hbpix _ 4 hm (by omega), hrpix _ 4 hm (by omega)]
        exact s4
    · rw [getElem?_eq_readByte _ _ (by omega)]
      congr 1
      rcases Nat.mod_two_eq_zero_or_one p with hq | hq
      · have e0 : 3 * p = 6 * (p / 2) + 0 := by omega
        have e2 : 3 * p + 2 = 6 * (p / 2) + 2 := by omega
        rw [e2, e0, hbpix _ 2 hm (by omega), hrpix _ 0 hm (by omega)]
        exact s2
      · have e0 : 3 * p = 6 * (p / 2) + 3 := by omega
        have e2 : 3 * p + 2 = 6 * (p / 2) + 5 := by omega
        rw [e2, e0, hbpix _ 5 hm (by omega), hrpix _ 3 hm (by omega)]
        exact s5
  · intro j hj
    exact ⟨getElem?_eq_of_readByte_eq _ _ hrlen j (hrrest j hj),
      getElem?_eq_of_readByte_eq _ _ hblen j (hbrest j hj)⟩
  · intro source rgb bgr hr hb hw hh
    obtain ⟨h1, -⟩ := convertYUYV_success_iff source rgb bgr hr hb
    obtain ⟨-, h2⟩ := convertYUYV_success_iff source rgb bgr hr hb
    rw [Bool.eq_iff_iff, h1, h2, hw, hh]

end ImageConverter

theorem convertYUYV_bgr24_is_rgb24_swapped_witness :
    (ImageConverter.convertYUYVImageToRGB24Image vividYUYV smallRGB24).2.destination.buffer.bytes[0]?
      = (ImageConverter.convertYUYVImageToBGR24Image vividYUYV smallBGR24).2.destination.buffer.bytes[2]? ∧
    (ImageConverter.convertYUYVImageToRGB24Image vividYUYV smallRGB24).2.destination.buffer.bytes[5]?
      = (ImageConverter.convertYUYVImageToBGR24Image vividYUYV smallBGR24).2.destination.buffer.bytes[3]? := by
  have h := ImageConverter.convertYUYV_bgr24_is_rgb24_swapped vividYUYV smallRGB24 smallBGR24
    (by decide) (by decide) (by decide) (by decide) (by decide) (by decide) (by decide)
    (by decide) (by decide)
  obtain ⟨r, g, b, h1, -, -, -, -, h6⟩ := h.1 0 (by decide)
  obtain ⟨r1, g1, b1, -, -, k3, k4, -, -⟩ := h.1 1 (by decide)
  exact ⟨by rw [h1, h6], by rw [k3, k4]⟩

/-! ## Rejections of `ImageConverter::update` -/

namespace ImageConverter

theorem forLoop_source (n : Nat) (body : PixelLoop → PixelLoop)
    (hbody : ∀ s, (body s).source = s.source) (s : PixelLoop) :
    (forLoop n body s).source = s.source := by
  induction n generalizing s with
  | zero => rfl
  | succ n ih =>
    show (forLoop n body (body s)).source = s.source
    rw [ih, hbody]

/-- The source of `convertYUYVImageToRGB24Image` is never modified, and a call that
returns false leaves the destination as it was. -/
theorem convertYUYVImageToRGB24Image_frame (yuyvImage rgb24Image : Image) :
    (convertYUYVImageToRGB24Image yuyvImage rgb24Image).2.source = yuyvImage ∧
    ((convertYUYVImageToRGB24Image yuyvImage rgb24Image).1 = false →
      (convertYUYVImageToRGB24Image yuyvImage rgb24Image).2.destination = rgb24Image) := by
  unfold convertYUYVImageToRGB24Image
  by_cases h1 : yuyvImage.format.encoding = Encoding.YUYV
  · by_cases h2 : rgb24Image.format.encoding = Encoding.RGB24
    · by_cases h3 : rgb24Image.format.width ≠ yuyvImage.format.width ∨
          rgb24Image.format.height ≠ yuyvImage.format.height
      · simp [h1, h2, h3]
      · simp only [h1, h2, h3, ne_eq, not_true_eq_false, if_false]
        refine ⟨?_, fun h => by simp at h⟩
        show Image.mk yuyvImage.format (MemoryBuffer.mk _) = yuyvImage
        rw [forLoop_source _ _ (fun s => forLoop_source _ _ (fun s => (yuyvToRGB24Body_step s).1) s)]
    · simp [h1, h2]
  · simp [h1]

/-- The source of `convertYUYVImageToBGR24Image` is never modified, and a call that
returns false leaves the destination as it was. -/
theorem convertYUYVImageToBGR24Image_frame (yuyvImage bgr24Image : Image) :
    (convertYUYVImageToBGR24Image yuyvImage bgr24Image).2.source = yuyvImage ∧
    ((convertYUYVImageToBGR24Image yuyvImage bgr24Image).1 = false →
      (convertYUYVImageToBGR24Image yuyvImage bgr24Image).2.destination = bgr24Image) := by
  unfold convertYUYVImageToBGR24Image
  by_cases h1 : yuyvImage.format.encoding = Encoding.YUYV
  · by_cases h2 : bgr24Image.format.encoding = Encoding.BGR24
    · by_cases h3 : bgr24Image.format.width ≠ yuyvImage.format.width ∨
          bgr24Image.format.height ≠ yuyvImage.format.height
      · simp [h1, h2, h3]
      · simp only [h1, h2, h3, ne_eq, not_true_eq_false, if_false]
        refine ⟨?_, fun h => by simp at h⟩
        show Image.mk yuyvImage.format (MemoryBuffer.mk _) = yuyvImage
        rw [forLoop_source _ _ (fun s => forLoop_source _ _ (fun s => (yuyvToBGR24Body_step s).1) s)]
    · simp [h1, h2]
  · simp [h1]

theorem convertBGR24ImageToRGB24Image_frame (bgr24Image rgb24Image : Image) :
    (convertBGR24ImageToRGB24Image bgr24Image rgb24Image).2.source = bgr24Image ∧
    ((convertBGR24ImageToRGB24Image bgr24Image rgb24Image).1 = false →
      (convertBGR24ImageToRGB24Image bgr24Image rgb24Image).2.destination = rgb24Image) := by
  unfold convertBGR24ImageToRGB24Image
  by_cases h1 : bgr24Image.format.encoding = Encoding.BGR24
  · by_cases h2 : rgb24Image.format.encoding = Encoding.RGB24
    · by_cases h3 : rgb24Image.format.width ≠ bgr24Image.format.width ∨
          rgb24Image.format.height ≠ bgr24Image.format.height
      · simp [h1, h2, h3]
      · simp [h1, h2, h3]
    · simp [h1, h2]
  · simp [h1]

theorem convertRGB24ImageToBGR24Image_frame (rgb24Image bgr24Image : Image) :
    (convertRGB24ImageToBGR24Image rgb24Image bgr24Image).2.source = rgb24Image ∧
    ((convertRGB24ImageToBGR24Image rgb24Image bgr24Image).1 = false →
      (convertRGB24ImageToBGR24Image rgb24Image bgr24Image).2.destination = bgr24Image) := by
  unfold convertRGB24ImageToBGR24Image
  by_cases h1 : rgb24Image.format.encoding = Encoding.RGB24
  · by_cases h2 : bgr24Image.format.encoding = Encoding.BGR24
    · by_cases h3 : bgr24Image.format.width ≠ rgb24Image.format.width ∨
          bgr24Image.format.height ≠ rgb24Image.format.height
      · simp [h1, h2, h3]
      · simp [h1, h2, h3]
    · simp [h1, h2]
  · simp [h1]

theorem convertImage_frame (sourceImage destinationImage : Image) :
    (convertImage sourceImage destinationImage).2.source = sourceImage ∧
    ((convertImage sourceImage destinationImage).1 = false →
      (convertImage sourceImage destinationImage).2.destination = destinationImage) := by
  unfold convertImage
  split
  · exact ⟨rfl, fun _ => rfl⟩
  · simp only
    split
    · exact convertBGR24ImageToRGB24Image_frame _ _
    · split
      · exact convertRGB24ImageToBGR24Image_frame _ _
      · split
        · exact convertYUYVImageToRGB24Image_frame _ _
        · split
          · exact convertYUYVImageToBGR24Image_frame _ _
          · exact ⟨rfl, fun _ => rfl⟩

/-- C29: `ImageConverter::update` never modifies the source image, and when it returns
false the converter (format and buffer of its destination image) is exactly as it was
before the call. -/
theorem update_rejection_writes_nothing (self : ImageConverter) (sourceImage : Image) :
    (self.update sourceImage).2.1 = sourceImage ∧
    ((self.update sourceImage).1 = false → (self.update sourceImage).2.2 = self) := by
  unfold update
  split
  · refine ⟨rfl, ?_⟩
    simp only
    unfold MemoryBuffer.copyFrom
    split
    · intro _
      rfl
    · intro h
      simp at h
  · refine ⟨(convertImage_frame _ _).1, ?_⟩
    intro h
    simp only at h ⊢
    rw [(convertImage_frame _ _).2 h]

end ImageConverter

theorem update_rejection_writes_nothing_witness :
    (ImageConverter.update ⟨smallRGB24⟩ oddYUYV).1 = false ∧
    (ImageConverter.update ⟨smallRGB24⟩ oddYUYV).2.2 = ⟨smallRGB24⟩ ∧
    (ImageConverter.update ⟨smallRGB24⟩ vividYUYV).2.1 = vividYUYV :=
  ⟨by decide,
   (ImageConverter.update_rejection_writes_nothing ⟨smallRGB24⟩ oddYUYV).2 (by decide),
   (ImageConverter.update_rejection_writes_nothing ⟨smallRGB24⟩ vividYUYV).1⟩

/-! ## Buffer accesses of the packed-4:2:2 loops -/

namespace ImageConverter

theorem yuyvToRGB24BodyLogged_step : LogStep yuyvToRGB24Body yuyvToRGB24BodyLogged := by
  intro t
  simp [yuyvToRGB24BodyLogged, yuyvToRGB24Body, readByteLogged, writeByteLogged]

theorem yuyvToBGR24BodyLogged_step : LogStep yuyvToBGR24Body yuyvToBGR24BodyLogged := by
  intro t
  simp [yuyvToBGR24BodyLogged, yuyvToBGR24Body, readByteLogged, writeByteLogged]

theorem range_four (k : Nat) :
    List.range (4 * (k + 1)) = List.range (4 * k) ++ [4 * k, 4 * k + 1, 4 * k + 2, 4 * k + 3] := by
  have e : 4 * (k + 1) = 4 * k + 1 + 1 + 1 + 1 := by ring
  rw [e]
  simp [List.range_succ]

theorem range_six (k : Nat) :
    List.range (6 * (k + 1)) = List.range (6 * k)
      ++ [6 * k, 6 * k + 1, 6 * k + 2, 6 * k + 3, 6 * k + 4, 6 * k + 5] := by
  have e : 6 * (k + 1) = 6 * k + 1 + 1 + 1 + 1 + 1 + 1 := by ring
  rw [e]
  simp [List.range_succ]

/-- A recording loop started with both pointers at `4j` and `6j` and the offsets below
them recorded: after `k` iterations the state is that of the plain loop and the offsets
below `4(j+k)` and `6(j+k)` are recorded, each once, in increasing order. -/
theorem logged_forLoop (out : Byte → Byte → Byte → Byte → Nat → Byte)
    (body : PixelLoop → PixelLoop)
    (bodyLogged : PixelLoop × AccessLog → PixelLoop × AccessLog)
    (hbody : PairStep out body) (hlog : LogStep body bodyLogged) (k : Nat) :
    ∀ (j : Nat) (s : PixelLoop), s.sourceBytes = 4 * j → s.destBytes = 6 * j →
      forLoop k bodyLogged (s, { reads := List.range (4 * j), writes := List.range (6 * j) })
        = (forLoop k body s,
           { reads := List.range (4 * (j + k)), writes := List.range (6 * (j + k)) }) := by
  induction k with
  | zero =>
    intro j s _ _
    rfl
  | succ k ih =>
    intro j s hs hd
    show forLoop k bodyLogged (bodyLogged _) = (forLoop k body (body s), _)
    rw [hlog]
    simp only [hs, hd]
    rw [← range_four, ← range_six]
    obtain ⟨-, h2, h3, -⟩ := hbody s
    rw [ih (j + 1) (body s) (by rw [h2, hs]; ring) (by rw [h3, hd]; ring)]
    have e : j + 1 + k = j + (k + 1) := by ring
    rw [e]

theorem count_range (n j : Nat) (hj : j < n) : (List.range n).count j = 1 :=
  List.count_eq_one_of_mem (List.nodup_range n) (List.mem_range.mpr hj)

/-- What the recording form of `convertYUYVImageToRGB24Image` returns on images of
matching size: the result of the plain routine and the offsets below `4k` and `6k`,
`k = (width/2)*height`. -/
theorem convertYUYVImageToRGB24ImageLogged_run (yuyvImage rgb24Image : Image)
    (hse : yuyvImage.format.encoding = Encoding.YUYV)
    (hde : rgb24Image.format.encoding = Encoding.RGB24)
    (hw : rgb24Image.format.width = yuyvImage.format.width)
    (hh : rgb24Image.format.height = yuyvImage.format.height) :
    convertYUYVImageToRGB24ImageLogged yuyvImage rgb24Image =
      ((convertYUYVImageToRGB24Image yuyvImage rgb24Image).1,
       (convertYUYVImageToRGB24Image yuyvImage rgb24Image).2,
       { reads := List.range (4 * (yuyvImage.format.width / 2 * yuyvImage.format.height))
         writes := List.range (6 * (yuyvImage.format.width / 2 * yuyvImage.format.height)) }) := by
  have h := logged_forLoop rgb24PairBytes yuyvToRGB24Body yuyvToRGB24BodyLogged
    yuyvToRGB24Body_step yuyvToRGB24BodyLogged_step
    (yuyvImage.format.width / 2 * yuyvImage.format.height) 0
    (PixelLoop.mk yuyvImage.buffer.bytes rgb24Image.buffer.bytes 0 0) rfl rfl
  simp only [Nat.mul_zero, List.range_zero, Nat.zero_add] at h
  simp [convertYUYVImageToRGB24ImageLogged, convertYUYVImageToRGB24Image, hse, hde, hw, hh,
    forLoop_nested, h]

/-- What the recording form of `convertYUYVImageToBGR24Image` returns on images of
matching size. -/
theorem convertYUYVImageToBGR24ImageLogged_run (yuyvImage bgr24Image : Image)
    (hse : yuyvImage.format.encoding = Encoding.YUYV)
    (hde : bgr24Image.format.encoding = Encoding.BGR24)
    (hw : bgr24Image.format.width = yuyvImage.format.width)
    (hh : bgr24Image.format.height = yuyvImage.format.height) :
    convertYUYVImageToBGR24ImageLogged yuyvImage bgr24Image =
      ((convertYUYVImageToBGR24Image yuyvImage bgr24Image).1,
       (convertYUYVImageToBGR24Image yuyvImage bgr24Image).2,
       { reads := List.range (4 * (yuyvImage.format.width / 2 * yuyvImage.format.height))
         writes := List.range (6 * (yuyvImage.format.width / 2 * yuyvImage.format.height)) }) := by
  have h := logged_forLoop bgr24PairBytes yuyvToBGR24Body yuyvToBGR24BodyLogged
    yuyvToBGR24Body_step yuyvToBGR24BodyLogged_step
    (yuyvImage.format.width / 2 * yuyvImage.format.height) 0
    (PixelLoop.mk yuyvImage.buffer.bytes bgr24Image.buffer.bytes 0 0) rfl rfl
  simp only [Nat.mul_zero, List.range_zero, Nat.zero_add] at h
  simp [convertYUYVImageToBGR24ImageLogged, convertYUYVImageToBGR24Image, hse, hde, hw, hh,
    forLoop_nested, h]

/-- C30: for a well-formed YUYV source of any width and height and well-formed RGB24 and
BGR24 destinations of the same dimensions, the loops of both packed-4:2:2 routines read
exactly the source offsets below `4*(width/2)*height` and write exactly the destination
offsets below `6*(width/2)*height`, each once and in increasing order; these bounds are
at most the buffer sizes `2*width*height` and `3*width*height`, so every access is inside
its buffer, and for an even width every destination offset is written exactly once. The
recording routines return what the plain routines return. -/
theorem convertYUYV_accesses_in_bounds (yuyvImage rgb24Image bgr24Image : Image)
    (hsrc : yuyvImage.valid) (hrgb : rgb24Image.valid) (hbgr : bgr24Image.valid)
    (hse : yuyvImage.format.encoding = Encoding.YUYV)
    (hre : rgb24Image.format.encoding = Encoding.RGB24)
    (hbe : bgr24Image.format.encoding = Encoding.BGR24)
    (hrw : rgb24Image.format.width = yuyvImage.format.width)
    (hrh : rgb24Image.format.height = yuyvImage.format.height)
    (hbw : bgr24Image.format.width = yuyvImage.format.width)
    (hbh : bgr24Image.format.height = yuyvImage.format.height) :
    ((convertYUYVImageToRGB24ImageLogged yuyvImage rgb24Image).1,
      (convertYUYVImageToRGB24ImageLogged yuyvImage rgb24Image).2.1)
      = convertYUYVImageToRGB24Image yuyvImage rgb24Image ∧
    ((convertYUYVImageToBGR24ImageLogged yuyvImage bgr24Image).1,
      (convertYUYVImageToBGR24ImageLogged yuyvImage bgr24Image).2.1)
      = convertYUYVImageToBGR24Image yuyvImage bgr24Image ∧
    (convertYUYVImageToRGB24ImageLogged yuyvImage rgb24Image).2.2.reads
      = List.range (4 * (yuyvImage.format.width / 2 * yuyvImage.format.height)) ∧
    (convertYUYVImageToRGB24ImageLogged yuyvImage rgb24Image).2.2.writes
      = List.range (6 * (yuyvImage.format.width / 2 * yuyvImage.format.height)) ∧
    (convertYUYVImageToBGR24ImageLogged yuyvImage bgr24Image).2.2.reads
      = List.range (4 * (yuyvImage.format.width / 2 * yuyvImage.format.height)) ∧
    (convertYUYVImageToBGR24ImageLogged yuyvImage bgr24Image).2.2.writes
      = List.range (6 * (yuyvImage.format.width / 2 * yuyvImage.format.height)) ∧
    4 * (yuyvImage.format.width / 2 * yuyvImage.format.height)
      ≤ 2 * yuyvImage.format.width * yuyvImage.format.height ∧
    6 * (yuyvImage.format.width / 2 * yuyvImage.format.height)
      ≤ 3 * yuyvImage.format.width * yuyvImage.format.height ∧
    yuyvImage.buffer.bytes.length = 2 * yuyvImage.format.width * yuyvImage.format.height ∧
    rgb24Image.buffer.bytes.length = 3 * yuyvImage.format.width * yuyvImage.format.height ∧
    bgr24Image.buffer.bytes.length = 3 * yuyvImage.format.width * yuyvImage.format.height ∧
    (∀ i ∈ (convertYUYVImageToRGB24ImageLogged yuyvImage rgb24Image).2.2.reads,
      i < yuyvImage.buffer.bytes.length) ∧
    (∀ i ∈ (convertYUYVImageToRGB24ImageLogged yuyvImage rgb24Image).2.2.writes,
      i < rgb24Image.buffer.bytes.length) ∧
    (∀ i ∈ (convertYUYVImageToBGR24ImageLogged yuyvImage bgr24Image).2.2.reads,
      i < yuyvImage.buffer.bytes.length) ∧
    (∀ i ∈ (convertYUYVImageToBGR24ImageLogged yuyvImage bgr24Image).2.2.writes,
      i < bgr24Image.buffer.bytes.length) ∧
    (yuyvImage.format.width % 2 = 0 →
      ∀ j, j < 3 * yuyvImage.format.width * yuyvImage.format.height →
        (convertYUYVImageToRGB24ImageLogged yuyvImage rgb24Image).2.2.writes.count j = 1 ∧
        (convertYUYVImageToBGR24ImageLogged yuyvImage bgr24Image).2.2.writes.count j = 1) := by
  have hsl : yuyvImage.buffer.bytes.length
      = 2 * yuyvImage.format.width * yuyvImage.format.height := by
    have := hsrc
    simp only [Image.valid, MemoryBuffer.getSizeInBytes, ImageFormat.getDataSizeInBytes,
      ImageFormat.getNumBytesPerLine, hse, Encoding.getNumBytesPerPixel] at this
    rw [this]
    ring
  have hrl : rgb24Image.buffer.bytes.length
      = 3 * yuyvImage.format.width * yuyvImage.format.height := by
    have := hrgb
    simp only [Image.valid, MemoryBuffer.getSizeInBytes, ImageFormat.getDataSizeInBytes,
      ImageFormat.getNumBytesPerLine, hre, hrw, hrh, Encoding.getNumBytesPerPixel] at this
    rw [this]
    ring
  have hbl : bgr24Image.buffer.bytes.length
      = 3 * yuyvImage.format.width * yuyvImage.format.height := by
    have := hbgr
    simp only [Image.valid, MemoryBuffer.getSizeInBytes, ImageFormat.getDataSizeInBytes,
      ImageFormat.getNumBytesPerLine, hbe, hbw, hbh, Encoding.getNumBytesPerPixel] at this
    rw [this]
    ring
  have hq : 4 * (yuyvImage.format.width / 2 * yuyvImage.format.height)
      ≤ 2 * yuyvImage.format.width * yuyvImage.format.height := by
    have := quads_fit yuyvImage.format.width yuyvImage.format.height
    calc _ ≤ yuyvImage.format.width * 2 * yuyvImage.format.height := this
      _ = _ := by ring
  have hp : 6 * (yuyvImage.format.width / 2 * yuyvImage.format.height)
      ≤ 3 * yuyvImage.format.width * yuyvImage.format.height := by
    have := pairs_fit yuyvImage.format.width yuyvImage.format.height
    calc _ ≤ yuyvImage.format.width * 3 * yuyvImage.format.height := this
      _ = _ := by ring
  rw [convertYUYVImageToRGB24ImageLogged_run yuyvImage rgb24Image hse hre hrw hrh,
    convertYUYVImageToBGR24ImageLogged_run yuyvImage bgr24Image hse hbe hbw hbh]
  refine ⟨rfl, rfl, rfl, rfl, rfl, rfl, hq, hp, hsl, hrl, hbl, ?_, ?_, ?_, ?_, ?_⟩
  · intro i hi
    have := List.mem_range.mp hi
    omega
  · intro i hi
    have := List.mem_range.mp hi
    omega
  · intro i hi
    have := List.mem_range.mp hi
    omega
  · intro i hi
    have := List.mem_range.mp hi
    omega
  · intro heven j hj
    have hfill : 6 * (yuyvImage.format.width / 2 * yuyvImage.format.height)
        = 3 * yuyvImage.format.width * yuyvImage.format.height := by
      rw [pairs_fill _ _ heven]
      ring
    simp only [hfill]
    exact ⟨count_range _ _ hj, count_range _ _ hj⟩

end ImageConverter

theorem convertYUYV_accesses_in_bounds_witness :
    (ImageConverter.convertYUYVImageToRGB24ImageLogged oddYUYV oddRGB24).2.2.reads = [0, 1, 2, 3] ∧
    (ImageConverter.convertYUYVImageToBGR24ImageLogged oddYUYV oddBGR24).2.2.writes
      = [0, 1, 2, 3, 4, 5] ∧
    oddRGB24.buffer.bytes.length = 9 :=
  ⟨(ImageConverter.convertYUYV_accesses_in_bounds oddYUYV oddRGB24 oddBGR24
      (by decide) (by decide) (by decide) (by decide) (by decide) (by decide) (by decide)
      (by decide) (by decide) (by decide)).2.2.1,
   (ImageConverter.convertYUYV_accesses_in_bounds oddYUYV oddRGB24 oddBGR24
      (by decide) (by decide) (by decide) (by decide) (by decide) (by decide) (by decide)
      (by decide) (by decide) (by decide)).2.2.2.2.2.1,
   rfl⟩

/-! ## The device: listeners -/

namespace Device

/-- Removing the entry at the position `std::find` returns: the list splits around the
first occurrence. -/
theorem eraseIdx_indexOf_split (xs : List Nat) (x : Nat) (hx : x ∈ xs) :
    ∃ before after, xs = before ++ x :: after ∧ x ∉ before ∧
      xs.eraseIdx (xs.indexOf x) = before ++ after := by
  induction xs with
  | nil => simp at hx
  | cons y ys ih =>
    by_cases hy : y = x
    · subst hy
      exact ⟨[], ys, rfl, by simp, by simp⟩
    · have hx' : x ∈ ys := by
        rcases List.mem_cons.mp hx with h | h
        · exact absurd h.symm hy
        · exact h
      obtain ⟨before, after, h1, h2, h3⟩ := ih hx'
      refine ⟨y :: before, after, by rw [h1]; rfl, ?_, ?_⟩
      · intro hmem
        rcases List.mem_cons.mp hmem with h | h
        · exact hy h.symm
        · exact h2 h
      · rw [List.indexOf_cons_ne _ hy]
        show y :: ys.eraseIdx (ys.indexOf x) = y :: before ++ after
        rw [h3]
        rfl

theorem removeListener_absent (self : Device) (listener : Nat)
    (habsent : listener ∉ self.mListeners) : self.removeListener listener = (false, self) := by
  unfold removeListener
  simp only
  rw [if_pos (List.indexOf_eq_length.mpr habsent)]

theorem removeListener_present (self : Device) (listener : Nat)
    (hpresent : listener ∈ self.mListeners) :
    self.removeListener listener
      = (true, { self with mListeners := self.mListeners.erase listener }) := by
  unfold removeListener
  simp only
  have hne : ¬ List.indexOf listener self.mListeners = self.mListeners.length := by
    intro h
    exact List.indexOf_eq_length.mp h hpresent
  rw [if_neg hne, List.eraseIdx_indexOf_eq_erase]

/-- One round of notification calls every entry of `mListeners` once. -/
theorem received_notify (self : Device) (event : DeviceEvent) (listener : Nat) :
    (self.notify event).received listener
      = self.received listener + self.mListeners.count listener := by
  unfold received notify
  simp only [List.filter_append, List.length_append]
  congr 1
  induction self.mListeners with
  | nil => rfl
  | cons l ls ih =>
    by_cases h : l = listener
    · simp [List.filter_cons, h, ih]
    · simp [List.filter_cons, h, ih, List.count_cons_of_ne (Ne.symm h)]

theorem count_addListener_loop (k : Nat) (self : Device) (listener : Nat) :
    (forLoop k (fun d => d.addListener listener) self).mListeners.count listener
      = self.mListeners.count listener + k := by
  induction k generalizing self with
  | zero => rfl
  | succ k ih =>
    show (forLoop k _ (self.addListener listener)).mListeners.count listener = _
    rw [ih]
    simp [addListener]
    ring

/-- C21: `addListener` appends to the listener list whatever it holds; `removeListener`
of a listener that is not in the list returns false and changes nothing; `removeListener`
of a listener in the list returns true and removes its first occurrence only, the entries
before and after it keeping their order; a listener registered `k` more times holds `k`
more entries, and after one removal a round of notification calls it once less than the
number of entries it had. -/
theorem listeners_ordered_with_duplicates (self : Device) (listener : Nat) :
    (self.addListener listener = { self with mListeners := self.mListeners ++ [listener] }) ∧
    (listener ∉ self.mListeners → self.removeListener listener = (false, self)) ∧
    (listener ∈ self.mListeners →
      (self.removeListener listener).1 = true ∧
      ∃ before after, self.mListeners = before ++ listener :: after ∧ listener ∉ before ∧
        (self.removeListener listener).2 = { self with mListeners := before ++ after }) ∧
    (∀ k, (forLoop k (fun d => d.addListener listener) self).mListeners.count listener
      = self.mListeners.count listener + k) ∧
    (∀ event, listener ∈ self.mListeners →
      ((self.removeListener listener).2.notify event).received listener
        = self.received listener + (self.mListeners.count listener - 1)) ∧
    (∀ event other, other ≠ listener →
      ((self.removeListener listener).2.notify event).received other
        = self.received other + self.mListeners.count other) := by
  refine ⟨rfl, removeListener_absent self listener, ?_, ?_, ?_, ?_⟩
  · intro hmem
    obtain ⟨before, after, h1, h2, h3⟩ := eraseIdx_indexOf_split self.mListeners listener hmem
    rw [removeListener_present self listener hmem]
    refine ⟨rfl, before, after, h1, h2, ?_⟩
    simp only
    rw [← List.eraseIdx_indexOf_eq_erase, h3]
  · intro k
    exact count_addListener_loop k self listener
  · intro event hmem
    rw [received_notify, removeListener_present self listener hmem]
    simp only [List.count_erase_self]
    rfl
  · intro event other hne
    rw [received_notify]
    by_cases hmem : listener ∈ self.mListeners
    · rw [removeListener_present self listener hmem]
      simp only [List.count_erase_of_ne hne]
      rfl
    · rw [removeListener_absent self listener hmem]

end Device

theorem listeners_ordered_with_duplicates_witness :
    (((sampleDevice.addListener 1).addListener 1).removeListener 1).1 = true ∧
    (((sampleDevice.addListener 1).addListener 1).removeListener 1).2.mListeners = [2, 1, 1] ∧
    (sampleDevice.removeListener 7) = (false, sampleDevice) :=
  ⟨((Device.listeners_ordered_with_duplicates ((sampleDevice.addListener 1).addListener 1)
      1).2.2.1 (by decide)).1,
   by decide,
   (Device.listeners_ordered_with_duplicates sampleDevice 7).2.1 (by decide)⟩

/-! ## The device: the started settings -/

namespace Device

/-- The members the two getters read. -/
theorem getters_congr (a b : Device) (hcap : a.isCapturing = b.isCapturing)
    (hidx : a.mStartedCaptureSettingsIndex = b.mStartedCaptureSettingsIndex)
    (hlist : a.mSupportedCaptureSettingsList = b.mSupportedCaptureSettingsList) :
    a.getStartedCaptureSettingsIndex = b.getStartedCaptureSettingsIndex ∧
    a.getStartedCaptureSettings = b.getStartedCaptureSettings := by
  unfold getStartedCaptureSettingsIndex getStartedCaptureSettings
  rw [hcap, hidx, hlist]
  exact ⟨rfl, rfl⟩

/-- A successful `startCapture( i )` had `i` inside the settings list and stores it. -/
theorem startCapture_startedIndex (self : Device) (captureSettingsIndex : Nat)
    (calls : StartCalls) (hok : (self.startCapture captureSettingsIndex calls).1 = true) :
    captureSettingsIndex < self.mSupportedCaptureSettingsList.length ∧
    (self.startCapture captureSettingsIndex calls).2.mStartedCaptureSettingsIndex
      = captureSettingsIndex := by
  by_cases h1 : self.isCapturing = true
  · simp [startCapture, h1] at hok
  · by_cases h2 : captureSettingsIndex ≥ self.mSupportedCaptureSettingsList.length
    · simp [startCapture, h1, h2] at hok
    · have h1' : self.isCapturing = false := by simpa using h1
      refine ⟨by omega, ?_⟩
      unfold startCapture
      simp only [h1', h2, Bool.false_eq_true, if_false]
      generalize self.mInternals.mSupportedVideoMediaTypes.getD _ _ = mediaType
      cases hr : (self.mInternals.startCapture
          (self.mMediaTypeIndices[captureSettingsIndex]?.getD 0) calls).1 <;>
        by_cases hstride : mediaType.stride < 0 <;>
        simp [hstride, hr, notify]

/-- `Device::update` changes neither the session, nor the started index, nor the
settings list. -/
theorem update_frame (self : Device) :
    self.update.mInternals = self.mInternals ∧
    self.update.mStartedCaptureSettingsIndex = self.mStartedCaptureSettingsIndex ∧
    self.update.mSupportedCaptureSettingsList = self.mSupportedCaptureSettingsList := by
  unfold update
  split
  · exact ⟨rfl, rfl, rfl⟩
  · split
    · exact ⟨rfl, rfl, rfl⟩
    · split
      · simp only
        split
        · exact ⟨rfl, rfl, rfl⟩
        · exact ⟨rfl, rfl, rfl⟩
      · simp only
        split
        · exact ⟨rfl, rfl, rfl⟩
        · exact ⟨rfl, rfl, rfl⟩

/-- A call other than `stopCapture` on a capturing device leaves it capturing, with the
same started index and the same settings list. -/
theorem perform_started (self : Device) (call : DeviceCall)
    (hcall : call ≠ DeviceCall.stopCapture) (hcap : self.isCapturing = true) :
    (self.perform call).isCapturing = true ∧
    (self.perform call).mStartedCaptureSettingsIndex = self.mStartedCaptureSettingsIndex ∧
    (self.perform call).mSupportedCaptureSettingsList = self.mSupportedCaptureSettingsList := by
  cases call with
  | startCapture captureSettingsIndex calls =>
    have h : self.startCapture captureSettingsIndex calls = (false, self) := by
      unfold startCapture
      rw [if_pos hcap]
    simp only [perform, h, and_self, and_true]
    exact hcap
  | startCaptureBySettings captureSettings calls =>
    have h : self.startCaptureBySettings captureSettings calls = (false, self) := by
      unfold startCaptureBySettings
      rw [if_pos hcap]
    simp only [perform, h, and_self, and_true]
    exact hcap
  | stopCapture => exact absurd rfl hcall
  | update =>
    obtain ⟨h1, h2, h3⟩ := update_frame self
    refine ⟨?_, h2, h3⟩
    show self.update.mInternals.isCapturing = true
    rw [h1]
    exact hcap
  | onReadSample call =>
    refine ⟨?_, rfl, rfl⟩
    show (self.mInternals.OnReadSample call).2.mIsCapturing = true
    rw [DeviceInternals.OnReadSample_isCapturing]
    exact hcap
  | addListener listener => exact ⟨hcap, rfl, rfl⟩
  | removeListener listener =>
    simp only [perform, removeListener]
    split
    · exact ⟨hcap, rfl, rfl⟩
    · exact ⟨hcap, rfl, rfl⟩

theorem performAll_started (calls : List DeviceCall) (self : Device)
    (hcalls : ∀ c ∈ calls, c ≠ DeviceCall.stopCapture) (hcap : self.isCapturing = true) :
    (self.performAll calls).isCapturing = true ∧
    (self.performAll calls).mStartedCaptureSettingsIndex = self.mStartedCaptureSettingsIndex ∧
    (self.performAll calls).mSupportedCaptureSettingsList
      = self.mSupportedCaptureSettingsList := by
  induction calls generalizing self with
  | nil => exact ⟨hcap, rfl, rfl⟩
  | cons c rest ih =>
    obtain ⟨h1, h2, h3⟩ := perform_started self c (hcalls c (List.mem_cons_self _ _)) hcap
    obtain ⟨k1, k2, k3⟩ := ih (self.perform c)
      (fun x hx => hcalls x (List.mem_cons_of_mem _ hx)) h1
    show (performAll (self.perform c) rest).isCapturing = true ∧ _
    exact ⟨k1, k2.trans h2, k3.trans h3⟩

theorem getters_idle (self : Device) (hidle : self.isCapturing = false) :
    self.getStartedCaptureSettingsIndex = (false, 0) ∧
    self.getStartedCaptureSettings = (false, CaptureSettings.defaultConstructed) := by
  unfold getStartedCaptureSettingsIndex getStartedCaptureSettings
  simp [hidle]

/-- C26: after a successful `startCapture( i )` the index `i` is inside the settings list
and, until `stopCapture` is called (whatever other calls are made on the device in
between: polls, sample callbacks, further start attempts, listener registration),
`getStartedCaptureSettingsIndex` returns true with `i` and `getStartedCaptureSettings`
returns true with entry `i` of the supported settings; on a device that is not capturing,
in particular after `stopCapture`, both return false with 0 and with the
default-constructed settings. -/
theorem started_settings_reported (self : Device) (captureSettingsIndex : Nat)
    (calls : StartCalls) :
    ((self.startCapture captureSettingsIndex calls).1 = true →
      ∃ settings, self.mSupportedCaptureSettingsList[captureSettingsIndex]? = some settings ∧
        ∀ later : List DeviceCall, (∀ c ∈ later, c ≠ DeviceCall.stopCapture) →
          ((self.startCapture captureSettingsIndex calls).2.performAll
              later).getStartedCaptureSettingsIndex = (true, captureSettingsIndex) ∧
          ((self.startCapture captureSettingsIndex calls).2.performAll
              later).getStartedCaptureSettings = (true, settings)) ∧
    (self.isCapturing = false →
      self.getStartedCaptureSettingsIndex = (false, 0) ∧
      self.getStartedCaptureSettings = (false, CaptureSettings.defaultConstructed)) ∧
    (self.stopCapture.getStartedCaptureSettingsIndex = (false, 0) ∧
      self.stopCapture.getStartedCaptureSettings
        = (false, CaptureSettings.defaultConstructed)) := by
  refine ⟨?_, getters_idle self, getters_idle _ (isCapturing_stopCapture self)⟩
  intro hok
  obtain ⟨hlt, hidx⟩ := startCapture_startedIndex self captureSettingsIndex calls hok
  refine ⟨self.mSupportedCaptureSettingsList[captureSettingsIndex],
    List.getElem?_eq_getElem hlt, ?_⟩
  intro later hlater
  obtain ⟨k1, k2, k3⟩ := performAll_started later _ hlater
    (startCapture_isCapturing self captureSettingsIndex calls hok)
  rw [hidx] at k2
  rw [startCapture_settingsList] at k3
  unfold getStartedCaptureSettingsIndex getStartedCaptureSettings
  rw [k1, k2, k3]
  simp [List.getD_eq_getElem?_getD, List.getElem?_eq_getElem hlt]

end Device

theorem started_settings_reported_witness :
    (((sampleDevice.startCapture 1 DeviceInternals.startOk).2.performAll
        [DeviceCall.onReadSample sixByteCall, DeviceCall.update,
         DeviceCall.startCapture 0 DeviceInternals.startOk]).getStartedCaptureSettingsIndex
      = (true, 1)) ∧
    sampleDevice.getStartedCaptureSettings = (false, CaptureSettings.defaultConstructed) := by
  obtain ⟨settings, -, h⟩ :=
    (Device.started_settings_reported sampleDevice 1 DeviceInternals.startOk).1 (by decide)
  exact ⟨(h _ (by decide)).1,
    ((Device.started_settings_reported sampleDevice 1 DeviceInternals.startOk).2.1
      (by decide)).2⟩

/-! ## The device: polling twice -/

namespace Device

/-- The destination `flipImageVertically` leaves depends on the source only: every byte
of a well-formed destination is overwritten. -/
theorem flip_destination_determined (s d d' : Image) (hdv : d.valid) (hdv' : d'.valid)
    (hfmt : s.format = d.format) (hfmt' : s.format = d'.format) :
    (flipImageVertically s d).2.destination = (flipImageVertically s d').2.destination := by
  obtain ⟨-, -, a3, a4, a5⟩ := flipImageVertically_run s d hdv hfmt
  obtain ⟨-, -, b3, b4, b5⟩ := flipImageVertically_run s d' hdv' hfmt'
  have hdl : d.buffer.bytes.length = s.format.getNumBytesPerLine * s.format.height := by
    rw [hfmt]
    exact hdv
  have hdl' : d'.buffer.bytes.length = s.format.getNumBytesPerLine * s.format.height := by
    rw [hfmt']
    exact hdv'
  have hbytes : (flipImageVertically s d).2.destination.buffer.bytes
      = (flipImageVertically s d').2.destination.buffer.bytes := by
    apply eq_of_readByte_eq _ _ (by rw [a4, b4, hdl, hdl'])
    intro i hi
    rw [a4, hdl] at hi
    have hnpos : 0 < s.format.getNumBytesPerLine := by
      rcases Nat.eq_zero_or_pos s.format.getNumBytesPerLine with h0 | h0
      · rw [h0, Nat.zero_mul] at hi
        omega
      · exact h0
    have hy : i / s.format.getNumBytesPerLine < s.format.height :=
      Nat.div_lt_of_lt_mul hi
    have hc : i % s.format.getNumBytesPerLine < s.format.getNumBytesPerLine :=
      Nat.mod_lt _ hnpos
    have hi_eq : i / s.format.getNumBytesPerLine * s.format.getNumBytesPerLine
        + i % s.format.getNumBytesPerLine = i := Nat.div_add_mod' i _
    generalize i / s.format.getNumBytesPerLine = q at hy hi_eq
    generalize i % s.format.getNumBytesPerLine = c at hc hi_eq
    have hflip : s.format.height - 1 - (s.format.height - 1 - q) = q := by omega
    have step1 := a5 (s.format.height - 1 - q) c (by omega) hc
    have step2 := b5 (s.format.height - 1 - q) c (by omega) hc
    rw [hflip, hi_eq] at step1 step2
    rw [step1, step2]
  cases h1 : (flipImageVertically s d).2.destination with
  | mk f1 buf1 =>
    cases h2 : (flipImageVertically s d').2.destination with
    | mk f2 buf2 =>
      rw [h1] at a3 hbytes
      rw [h2] at b3 hbytes
      simp only at a3 b3 hbytes
      cases buf1
      cases buf2
      simp only at hbytes
      rw [a3, b3, ← hfmt, ← hfmt', hbytes]

/-- C27: on a capturing device whose session holds a pending frame of the size of the
image buffers, a second `update` directly after the first (no sample callback in between)
publishes the captured image the first one published, with the session's sequence number
and the same bytes, and each of the two polls calls `onDeviceCapturedImage` on every
registered listener, in registration order: the listeners are called twice for the one
frame. -/
theorem update_twice_notifies_twice (self : Device) (capturedImage : CapturedImage)
    (pending : MemoryBuffer)
    (hcap : self.isCapturing = true)
    (hci : self.mCapturedImage = some capturedImage)
    (hvalid : capturedImage.mImage.valid)
    (htemp : ∀ tempImage, self.mTempImage = some tempImage →
      tempImage.format = capturedImage.mImage.format ∧ tempImage.valid)
    (hpending : self.mInternals.mCapturedImageBuffer = some pending)
    (hsize : pending.getSizeInBytes = capturedImage.mImage.buffer.getSizeInBytes) :
    (∃ published : CapturedImage,
      self.update.getCapturedImage = some published ∧
      self.update.update.getCapturedImage = some published ∧
      published.mSequenceNumber = self.mInternals.mCapturedImageNumber) ∧
    self.update.notifications = self.notifications ++
      self.mListeners.map (fun l => Notification.mk l DeviceEvent.onDeviceCapturedImage true) ∧
    self.update.update.notifications = self.notifications ++
      self.mListeners.map (fun l => Notification.mk l DeviceEvent.onDeviceCapturedImage true) ++
      self.mListeners.map (fun l => Notification.mk l DeviceEvent.onDeviceCapturedImage true) ∧
    self.update.update.mInternals = self.mInternals := by
  cases ht : self.mTempImage with
  | none =>
    have h1 := update_direct self capturedImage pending hcap hci ht hpending hsize
    have h2 := update_direct self.update
      { mImage := { format := capturedImage.mImage.format, buffer := pending }
        mSequenceNumber := self.mInternals.mCapturedImageNumber
        mTimestampInSec := (self.mInternals.mCapturedImageTimestamp : ℚ) / 10000000 }
      pending (by rw [h1]; exact hcap) (by rw [h1]) (by rw [h1]; exact ht)
      (by rw [h1]; exact hpending) rfl
    rw [h2, h1]
    exact ⟨⟨_, rfl, rfl, rfl⟩, rfl, rfl, rfl⟩
  | some tempImage =>
    obtain ⟨hfmt, htv⟩ := htemp tempImage ht
    have hsz : pending.getSizeInBytes = tempImage.buffer.getSizeInBytes := by
      have k1 : tempImage.buffer.getSizeInBytes = tempImage.format.getDataSizeInBytes := htv
      have k2 : capturedImage.mImage.buffer.getSizeInBytes
          = capturedImage.mImage.format.getDataSizeInBytes := hvalid
      rw [hsize, k1, k2, hfmt]
    have h1 := update_flip self capturedImage tempImage pending hcap hci ht hpending hsz
    obtain ⟨-, r2, r3, r4, -⟩ := flipImageVertically_run (Image.mk tempImage.format pending)
      capturedImage.mImage hvalid hfmt
    have hmidv : (flipImageVertically (Image.mk tempImage.format pending)
        capturedImage.mImage).2.destination.valid := by
      show (flipImageVertically (Image.mk tempImage.format pending)
          capturedImage.mImage).2.destination.buffer.bytes.length
        = (flipImageVertically (Image.mk tempImage.format pending)
          capturedImage.mImage).2.destination.format.getDataSizeInBytes
      rw [r4, r3]
      exact hvalid
    have h2 := update_flip self.update
      { mImage := (flipImageVertically (Image.mk tempImage.format pending)
          capturedImage.mImage).2.destination
        mSequenceNumber := self.mInternals.mCapturedImageNumber
        mTimestampInSec := (self.mInternals.mCapturedImageTimestamp : ℚ) / 10000000 }
      (flipImageVertically (Image.mk tempImage.format pending) capturedImage.mImage).2.source
      pending (by rw [h1]; exact hcap) (by rw [h1]) (by rw [h1])
      (by rw [h1]; exact hpending) (by rw [r2])
    have hsame := flip_destination_determined (Image.mk tempImage.format pending)
      (flipImageVertically (Image.mk tempImage.format pending)
        capturedImage.mImage).2.destination
      capturedImage.mImage hmidv hvalid (by rw [r3]; exact hfmt) hfmt
    rw [r2] at h2
    simp only at h2
    rw [hsame] at h2
    rw [h2, h1]
    exact ⟨⟨_, rfl, rfl, rfl⟩, rfl, rfl, rfl⟩

end Device

theorem update_twice_notifies_twice_witness :
    sampleFlipping.update.update.notifications = sampleFlipping.notifications ++
      sampleFlipping.mListeners.map
        (fun l => Notification.mk l DeviceEvent.onDeviceCapturedImage true) ++
      sampleFlipping.mListeners.map
        (fun l => Notification.mk l DeviceEvent.onDeviceCapturedImage true) :=
  (Device.update_twice_notifies_twice sampleFlipping
    (CapturedImage.create { width := 1, height := 2, encoding := Encoding.BGR24 })
    { bytes := [1, 2, 3, 4, 5, 6] } (by decide) (by decide) (by decide)
    (fun tempImage ht => by
      have hsome : sampleFlipping.mTempImage
          = some (Image.create { width := 1, height := 2, encoding := Encoding.BGR24 }) := by
        decide
      rw [hsome] at ht
      cases ht
      exact ⟨by decide, by decide⟩)
    (by decide) (by decide)).2.2.1

/-! ## The device manager: the two passes of `updateDeviceList` -/

namespace DeviceManager

theorem getSymbolicLink_convertible (activate : Activate) (h : activate.convertible)
    (symbolicLink : String) : getSymbolicLink activate symbolicLink = activate.identifier := by
  unfold Activate.identifier getSymbolicLink
  unfold Activate.convertible at h
  cases hs : activate.symbolicLink with
  | failed => rfl
  | unconvertible => exact absurd hs h
  | converted text => rfl

theorem foundDevice_iff (mDevices : List DeviceRef) (symbolicLink : String) :
    foundDevice mDevices symbolicLink = true ↔
      symbolicLink ∈ mDevices.map (fun d => d.object.getSymbolicLink) := by
  induction mDevices with
  | nil => simp [foundDevice]
  | cons d rest ih =>
    unfold foundDevice
    by_cases h : d.object.getSymbolicLink = symbolicLink
    · simp [h]
    · rw [if_neg h, ih]
      simp only [List.map_cons, List.mem_cons]
      constructor
      · intro hm
        exact Or.inr hm
      · intro hm
        rcases hm with hm | hm
        · exact absurd hm.symm h
        · exact hm

theorem newActivatesLoop_eq (mDevices : List DeviceRef) (activates : List Activate)
    (hconv : ∀ a ∈ activates, a.convertible) (symbolicLink : String)
    (newActivates : List Activate) :
    (newActivatesLoop mDevices activates (symbolicLink, newActivates)).2
      = newActivates ++ activates.filter (fun a => !foundDevice mDevices a.identifier) := by
  induction activates generalizing symbolicLink newActivates with
  | nil => simp [newActivatesLoop]
  | cons a rest ih =>
    unfold newActivatesLoop
    simp only
    rw [getSymbolicLink_convertible a (hconv a (List.mem_cons_self _ _)),
      ih (fun x hx => hconv x (List.mem_cons_of_mem _ hx))]
    cases hf : foundDevice mDevices a.identifier
    · simp [List.filter_cons, hf]
    · simp [List.filter_cons, hf]

theorem foundActivate_iff (deviceSymbolicLink : String) (activates : List Activate)
    (hconv : ∀ a ∈ activates, a.convertible) (symbolicLink : String) :
    (foundActivate deviceSymbolicLink activates symbolicLink).1 = true ↔
      deviceSymbolicLink ∈ activates.map Activate.identifier := by
  induction activates generalizing symbolicLink with
  | nil => simp [foundActivate]
  | cons a rest ih =>
    unfold foundActivate
    simp only
    rw [getSymbolicLink_convertible a (hconv a (List.mem_cons_self _ _))]
    by_cases h : deviceSymbolicLink = a.identifier
    · simp [h]
    · rw [if_neg h, ih (fun x hx => hconv x (List.mem_cons_of_mem _ hx))]
      simp only [List.map_cons, List.mem_cons]
      constructor
      · intro hm
        exact Or.inr hm
      · intro hm
        rcases hm with hm | hm
        · exact absurd hm h
        · exact hm

theorem removedDevicesLoop_eq (activates : List Activate)
    (hconv : ∀ a ∈ activates, a.convertible) (devices : List DeviceRef) (symbolicLink : String)
    (removedDevices : List DeviceRef) :
    (removedDevicesLoop activates devices (symbolicLink, removedDevices)).2
      = removedDevices ++ devices.filter
          (fun d => !decide (d.object.getSymbolicLink ∈ activates.map Activate.identifier)) := by
  induction devices generalizing symbolicLink removedDevices with
  | nil => simp [removedDevicesLoop]
  | cons d rest ih =>
    unfold removedDevicesLoop
    simp only
    rw [ih]
    have hiff := foundActivate_iff d.object.getSymbolicLink activates hconv symbolicLink
    by_cases hm : d.object.getSymbolicLink ∈ activates.map Activate.identifier
    · have h1 := hiff.mpr hm
      rw [h1, List.filter_cons]
      simp only [hm, decide_True, Bool.not_true, Bool.false_eq_true, if_false]
    · have h1 : (foundActivate d.object.getSymbolicLink activates symbolicLink).1 = false := by
        cases hb : (foundActivate d.object.getSymbolicLink activates symbolicLink).1
        · rfl
        · exact absurd (hiff.mp hb) hm
      rw [h1, List.filter_cons]
      simp only [hm, decide_False, Bool.not_false, if_true, List.append_assoc,
        List.singleton_append]

theorem createDevice_eq (self : DeviceManager) (activate : Activate) :
    self.createDevice activate =
      { mUpdateDeviceListAtNextUpdate := self.mUpdateDeviceListAtNextUpdate
        mDevices := self.mDevices ++ newDevices self.created [activate]
        mListeners := self.mListeners
        notifications := self.notifications
          ++ addedLog self.mListeners self.liveIdentities self.created 1
        created := self.created + 1
        enumerations := self.enumerations } := by
  simp [createDevice, notify, newDevices, addedLog, liveIdentities, Activate.identifier]

theorem identity_newDevices (first : Nat) (activates : List Activate) :
    (newDevices first activates).map DeviceRef.identity = List.range' first activates.length := by
  induction activates generalizing first with
  | nil => rfl
  | cons a rest ih =>
    simp [newDevices, ih, List.range'_succ]

theorem link_newDevices (first : Nat) (activates : List Activate) :
    (newDevices first activates).map (fun d => d.object.getSymbolicLink)
      = activates.map Activate.identifier := by
  induction activates generalizing first with
  | nil => rfl
  | cons a rest ih =>
    simp only [newDevices, List.map_cons, ih]
    rfl

theorem addedLog_succ (listeners devices : List Nat) (first count : Nat) :
    addedLog listeners devices first (count + 1)
      = addedLog listeners devices first 1
        ++ addedLog listeners (devices ++ [first]) (first + 1) count := by
  simp [addedLog]

/-- The loop "Create and add the new Devices". -/
theorem foldl_createDevice (activates : List Activate) (self : DeviceManager) :
    activates.foldl createDevice self =
      { mUpdateDeviceListAtNextUpdate := self.mUpdateDeviceListAtNextUpdate
        mDevices := self.mDevices ++ newDevices self.created activates
        mListeners := self.mListeners
        notifications := self.notifications
          ++ addedLog self.mListeners self.liveIdentities self.created activates.length
        created := self.created + activates.length
        enumerations := self.enumerations } := by
  induction activates generalizing self with
  | nil => simp [newDevices, addedLog]
  | cons a rest ih =>
    rw [List.foldl_cons, ih, createDevice_eq]
    conv_rhs => rw [List.length_cons, addedLog_succ]
    simp only [liveIdentities, List.map_append, List.append_assoc, newDevices, List.map_cons,
      List.map_nil, List.singleton_append, List.nil_append]
    have e : self.created + 1 + rest.length = self.created + (rest.length + 1) := by omega
    rw [e]

/-- Erasing at the position `std::find` returns, in a vector of distinct pointers, removes
the pointer searched and nothing else. -/
theorem eraseIdx_findIdx_identity (devices : List DeviceRef) (device : Nat)
    (hnodup : (devices.map DeviceRef.identity).Nodup) :
    devices.eraseIdx (devices.findIdx (fun d => d.identity == device))
      = devices.filter (fun d => d.identity != device) := by
  induction devices with
  | nil => rfl
  | cons x xs ih =>
    have hx : x.identity ∉ xs.map DeviceRef.identity := (List.nodup_cons.mp hnodup).1
    have hxs : (xs.map DeviceRef.identity).Nodup := (List.nodup_cons.mp hnodup).2
    by_cases h : x.identity = device
    · have hall : xs.filter (fun d => d.identity != device) = xs := by
        apply List.filter_eq_self.mpr
        intro d hd
        have : d.identity ≠ device := by
          intro he
          apply hx
          rw [h, ← he]
          exact List.mem_map_of_mem _ hd
        simpa using this
      simp [List.findIdx_cons, List.filter_cons, h, hall]
    · have hb : (x.identity == device) = false := by simpa using h
      rw [List.findIdx_cons, hb, List.filter_cons]
      simp only [cond_false, List.eraseIdx_cons_succ, ih hxs, bne, hb, Bool.not_false, if_true]

theorem findIdx_identity_lt (devices : List DeviceRef) (device : Nat)
    (hmem : device ∈ devices.map DeviceRef.identity) :
    devices.findIdx (fun d => d.identity == device) ≠ devices.length := by
  obtain ⟨d, hd, hid⟩ := List.mem_map.mp hmem
  have hlt : devices.findIdx (fun d => d.identity == device) < devices.length :=
    List.findIdx_lt_length_of_exists ⟨d, hd, by simp [hid]⟩
  omega

theorem deleteDevice_absent (self : DeviceManager) (device : Nat)
    (habsent : device ∉ self.liveIdentities) : self.deleteDevice device = self := by
  unfold deleteDevice
  simp only
  have h : self.mDevices.findIdx (fun d => d.identity == device) = self.mDevices.length := by
    apply List.findIdx_eq_length.mpr
    intro d hd
    have : d.identity ≠ device := by
      intro he
      apply habsent
      rw [← he]
      exact List.mem_map_of_mem _ hd
    simpa using this
  rw [if_pos h]

theorem deleteDevice_eq (self : DeviceManager) (device : Nat)
    (hnodup : self.liveIdentities.Nodup) (hmem : device ∈ self.liveIdentities) :
    self.deleteDevice device =
      { mUpdateDeviceListAtNextUpdate := self.mUpdateDeviceListAtNextUpdate
        mDevices := self.mDevices.filter (fun d => d.identity != device)
        mListeners := self.mListeners
        notifications := self.notifications
          ++ removedLog self.mListeners self.liveIdentities [device]
        created := self.created
        enumerations := self.enumerations } := by
  unfold deleteDevice
  simp only
  rw [if_neg (findIdx_identity_lt self.mDevices device hmem)]
  have he := eraseIdx_findIdx_identity self.mDevices device hnodup
  simp only [notify, he]
  simp [removedLog, liveIdentities, List.filter_map, Function.comp_def]

theorem identity_filter (devices : List DeviceRef) (device : Nat) :
    (devices.filter (fun d => d.identity != device)).map DeviceRef.identity
      = (devices.map DeviceRef.identity).filter (fun d => d != device) := by
  simp [List.filter_map, Function.comp_def]

theorem removedLog_cons (listeners devices : List Nat) (device : Nat) (rest : List Nat) :
    removedLog listeners devices (device :: rest)
      = removedLog listeners devices [device]
        ++ removedLog listeners (devices.filter (fun d => d != device)) rest := by
  simp [removedLog]

/-- The loop "Remove detached Devices", run on distinct live devices. -/
theorem foldl_deleteDevice (removed : List DeviceRef) (self : DeviceManager)
    (hnodup : self.liveIdentities.Nodup)
    (hsub : ∀ r ∈ removed, r.identity ∈ self.liveIdentities)
    (hrn : (removed.map DeviceRef.identity).Nodup) :
    removed.foldl (fun s device => s.deleteDevice device.identity) self =
      { mUpdateDeviceListAtNextUpdate := self.mUpdateDeviceListAtNextUpdate
        mDevices := self.mDevices.filter
          (fun d => !decide (d.identity ∈ removed.map DeviceRef.identity))
        mListeners := self.mListeners
        notifications := self.notifications
          ++ removedLog self.mListeners self.liveIdentities (removed.map DeviceRef.identity)
        created := self.created
        enumerations := self.enumerations } := by
  induction removed generalizing self with
  | nil => simp [removedLog]
  | cons r rest ih =>
    have hr : r.identity ∉ rest.map DeviceRef.identity := (List.nodup_cons.mp hrn).1
    have hrest : (rest.map DeviceRef.identity).Nodup := (List.nodup_cons.mp hrn).2
    rw [List.foldl_cons, deleteDevice_eq self r.identity hnodup (hsub r (List.mem_cons_self _ _))]
    have hlive : ∀ x ∈ rest, x.identity ∈
        (self.mDevices.filter (fun d => d.identity != r.identity)).map DeviceRef.identity := by
      intro x hx
      rw [identity_filter]
      apply List.mem_filter.mpr
      refine ⟨hsub x (List.mem_cons_of_mem _ hx), ?_⟩
      have : x.identity ≠ r.identity := by
        intro he
        apply hr
        rw [← he]
        exact List.mem_map_of_mem _ hx
      simpa using this
    have hnd : ((self.mDevices.filter (fun d => d.identity != r.identity)).map
        DeviceRef.identity).Nodup := by
      rw [identity_filter]
      exact List.Nodup.filter _ hnodup
    rw [ih
      { mUpdateDeviceListAtNextUpdate := self.mUpdateDeviceListAtNextUpdate
        mDevices := self.mDevices.filter (fun d => d.identity != r.identity)
        mListeners := self.mListeners
        notifications := self.notifications
          ++ removedLog self.mListeners self.liveIdentities [r.identity]
        created := self.created
        enumerations := self.enumerations } hnd hlive hrest]
    simp only [liveIdentities, List.map_cons, identity_filter, List.append_assoc]
    conv_rhs => rw [removedLog_cons]
    congr 1
    rw [List.filter_filter]
    apply List.filter_congr
    intro d _
    by_cases h1 : d.identity = r.identity
    · simp [h1]
    · simp [h1]

theorem newActivatesLoop_run (self : DeviceManager) (currentActivates : List Activate)
    (hconv : ∀ a ∈ currentActivates, a.convertible) :
    (newActivatesLoop self.mDevices currentActivates ("", [])).2
      = self.newActivates currentActivates := by
  rw [newActivatesLoop_eq self.mDevices currentActivates hconv, List.nil_append]
  unfold newActivates liveLinks
  apply List.filter_congr
  intro a _
  by_cases h : a.identifier ∈ self.mDevices.map (fun d => d.object.getSymbolicLink)
  · rw [(foundDevice_iff _ _).mpr h]
    simp only [h, decide_True]
  · have hf : foundDevice self.mDevices a.identifier = false := by
      cases hb : foundDevice self.mDevices a.identifier
      · rfl
      · exact absurd ((foundDevice_iff _ _).mp hb) h
    rw [hf]
    simp only [h, decide_False]

theorem removedDevices_sub (self : DeviceManager) (currentActivates : List Activate) :
    (∀ r ∈ self.removedDevices currentActivates, r ∈ self.mDevices) ∧
    ((self.removedDevices currentActivates).map DeviceRef.identity).Sublist
      self.liveIdentities :=
  ⟨fun _ hr => (List.mem_filter.mp hr).1, (List.filter_sublist _).map _⟩

/-- In a list of distinct objects a device is found by its identity. -/
theorem mem_of_identity_mem (devices : List DeviceRef) (hnodup : (devices.map DeviceRef.identity).Nodup)
    (d : DeviceRef) (hd : d ∈ devices) (sub : List DeviceRef) (hsub : ∀ r ∈ sub, r ∈ devices)
    (hid : d.identity ∈ sub.map DeviceRef.identity) : d ∈ sub := by
  obtain ⟨r, hr, he⟩ := List.mem_map.mp hid
  have : r = d := List.inj_on_of_nodup_map hnodup (hsub r hr) hd he
  rw [← this]
  exact hr

/-- What `updateDeviceList` does when the symbolic link of every enumerated activation
object can be read: the kept devices stay in place, the new ones are appended, the
listeners are told of every creation, then of every removal. -/
theorem updateDeviceList_run (self : DeviceManager) (currentActivates : List Activate)
    (hwf : self.wellFormed) (hconv : ∀ a ∈ currentActivates, a.convertible) :
    self.updateDeviceList currentActivates =
      { mUpdateDeviceListAtNextUpdate := self.mUpdateDeviceListAtNextUpdate
        mDevices := self.keptDevices currentActivates
          ++ newDevices self.created (self.newActivates currentActivates)
        mListeners := self.mListeners
        notifications := self.notifications
          ++ addedLog self.mListeners self.liveIdentities self.created
              (self.newActivates currentActivates).length
          ++ removedLog self.mListeners
              (self.liveIdentities
                ++ List.range' self.created (self.newActivates currentActivates).length)
              ((self.removedDevices currentActivates).map DeviceRef.identity)
        created := self.created + (self.newActivates currentActivates).length
        enumerations := self.enumerations + 1 } := by
  obtain ⟨hnodup, hbound⟩ := hwf
  have hfresh : ∀ i ∈ List.range' self.created (self.newActivates currentActivates).length,
      i ∉ self.liveIdentities := by
    intro i hi hmem
    have h1 := hbound i hmem
    have h2 := (List.mem_range'_1.mp hi).1
    omega
  have hnodup' : (self.liveIdentities
      ++ List.range' self.created (self.newActivates currentActivates).length).Nodup := by
    apply List.Nodup.append hnodup (List.nodup_range' _ _)
    intro i h1 h2
    exact hfresh i h2 h1
  obtain ⟨hrsub, hrsl⟩ := removedDevices_sub self currentActivates
  unfold updateDeviceList
  simp only
  rw [removedDevicesLoop_eq currentActivates hconv, List.nil_append]
  have hnew := newActivatesLoop_run self currentActivates hconv
  simp only at hnew ⊢
  rw [hnew, foldl_createDevice]
  have hremoved : List.filter
      (fun d => !decide (d.object.getSymbolicLink ∈ List.map Activate.identifier currentActivates))
      self.mDevices = self.removedDevices currentActivates := rfl
  rw [hremoved]
  rw [foldl_deleteDevice (self.removedDevices currentActivates) _
    (by
      simp only [liveIdentities, List.map_append, identity_newDevices]
      exact hnodup')
    (by
      intro r hr
      simp only [liveIdentities, List.map_append]
      exact List.mem_append_left _ (List.mem_map_of_mem _ (hrsub r hr)))
    (hrsl.nodup hnodup)]
  simp only [liveIdentities, List.map_append, identity_newDevices, List.append_assoc]
  congr 1
  rw [List.filter_append]
  congr 1
  · unfold keptDevices
    apply List.filter_congr
    intro d hd
    by_cases hl : d.object.getSymbolicLink ∈ currentActivates.map Activate.identifier
    · have : d.identity ∉ (self.removedDevices currentActivates).map DeviceRef.identity := by
        intro hid
        have hmem := mem_of_identity_mem self.mDevices hnodup d hd _ hrsub hid
        have := (List.mem_filter.mp hmem).2
        simp [hl] at this
      simp only [this, hl, decide_True, decide_False, Bool.not_false]
    · have : d.identity ∈ (self.removedDevices currentActivates).map DeviceRef.identity := by
        apply List.mem_map_of_mem
        apply List.mem_filter.mpr
        exact ⟨hd, by simp [hl]⟩
      simp only [this, hl, decide_True, decide_False, Bool.not_true]
  · apply List.filter_eq_self.mpr
    intro d hd
    have hi : d.identity ∈ List.range' self.created
        (self.newActivates currentActivates).length := by
      rw [← identity_newDevices]
      exact List.mem_map_of_mem _ hd
    have : d.identity ∉ (self.removedDevices currentActivates).map DeviceRef.identity := by
      intro hid
      exact hfresh _ hi (hrsl.subset hid)
    simp only [this, decide_False, Bool.not_false]

end DeviceManager

/-! ## The device manager: the device list after `updateDeviceList` -/

namespace DeviceManager

theorem updateDeviceList_devices (self : DeviceManager) (currentActivates : List Activate)
    (hwf : self.wellFormed) (hconv : ∀ a ∈ currentActivates, a.convertible) :
    (self.updateDeviceList currentActivates).mDevices
      = self.keptDevices currentActivates
        ++ newDevices self.created (self.newActivates currentActivates) ∧
    (self.updateDeviceList currentActivates).created
      = self.created + (self.newActivates currentActivates).length ∧
    (self.updateDeviceList currentActivates).mListeners = self.mListeners ∧
    (self.updateDeviceList currentActivates).mUpdateDeviceListAtNextUpdate
      = self.mUpdateDeviceListAtNextUpdate ∧
    (self.updateDeviceList currentActivates).enumerations = self.enumerations + 1 := by
  rw [updateDeviceList_run self currentActivates hwf hconv]
  exact ⟨rfl, rfl, rfl, rfl, rfl⟩

theorem updateDeviceList_liveLinks (self : DeviceManager) (currentActivates : List Activate)
    (hwf : self.wellFormed) (hconv : ∀ a ∈ currentActivates, a.convertible) :
    (self.updateDeviceList currentActivates).liveLinks
      = self.liveLinks.filter (fun l => decide (l ∈ currentActivates.map Activate.identifier))
        ++ (currentActivates.map Activate.identifier).filter
            (fun l => !decide (l ∈ self.liveLinks)) := by
  unfold liveLinks
  rw [(updateDeviceList_devices self currentActivates hwf hconv).1, List.map_append,
    link_newDevices]
  unfold keptDevices newActivates liveLinks
  simp [List.filter_map, Function.comp_def]

theorem updateDeviceList_liveIdentities (self : DeviceManager)
    (currentActivates : List Activate)
    (hwf : self.wellFormed) (hconv : ∀ a ∈ currentActivates, a.convertible) :
    (self.updateDeviceList currentActivates).liveIdentities
      = (self.keptDevices currentActivates).map DeviceRef.identity
        ++ List.range' self.created (self.newActivates currentActivates).length := by
  unfold liveIdentities
  rw [(updateDeviceList_devices self currentActivates hwf hconv).1, List.map_append,
    identity_newDevices]

/-- `updateDeviceList` keeps the devices distinct objects created by the manager. -/
theorem updateDeviceList_wellFormed (self : DeviceManager) (currentActivates : List Activate)
    (hwf : self.wellFormed) (hconv : ∀ a ∈ currentActivates, a.convertible) :
    (self.updateDeviceList currentActivates).wellFormed := by
  have hids := updateDeviceList_liveIdentities self currentActivates hwf hconv
  have hcreated := (updateDeviceList_devices self currentActivates hwf hconv).2.1
  obtain ⟨hnodup, hbound⟩ := hwf
  have hsub : ((self.keptDevices currentActivates).map DeviceRef.identity).Sublist
      self.liveIdentities := (List.filter_sublist _).map _
  unfold wellFormed
  rw [hids, hcreated]
  constructor
  · apply List.Nodup.append (hsub.nodup hnodup) (List.nodup_range' _ _)
    intro i h1 h2
    have k1 := hbound i (hsub.subset h1)
    have k2 := (List.mem_range'_1.mp h2).1
    omega
  · intro i hi
    rcases List.mem_append.mp hi with h | h
    · have := hbound i (hsub.subset h)
      omega
    · have := (List.mem_range'_1.mp h).2
      omega

/-- With distinct live symbolic links and distinct enumerated identifiers, the symbolic
links after `updateDeviceList` are distinct. -/
theorem updateDeviceList_nodup (self : DeviceManager) (currentActivates : List Activate)
    (hwf : self.wellFormed) (hlive : self.liveLinks.Nodup)
    (hconv : ∀ a ∈ currentActivates, a.convertible)
    (henum : (currentActivates.map Activate.identifier).Nodup) :
    (self.updateDeviceList currentActivates).liveLinks.Nodup := by
  rw [updateDeviceList_liveLinks self currentActivates hwf hconv]
  apply List.Nodup.append (hlive.filter _) (henum.filter _)
  intro l h1 h2
  have k1 := (List.mem_filter.mp h1).1
  have k2 := (List.mem_filter.mp h2).2
  simp [k1] at k2

theorem mem_updateDeviceList_liveLinks (self : DeviceManager)
    (currentActivates : List Activate)
    (hwf : self.wellFormed) (hconv : ∀ a ∈ currentActivates, a.convertible) (link : String) :
    link ∈ (self.updateDeviceList currentActivates).liveLinks
      ↔ link ∈ currentActivates.map Activate.identifier := by
  rw [updateDeviceList_liveLinks self currentActivates hwf hconv]
  constructor
  · intro h
    rcases List.mem_append.mp h with h | h
    · simpa using (List.mem_filter.mp h).2
    · exact (List.mem_filter.mp h).1
  · intro h
    by_cases hl : link ∈ self.liveLinks
    · exact List.mem_append_left _ (List.mem_filter.mpr ⟨hl, by simpa using h⟩)
    · exact List.mem_append_right _ (List.mem_filter.mpr ⟨h, by simpa using hl⟩)

end DeviceManager

/-! ## The device manager: the diff of `updateDeviceList` -/

namespace DeviceManager

theorem identifier_rename (rename : Activate → AllocatedString) (a : Activate) :
    Activate.identifier { a with friendlyName := rename a } = a.identifier := rfl

/-- The friendly names of the enumerated activation objects play no part in which devices
are kept, removed or created. -/
theorem updateDeviceList_rename (self : DeviceManager) (currentActivates : List Activate)
    (hwf : self.wellFormed) (hconv : ∀ a ∈ currentActivates, a.convertible)
    (rename : Activate → AllocatedString) :
    (self.updateDeviceList
        (currentActivates.map (fun a => { a with friendlyName := rename a }))).liveIdentities
      = (self.updateDeviceList currentActivates).liveIdentities ∧
    (self.updateDeviceList
        (currentActivates.map (fun a => { a with friendlyName := rename a }))).liveLinks
      = (self.updateDeviceList currentActivates).liveLinks := by
  have hconv' : ∀ a ∈ currentActivates.map (fun a => { a with friendlyName := rename a }),
      a.convertible := by
    intro a ha
    obtain ⟨b, hb, rfl⟩ := List.mem_map.mp ha
    exact hconv b hb
  have hids : (currentActivates.map (fun a => { a with friendlyName := rename a })).map
      Activate.identifier = currentActivates.map Activate.identifier := by
    rw [List.map_map]
    rfl
  have hkept : self.keptDevices (currentActivates.map
      (fun a => { a with friendlyName := rename a })) = self.keptDevices currentActivates := by
    unfold keptDevices
    rw [hids]
  have hnew : (self.newActivates (currentActivates.map
      (fun a => { a with friendlyName := rename a }))).length
      = (self.newActivates currentActivates).length := by
    unfold newActivates
    rw [List.filter_map, List.length_map]
    rfl
  constructor
  · rw [updateDeviceList_liveIdentities self _ hwf hconv',
      updateDeviceList_liveIdentities self _ hwf hconv, hkept, hnew]
  · rw [updateDeviceList_liveLinks self _ hwf hconv',
      updateDeviceList_liveLinks self _ hwf hconv, hids]

set_option maxRecDepth 100000 in
/-- The diff of `updateDeviceList` on readable enumerations: for a manager whose live
devices are distinct objects with pairwise distinct symbolic links and an enumeration
whose symbolic links can be read and are pairwise distinct, after `updateDeviceList` the
device list is the kept devices (those whose symbolic link is enumerated: the same
objects, in their former order) followed by one new device per enumerated identifier that
no live device had, in enumeration order; the live symbolic links are exactly the
enumerated identifiers; every device whose symbolic link is not enumerated is gone; the
friendly names play no part. In particular a manager holding `A`, `B` that then
enumerates `B`, `C` holds `B`, `C`, its first device being the object that was its
second. -/
theorem updateDeviceList_diff (self : DeviceManager) (currentActivates : List Activate)
    (hwf : self.wellFormed) (hlive : self.liveLinks.Nodup)
    (hconv : ∀ a ∈ currentActivates, a.convertible)
    (henum : (currentActivates.map Activate.identifier).Nodup) :
    (self.updateDeviceList currentActivates).mDevices
      = self.keptDevices currentActivates
        ++ newDevices self.created (self.newActivates currentActivates) ∧
    (∀ link, link ∈ (self.updateDeviceList currentActivates).liveLinks
      ↔ link ∈ currentActivates.map Activate.identifier) ∧
    (self.updateDeviceList currentActivates).liveLinks.Nodup ∧
    (∀ d ∈ self.mDevices,
      d.object.getSymbolicLink ∈ currentActivates.map Activate.identifier →
        d ∈ (self.updateDeviceList currentActivates).mDevices) ∧
    (self.keptDevices currentActivates).Sublist self.mDevices ∧
    (∀ d ∈ self.mDevices,
      d.object.getSymbolicLink ∉ currentActivates.map Activate.identifier →
        d.identity ∉ (self.updateDeviceList currentActivates).liveIdentities) ∧
    (newDevices self.created (self.newActivates currentActivates)).map
        (fun d => d.object.getSymbolicLink)
      = (currentActivates.map Activate.identifier).filter
          (fun l => !decide (l ∈ self.liveLinks)) ∧
    (∀ d ∈ newDevices self.created (self.newActivates currentActivates),
      d.identity ∉ self.liveIdentities) ∧
    (∀ rename : Activate → AllocatedString,
      (self.updateDeviceList
          (currentActivates.map (fun a => { a with friendlyName := rename a }))).liveIdentities
        = (self.updateDeviceList currentActivates).liveIdentities ∧
      (self.updateDeviceList
          (currentActivates.map (fun a => { a with friendlyName := rename a }))).liveLinks
        = (self.updateDeviceList currentActivates).liveLinks) ∧
    (managerAB.liveLinks = ["A", "B"] ∧
      ((managerAB.wndProcHook 1 WM_DEVICECHANGE).update enumerationBC).liveLinks = ["B", "C"] ∧
      ((managerAB.wndProcHook 1 WM_DEVICECHANGE).update enumerationBC).mDevices[0]?
        = managerAB.mDevices[1]?) := by
  have hdev := (updateDeviceList_devices self currentActivates hwf hconv).1
  have hids := updateDeviceList_liveIdentities self currentActivates hwf hconv
  refine ⟨hdev, mem_updateDeviceList_liveLinks self currentActivates hwf hconv,
    updateDeviceList_nodup self currentActivates hwf hlive hconv henum, ?_,
    List.filter_sublist _, ?_, ?_, ?_,
    updateDeviceList_rename self currentActivates hwf hconv, by decide⟩
  · intro d hd hl
    rw [hdev]
    apply List.mem_append_left
    exact List.mem_filter.mpr ⟨hd, by simpa using hl⟩
  · intro d hd hl hmem
    rw [hids] at hmem
    rcases List.mem_append.mp hmem with h | h
    · have hk : d ∈ self.keptDevices currentActivates :=
        mem_of_identity_mem self.mDevices hwf.1 d hd _
          (fun r hr => (List.mem_filter.mp hr).1) h
      have := (List.mem_filter.mp hk).2
      simp [hl] at this
    · have k1 := hwf.2 d.identity (List.mem_map_of_mem _ hd)
      have k2 := (List.mem_range'_1.mp h).1
      omega
  · rw [link_newDevices]
    unfold newActivates
    simp [List.filter_map, Function.comp_def]
  · intro d hd hmem
    have hi : d.identity ∈ List.range' self.created
        (self.newActivates currentActivates).length := by
      rw [← identity_newDevices]
      exact List.mem_map_of_mem _ hd
    have k1 := hwf.2 d.identity hmem
    have k2 := (List.mem_range'_1.mp hi).1
    omega

end DeviceManager

set_option maxRecDepth 100000 in
theorem updateDeviceList_diff_witness :
    (managerAB.updateDeviceList enumerationBC).liveLinks.Nodup ∧
    (managerAB.updateDeviceList enumerationBC).liveLinks = ["B", "C"] ∧
    (managerAB.updateDeviceList enumerationBC).liveIdentities = [1, 2] :=
  ⟨(DeviceManager.updateDeviceList_diff managerAB enumerationBC (by decide) (by decide)
      (by decide) (by decide)).2.2.1,
   by decide, by decide⟩

/-! ## The device manager: when `update` enumerates -/

namespace Device

/-- `Device::update` changes neither the name nor the symbolic link. -/
theorem update_identity (self : Device) :
    self.update.getSymbolicLink = self.getSymbolicLink ∧ self.update.getName = self.getName := by
  unfold update getSymbolicLink getName
  split
  · exact ⟨rfl, rfl⟩
  · split
    · exact ⟨rfl, rfl⟩
    · split
      · simp only
        split
        · exact ⟨rfl, rfl⟩
        · exact ⟨rfl, rfl⟩
      · simp only
        split
        · exact ⟨rfl, rfl⟩
        · exact ⟨rfl, rfl⟩

end Device

namespace DeviceManager

theorem deleteDevice_enumerations (self : DeviceManager) (device : Nat) :
    (self.deleteDevice device).enumerations = self.enumerations ∧
    (self.deleteDevice device).mUpdateDeviceListAtNextUpdate
      = self.mUpdateDeviceListAtNextUpdate := by
  unfold deleteDevice
  simp only
  split
  · exact ⟨rfl, rfl⟩
  · exact ⟨rfl, rfl⟩

theorem foldl_deleteDevice_enumerations (removed : List DeviceRef) (self : DeviceManager) :
    (removed.foldl (fun s device => s.deleteDevice device.identity) self).enumerations
      = self.enumerations := by
  induction removed generalizing self with
  | nil => rfl
  | cons r rest ih => rw [List.foldl_cons, ih, (deleteDevice_enumerations self r.identity).1]

/-- Every call of `updateDeviceList` is one enumeration, whatever is enumerated. -/
theorem updateDeviceList_enumerations (self : DeviceManager)
    (currentActivates : List Activate) :
    (self.updateDeviceList currentActivates).enumerations = self.enumerations + 1 := by
  unfold updateDeviceList
  simp only
  rw [foldl_deleteDevice_enumerations, foldl_createDevice]

/-- The part of `update` that follows the test of the flag leaves identities, symbolic
links and everything but the devices' own state as they are. -/
theorem liveLinks_map_update (devices : List DeviceRef) :
    (devices.map (fun d => { d with object := d.object.update })).map
        (fun d => d.object.getSymbolicLink)
      = devices.map (fun d => d.object.getSymbolicLink) ∧
    (devices.map (fun d => { d with object := d.object.update })).map DeviceRef.identity
      = devices.map DeviceRef.identity := by
  constructor
  · rw [List.map_map]
    apply List.map_congr_left
    intro d _
    exact (Device.update_identity d.object).1
  · rw [List.map_map]
    rfl

theorem update_flagged (self : DeviceManager) (currentActivates : List Activate)
    (hflag : self.mUpdateDeviceListAtNextUpdate = true) :
    (self.update currentActivates).enumerations = self.enumerations + 1 ∧
    (self.update currentActivates).mUpdateDeviceListAtNextUpdate = false ∧
    (self.update currentActivates).liveLinks = (self.updateDeviceList currentActivates).liveLinks ∧
    (self.update currentActivates).liveIdentities
      = (self.updateDeviceList currentActivates).liveIdentities ∧
    (self.update currentActivates).created = (self.updateDeviceList currentActivates).created ∧
    (self.update currentActivates).notifications
      = (self.updateDeviceList currentActivates).notifications ∧
    (self.update currentActivates).mListeners
      = (self.updateDeviceList currentActivates).mListeners := by
  unfold update liveLinks liveIdentities
  rw [if_pos hflag]
  exact ⟨updateDeviceList_enumerations self currentActivates, rfl,
    (liveLinks_map_update _).1, (liveLinks_map_update _).2, rfl, rfl, rfl⟩

theorem update_unflagged (self : DeviceManager) (currentActivates : List Activate)
    (hflag : self.mUpdateDeviceListAtNextUpdate = false) :
    (self.update currentActivates).enumerations = self.enumerations ∧
    (self.update currentActivates).mUpdateDeviceListAtNextUpdate = false ∧
    (self.update currentActivates).liveLinks = self.liveLinks ∧
    (self.update currentActivates).liveIdentities = self.liveIdentities ∧
    (self.update currentActivates).created = self.created ∧
    (self.update currentActivates).notifications = self.notifications ∧
    (self.update currentActivates).mListeners = self.mListeners := by
  unfold update liveLinks liveIdentities
  rw [if_neg (by rw [hflag]; exact Bool.false_ne_true)]
  exact ⟨rfl, hflag, (liveLinks_map_update _).1, (liveLinks_map_update _).2, rfl, rfl, rfl⟩

/-- A call other than a poll changes the flag at most: it is set by a device-change
event and kept by everything else. -/
theorem perform_not_update (self : DeviceManager) (call : ManagerCall)
    (hcall : call.isUpdate = false) :
    (self.perform call).mUpdateDeviceListAtNextUpdate
      = (self.mUpdateDeviceListAtNextUpdate || call.isDeviceChange) ∧
    (self.perform call).enumerations = self.enumerations ∧
    (self.perform call).mDevices = self.mDevices ∧
    (self.perform call).notifications = self.notifications ∧
    (self.perform call).created = self.created := by
  cases call with
  | update currentActivates => simp [ManagerCall.isUpdate] at hcall
  | wndProcHook wParam message =>
    simp only [perform, wndProcHook, ManagerCall.isDeviceChange]
    by_cases h1 : wParam = 0
    · simp [h1]
    · by_cases h2 : message = WM_DEVICECHANGE
      · simp [h1, h2]
      · simp [h1, h2]
  | addListener listener => simp [perform, addListener, ManagerCall.isDeviceChange]
  | removeListener listener =>
    simp only [perform, removeListener, ManagerCall.isDeviceChange, Bool.or_false]
    split
    · exact ⟨rfl, rfl, rfl, rfl, rfl⟩
    · exact ⟨rfl, rfl, rfl, rfl, rfl⟩

theorem performAll_not_update (calls : List ManagerCall) (self : DeviceManager)
    (hcalls : ∀ c ∈ calls, c.isUpdate = false) :
    (self.performAll calls).mUpdateDeviceListAtNextUpdate
      = (self.mUpdateDeviceListAtNextUpdate || calls.any ManagerCall.isDeviceChange) ∧
    (self.performAll calls).enumerations = self.enumerations ∧
    (self.performAll calls).mDevices = self.mDevices ∧
    (self.performAll calls).notifications = self.notifications ∧
    (self.performAll calls).created = self.created := by
  induction calls generalizing self with
  | nil => simp [performAll]
  | cons c rest ih =>
    obtain ⟨h1, h2, h3, h4, h5⟩ := perform_not_update self c (hcalls c (List.mem_cons_self _ _))
    obtain ⟨k1, k2, k3, k4, k5⟩ := ih (self.perform c)
      (fun x hx => hcalls x (List.mem_cons_of_mem _ hx))
    have e : self.performAll (c :: rest) = (self.perform c).performAll rest := rfl
    rw [e, k1, k2, k3, k4, k5, h1, h2, h3, h4, h5, List.any_cons, Bool.or_assoc]
    exact ⟨rfl, rfl, rfl, rfl, rfl⟩

/-- C23: `update` enumerates exactly when the flag is set, once, and leaves the flag
clear; the flag is set by the constructor, so the first `update` enumerates; after any
calls other than `update` of which at least one is a device-change event taken into
account by the hook, the next `update` enumerates exactly once however many events there
were; after an `update` followed by calls none of which is such an event (nor an
`update`), the next `update` does not enumerate and leaves the identities and symbolic
links of the devices and the listener calls as they were. -/
theorem update_enumerates_when_flagged (self : DeviceManager)
    (currentActivates : List Activate) :
    (self.update currentActivates).enumerations
      = self.enumerations + (if self.mUpdateDeviceListAtNextUpdate then 1 else 0) ∧
    (self.update currentActivates).mUpdateDeviceListAtNextUpdate = false ∧
    (create.enumerations = 0 ∧ (create.update currentActivates).enumerations = 1) ∧
    (∀ calls : List ManagerCall, (∀ c ∈ calls, c.isUpdate = false) →
      (∃ c ∈ calls, c.isDeviceChange = true) →
        ((self.performAll calls).update currentActivates).enumerations
          = self.enumerations + 1) ∧
    (∀ (previous : List Activate) (calls : List ManagerCall),
      (∀ c ∈ calls, c.isUpdate = false ∧ c.isDeviceChange = false) →
        (((self.update previous).performAll calls).update currentActivates).enumerations
          = (self.update previous).enumerations ∧
        (((self.update previous).performAll calls).update currentActivates).liveIdentities
          = (self.update previous).liveIdentities ∧
        (((self.update previous).performAll calls).update currentActivates).liveLinks
          = (self.update previous).liveLinks ∧
        (((self.update previous).performAll calls).update currentActivates).notifications
          = (self.update previous).notifications) := by
  have hclear : ∀ (s : DeviceManager) (E : List Activate),
      (s.update E).mUpdateDeviceListAtNextUpdate = false := by
    intro s E
    cases hf : s.mUpdateDeviceListAtNextUpdate
    · exact (update_unflagged s E hf).2.1
    · exact (update_flagged s E hf).2.1
  refine ⟨?_, hclear self currentActivates, ⟨rfl, ?_⟩, ?_, ?_⟩
  · cases hf : self.mUpdateDeviceListAtNextUpdate
    · rw [(update_unflagged self currentActivates hf).1]
      simp
    · rw [(update_flagged self currentActivates hf).1]
      simp
  · exact (update_flagged create currentActivates rfl).1
  · intro calls hcalls hex
    obtain ⟨h1, h2, -⟩ := performAll_not_update calls self hcalls
    have hany : calls.any ManagerCall.isDeviceChange = true := List.any_eq_true.mpr hex
    rw [hany, Bool.or_true] at h1
    rw [(update_flagged _ currentActivates h1).1, h2]
  · intro previous calls hcalls
    obtain ⟨h1, h2, h3, h4, -⟩ := performAll_not_update calls (self.update previous)
      (fun c hc => (hcalls c hc).1)
    have hany : calls.any ManagerCall.isDeviceChange = false := by
      apply List.any_eq_false.mpr
      intro c hc
      simp [(hcalls c hc).2]
    rw [hany, Bool.or_false, hclear self previous] at h1
    obtain ⟨u1, -, u3, u4, -, u6, -⟩ := update_unflagged _ currentActivates h1
    rw [u1, u3, u4, u6, h2, h4]
    unfold liveLinks liveIdentities
    rw [h3]
    exact ⟨rfl, rfl, rfl, rfl⟩

end DeviceManager

set_option maxRecDepth 100000 in
theorem update_enumerates_when_flagged_witness :
    managerAB.enumerations = 1 ∧
    ((managerAB.performAll
        [ManagerCall.wndProcHook 1 WM_DEVICECHANGE, ManagerCall.wndProcHook 1 WM_DEVICECHANGE,
         ManagerCall.wndProcHook 0 WM_DEVICECHANGE]).update enumerationBC).enumerations = 2 ∧
    ((managerAB.performAll [ManagerCall.wndProcHook 0 WM_DEVICECHANGE]).update
        enumerationBC).enumerations = 1 :=
  ⟨by decide,
   (DeviceManager.update_enumerates_when_flagged managerAB enumerationBC).2.2.2.1 _
     (by decide) (by decide),
   by decide⟩

/-! ## The device manager: what the listeners are told -/

namespace DeviceManager

theorem updateDeviceList_notifications (self : DeviceManager)
    (currentActivates : List Activate)
    (hwf : self.wellFormed) (hconv : ∀ a ∈ currentActivates, a.convertible) :
    (self.updateDeviceList currentActivates).notifications
      = self.notifications
        ++ addedLog self.mListeners self.liveIdentities self.created
            (self.newActivates currentActivates).length
        ++ removedLog self.mListeners
            (self.liveIdentities
              ++ List.range' self.created (self.newActivates currentActivates).length)
            ((self.removedDevices currentActivates).map DeviceRef.identity) := by
  rw [updateDeviceList_run self currentActivates hwf hconv]

/-- C24: in `createDevice` every listener, in registration order, is called with
`onDeviceAdding` while the device list is still the former one (the new device is not in
it), then every listener is called with `onDeviceAdded` and the new device, which is then
the last of the list; in `deleteDevice` of a live device every listener is called with
`onDeviceRemoving` while the device is in the list, then every listener with
`onDeviceRemoved` once it is erased; `updateDeviceList` makes these calls device by
device, first for every created device in enumeration order, then for every removed one,
so the calls about one device are not interleaved with those about another; a listener
is registered at the end of the listener list. -/
theorem listeners_told_device_by_device (self : DeviceManager)
    (currentActivates : List Activate)
    (hwf : self.wellFormed) (hconv : ∀ a ∈ currentActivates, a.convertible) :
    (∀ activate : Activate,
      (self.createDevice activate).notifications
        = self.notifications
          ++ self.mListeners.map
              (fun l => ManagerNotification.mk l ManagerEvent.onDeviceAdding
                self.liveIdentities)
          ++ self.mListeners.map
              (fun l => ManagerNotification.mk l (ManagerEvent.onDeviceAdded self.created)
                (self.liveIdentities ++ [self.created])) ∧
      self.created ∉ self.liveIdentities ∧
      (self.createDevice activate).liveIdentities = self.liveIdentities ++ [self.created]) ∧
    (∀ device ∈ self.liveIdentities,
      (self.deleteDevice device).notifications
        = self.notifications
          ++ self.mListeners.map
              (fun l => ManagerNotification.mk l (ManagerEvent.onDeviceRemoving device)
                self.liveIdentities)
          ++ self.mListeners.map
              (fun l => ManagerNotification.mk l (ManagerEvent.onDeviceRemoved device)
                (self.liveIdentities.filter (fun d => d != device))) ∧
      device ∉ self.liveIdentities.filter (fun d => d != device) ∧
      (self.deleteDevice device).liveIdentities
        = self.liveIdentities.filter (fun d => d != device)) ∧
    (self.updateDeviceList currentActivates).notifications
      = self.notifications
        ++ addedLog self.mListeners self.liveIdentities self.created
            (self.newActivates currentActivates).length
        ++ removedLog self.mListeners
            (self.liveIdentities
              ++ List.range' self.created (self.newActivates currentActivates).length)
            ((self.removedDevices currentActivates).map DeviceRef.identity) ∧
    (∀ listener, (self.addListener listener).mListeners = self.mListeners ++ [listener]) := by
  refine ⟨?_, ?_, updateDeviceList_notifications self currentActivates hwf hconv,
    fun _ => rfl⟩
  · intro activate
    refine ⟨?_, ?_, ?_⟩
    · rw [createDevice_eq]
      simp [addedLog]
    · intro hmem
      have := hwf.2 _ hmem
      omega
    · rw [createDevice_eq]
      simp [liveIdentities, newDevices]
  · intro device hmem
    rw [deleteDevice_eq self device hwf.1 hmem]
    refine ⟨?_, ?_, ?_⟩
    · simp [removedLog]
    · intro h
      have := (List.mem_filter.mp h).2
      simp at this
    · simp only [liveIdentities]
      exact identity_filter self.mDevices device

end DeviceManager

set_option maxRecDepth 100000 in
theorem listeners_told_device_by_device_witness :
    (managerAB.updateDeviceList enumerationBC).notifications
      = managerAB.notifications ++
        [ ⟨7, ManagerEvent.onDeviceAdding, [0, 1]⟩,
          ⟨7, ManagerEvent.onDeviceAdded 2, [0, 1, 2]⟩,
          ⟨7, ManagerEvent.onDeviceRemoving 0, [0, 1, 2]⟩,
          ⟨7, ManagerEvent.onDeviceRemoved 0, [1, 2]⟩ ] := by
  rw [(DeviceManager.listeners_told_device_by_device managerAB enumerationBC (by decide)
    (by decide)).2.2.1]
  decide

/-! ## The device manager: `updateDeviceList` on any enumeration -/

namespace DeviceManager

end DeviceManager

/-! ## The device manager: an enumeration with an unreadable symbolic link -/

namespace DeviceManager

set_option maxRecDepth 100000 in
/-- C22, the code at the failing input: the enumeration of the camera `A` and of a
camera whose symbolic link cannot be converted has the pairwise distinct identifiers `A`
and the empty string, and a manager that enumerated it holds two distinct devices with
these symbolic links; when it enumerates the same two cameras again, `updateDeviceList`
compares the unreadable entry under the string left by the entry before it, keeps only
the device `A` and deletes the device of the unreadable camera although its identifier
is enumerated, so the live symbolic links are not the identifiers of the enumeration. -/
theorem updateDeviceList_unreadable_link :
    enumerationUnreadable.map Activate.identifier = ["A", ""] ∧
    (enumerationUnreadable.map Activate.identifier).Nodup ∧
    managerUnreadable.liveLinks = ["A", ""] ∧
    managerUnreadable.liveIdentities = [0, 1] ∧
    managerUnreadable.wellFormed ∧
    (managerUnreadable.updateDeviceList enumerationUnreadable).liveLinks = ["A"] ∧
    (managerUnreadable.updateDeviceList enumerationUnreadable).liveIdentities = [0] ∧
    (managerUnreadable.update enumerationUnreadable).liveLinks = ["A"] ∧
    ¬ (∀ link, link ∈ (managerUnreadable.updateDeviceList enumerationUnreadable).liveLinks
        ↔ link ∈ enumerationUnreadable.map Activate.identifier) := by
  refine ⟨by decide, by decide, by decide, by decide, by decide, by decide, by decide,
    by decide, ?_⟩
  intro h
  have h1 : "" ∈ (managerUnreadable.updateDeviceList enumerationUnreadable).liveLinks :=
    (h "").mpr (by decide)
  revert h1
  decide

end DeviceManager

/-! ## The device manager: distinct identifiers -/

namespace DeviceManager

end DeviceManager

end RMF
